import Mathlib

/-!
Verification of the RFFE (RF Front-End control interface) protocol decoder
(`src/rffe/pd.py`, class `Decoder`).

The decoder is a Mealy-style state machine that pulls samples (SCLK, SDATA
levels) from a sample source through a blocking `wait(patterns)` primitive
and emits annotations (labeled sample intervals).  We give a shallow
embedding: samples are pairs of booleans, the sample source is a list, the
blocking `wait` is a function that scans the list until a pattern matches
(returning `none` at end of input, which ends decoding, exactly as the
EOFError raised by the real sample source does), and one `step` is one
iteration of the `decode` method's outer `while True` loop.  A run is a
fuel-bounded iteration of `step`; fuel only bounds the number of outer
loop iterations, inner bit-wait loops get canonical fuel (remaining stream
length + 1) which provably never runs out before the stream does.

All string constants ('FIND BUS_PARK', 'RW', ...) are kept verbatim from
the source.
-/

namespace RFFE

/-- One input sample: the boolean levels of channel 0 (SCLK) and
channel 1 (SDATA). -/
structure Sample where
  sclk : Bool
  sdata : Bool
deriving DecidableEq, Repr

/-- A per-channel wait condition, as in the `wait` pattern dicts of the
source: 'l' (level low), 'h' (level high), 'r' (rising edge), 'f'
(falling edge), 'e' (either edge). -/
inductive Cond where
  | low | high | rising | falling | edge
deriving DecidableEq, Repr

/-- A wait pattern: a list of (channel, condition) pairs, mirroring dicts
such as `{0: 'l', 1: 'e'}`.  Channel 0 is SCLK, channel 1 is SDATA. -/
abbrev Pattern := List (Nat × Cond)

/-- Level of a channel in a sample (channel 0 = SCLK, else SDATA). -/
def chanVal (s : Sample) (c : Nat) : Bool :=
  if c = 0 then s.sclk else s.sdata

/-- Whether one channel condition holds at the current sample, given the
previous sample's levels (edges need a previous sample; on the very first
sample edge conditions cannot match, as in libsigrokdecode). -/
def condMatch (prev : Option Sample) (cur : Sample) (c : Nat) (cond : Cond) : Bool :=
  match cond with
  | .low => !(chanVal cur c)
  | .high => chanVal cur c
  | .rising =>
    match prev with
    | none => false
    | some p => !(chanVal p c) && chanVal cur c
  | .falling =>
    match prev with
    | none => false
    | some p => chanVal p c && !(chanVal cur c)
  | .edge =>
    match prev with
    | none => false
    | some p => chanVal p c != chanVal cur c

/-- Whether a whole pattern (conjunction over its channels) matches. -/
def patMatch (prev : Option Sample) (cur : Sample) (p : Pattern) : Bool :=
  p.all fun pc => condMatch prev cur pc.1 pc.2

/-- Bitmask of matched patterns: bit `i` is set iff pattern `i` matches,
mirroring `self.matched` of the source API. -/
def maskOf (prev : Option Sample) (cur : Sample) : List Pattern → Nat
  | [] => 0
  | p :: ps => (if patMatch prev cur p then 1 else 0) + 2 * maskOf prev cur ps

/-- The sample-stream cursor: levels of the previously consumed sample (if
any), index of the next sample, and the remaining samples. -/
structure Str where
  prev : Option Sample
  idx : Nat
  rest : List Sample
deriving DecidableEq, Repr

/-- Core of `self.wait(patterns)`: advance sample by sample until some
pattern matches; return the matched mask, the matching sample's index and
levels, and the advanced cursor.  `none` when the stream is exhausted
(EOF, which ends decoding). -/
def waitCore (ps : List Pattern) (prev : Option Sample) (idx : Nat) :
    List Sample → Option (Nat × Nat × Sample × Str)
  | [] => none
  | s :: r =>
    let m := maskOf prev s ps
    if m ≠ 0 then some (m, idx, s, ⟨some s, idx + 1, r⟩)
    else waitCore ps (some s) (idx + 1) r

/-- One emitted annotation: start sample, end sample, protocol key (the
`proto` table key used in `putx`), and for multi-bit fields the pair
(bit-width parameter `key`, accumulated value). -/
structure Ann where
  ss : Int
  es : Int
  kind : String
  value : Option (Int × Nat)
deriving DecidableEq, Repr

/-- The decoder's instance state, one field per mutable attribute used by
the source (`reset`, `decode` and helpers), plus the annotation sink
output collected in order, plus the `address_format` option value (stored
on the decoder, never read by the decoding logic). -/
structure D where
  ss : Int
  es : Int
  bitcount : Nat
  databyte : Nat
  state : String
  extended : Int
  cmdkey : String
  BC : Nat
  Pcount : Nat
  BPcount : Nat
  ADDcount : Nat
  BPss : Int
  SSCs : Int
  Pes : Int
  DATAss : Int
  matched : Nat
  samplenum : Int
  anns : List Ann
  addressFormat : String
deriving DecidableEq, Repr

/-- `self.reset()`: the decoder state established at construction, with
the given `address_format` option value. -/
def initD (opt : String) : D :=
  { ss := -1, es := -1, bitcount := 0, databyte := 0,
    state := "FIND BUS_PARK", extended := -1, cmdkey := "NULL",
    BC := 0, Pcount := 0, BPcount := 0, ADDcount := 0,
    BPss := 0, SSCs := 0, Pes := 0, DATAss := 0,
    matched := 0, samplenum := 0, anns := [], addressFormat := opt }

/-- Initial cursor over a sample list. -/
def mkStr (l : List Sample) : Str := ⟨none, 0, l⟩

/-- `self.putx(data)`: emit an annotation over `[self.ss, self.es]`. -/
def putx (d : D) (kind : String) (v : Option (Int × Nat)) : D :=
  { d with anns := d.anns ++ [⟨d.ss, d.es, kind, v⟩] }

/-- `self.wait(patterns)` at the decoder level: sets `self.matched` and
`self.samplenum` and returns the matched sample's pin levels. -/
def dwait (d : D) (st : Str) (ps : List Pattern) : Option (D × Str × Sample) :=
  match waitCore ps st.prev st.idx st.rest with
  | none => none
  | some (m, n, pins, st') =>
    some ({ d with matched := m, samplenum := (n : Int) }, st', pins)

/-- Python truthiness of an int (`if x:`). -/
def pyTruthy (x : Int) : Bool := x ≠ 0

/-- Python bitwise complement on an int (`~x`). -/
def pyBnot (x : Int) : Int := -(x + 1)

/-- Pin level as the 0/1 int the source receives from `wait`. -/
def boolInt (b : Bool) : Int := if b then 1 else 0

/-- `self.databyte <<= 1; self.databyte |= sdata`: push one bit,
MSB-first. -/
def pushBit (db : Nat) (b : Bool) : Nat := 2 * db + (if b then 1 else 0)

/-- Pattern `{0: 'l', 1: 'e'}`. -/
def pLE : Pattern := [(0, .low), (1, .edge)]
/-- Pattern `{0: 'r'}`. -/
def pR : Pattern := [(0, .rising)]
/-- Pattern `{0: 'h'}`. -/
def pH : Pattern := [(0, .high)]
/-- Pattern list `[{0: 'l', 1: 'e'}, {0: 'r'}]` (bit waits of `handle`,
`cmdset` and the SSC tail). -/
def psRise : List Pattern := [pLE, pR]
/-- Pattern list `[{0: 'l', 1: 'e'}, {0: 'h'}]` (bit wait of
`handle_CMD`). -/
def psQ : List Pattern := [pLE, pH]
/-- Pattern list `[{0: 'h'}, {0: 'l', 1: 'f'}]` (head wait of FIND SSC). -/
def psSSC1 : List Pattern := [pH, [(0, .low), (1, .falling)]]
/-- Pattern list `[{0: 'l', 1: 'r'}, {0: 'l', 1: 'l'}]` (head wait of
FIND BUS_PARK). -/
def psBP1 : List Pattern := [[(0, .low), (1, .rising)], [(0, .low), (1, .low)]]
/-- Pattern list `[{0: 'l', 1: 'e'}, {0: 'l', 1: 'l'}]` (second wait of
FIND BUS_PARK). -/
def psBP2 : List Pattern := [pLE, [(0, .low), (1, .low)]]
/-- Pattern list `[{0: 'r', 1: 'l'}, {0: 'l', 1: 'r'}]` (idle-bus wait of
FIND BUS_PARK, `cmdkey == 'NULL'`). -/
def psBP3 : List Pattern := [[(0, .rising), (1, .low)], [(0, .low), (1, .rising)]]
/-- Pattern list `[{0: 'r', 1: 'l'}, {0: 'f', 1: 'l'}, {0: 'l', 1: 'r'}]`
(inner idle-bus wait of FIND BUS_PARK). -/
def psBP4 : List Pattern :=
  [[(0, .rising), (1, .low)], [(0, .falling), (1, .low)], [(0, .low), (1, .rising)]]

/-- Inside a bit-wait loop, after the second wait: emit an
Illegal-Jump-Edge annotation when pattern 0 matched again
(`if matched bit 0: es := samplenum; putx IJE`). -/
def ijeStep2 (d3 : D) : D :=
  if d3.matched.testBit 0 then putx { d3 with es := d3.samplenum } "IJE" none else d3

/-- The repeated inner bit-wait loop of the source (`while True: wait(ps);
if matched bit 0: ... possible Illegal-Jump-Edge annotations ...; if
matched bit 1: break`), used by `handle`, `cmdset` (with `psRise`) and
`handle_CMD` (with `psQ`).  Returns `false` when the stream ends inside
the loop (EOF) or fuel runs out. -/
def ijeLoop (ps : List Pattern) : Nat → D → Str → D × Str × Bool
  | 0, d, st => (d, st, false)
  | fuel + 1, d, st =>
    match dwait d st ps with
    | none => (d, st, false)
    | some (d1, st1, _) =>
      if d1.matched.testBit 0 then
        match dwait { d1 with ss := d1.samplenum } st1 ps with
        | none => ({ d1 with ss := d1.samplenum }, st1, false)
        | some (d3, st2, _) =>
          if (ijeStep2 d3).matched.testBit 1 then
            (putx { ijeStep2 d3 with es := (ijeStep2 d3).samplenum } "IJE" none, st2, true)
          else ijeLoop ps fuel (ijeStep2 d3) st2
      else
        if d1.matched.testBit 1 then (d1, st1, true)
        else ijeLoop ps fuel d1 st1

/-- `ijeLoop` with its canonical fuel: one unit per remaining sample plus
one.  Each loop iteration consumes at least one sample, so this fuel never
runs out before the stream does; the loop then behaves exactly like the
unbounded source loop. -/
def ijeLoopF (ps : List Pattern) (d : D) (st : Str) : D × Str × Bool :=
  ijeLoop ps (st.rest.length + 1) d st

/-- Head of `Decoder.handle`: `databyte <<= 1; databyte |= sdata;
if bitcount == 0: DATAss = samplenum`. -/
def pushD (d : D) (b : Bool) : D :=
  let d1 := { d with databyte := pushBit d.databyte b }
  if d1.bitcount = 0 then { d1 with DATAss := d1.samplenum } else d1

/-- `Decoder.handle(sclk, sdata, cmd, state, key)`: push one bit into the
accumulator; while `bitcount < key` wait for the next bit's clock edge;
on the call with `bitcount = key` (the (key+1)-th bit) emit the field
annotation and move to `state`. -/
def handle (d0 : D) (st : Str) (sdata : Bool) (cmd stName : String) (key : Int) :
    D × Str × Bool :=
  let d := pushD d0 sdata
  if (d.bitcount : Int) < key then
    let r := ijeLoopF psRise d st
    if r.2.2 then ({ r.1 with bitcount := r.1.bitcount + 1 }, r.2.1, true)
    else (r.1, r.2.1, false)
  else
    let v := d.databyte
    let r := ijeLoopF psRise d st
    if r.2.2 then
      let d2 := { r.1 with ss := r.1.DATAss, es := r.1.samplenum }
      let d3 := if cmd = "P" then { d2 with Pes := d2.samplenum } else d2
      let d4 := putx d3 cmd (some (key, v))
      ({ d4 with bitcount := 0, databyte := 0, state := stName }, r.2.1, true)
    else (r.1, r.2.1, false)

/-- `Decoder.cmdset(cmd, state)`: wait out the current bit, emit the
command annotation over the accumulated command interval, set the state
and the classified command key. -/
def cmdset (d : D) (st : Str) (cmd stName : String) : D × Str × Bool :=
  let r := ijeLoopF psRise d st
  if r.2.2 then
    let d2 := { r.1 with ss := r.1.DATAss, es := r.1.samplenum }
    let d3 := putx d2 cmd none
    ({ d3 with state := stName, bitcount := 0, extended := -1, cmdkey := cmd }, r.2.1, true)
  else (r.1, r.2.1, false)

/-- `Decoder.init()`: reset the transaction context; from FIND COMMAND
fall back to FIND BUS_PARK, otherwise to FIND SSC. -/
def dinit (d : D) : D :=
  let d1 := { d with cmdkey := "NULL", ADDcount := 0, Pcount := 0,
                     BPcount := 0, BC := 0, bitcount := 0, Pes := 0 }
  if d1.state = "FIND COMMAND" then { d1 with state := "FIND BUS_PARK" }
  else { d1 with state := "FIND SSC" }

/-- `Decoder.handle_BP(cmd, state)`: emit a Bus-Park annotation from the
last parity end to the current sample. -/
def handleBP (d : D) (cmd stName : String) : D :=
  let d1 := { d with ss := d.Pes, es := d.samplenum }
  let d2 := putx d1 cmd none
  { d2 with state := stName }

/-- `Decoder.initBP(sclk, sdata, state, key)`: consume the Bus-Park; when
`key` is nonzero also reset the transaction context via `init`. -/
def initBP (d : D) (stName : String) (key : Nat) : D :=
  let d1 := handleBP d "BP" stName
  let d2 := { d1 with state := stName }
  if key ≠ 0 then dinit d2 else d2

/-- Head of `Decoder.handle_CMD`:
`if bitcount == 0: DATAss = samplenum`. -/
def cmdA (d : D) : D :=
  if d.bitcount = 0 then { d with DATAss := d.samplenum } else d

/-- Bit 1 of `Decoder.handle_CMD`: `if bitcount == 1: extended = 0 if
sdata else 1`. -/
def cmdB (d : D) (b : Bool) : D :=
  if d.bitcount = 1 then { d with extended := if b then 0 else 1 } else d

/-- `Decoder.handle_CMD(sclk, sdata)`: bit-by-bit command classification.
`~self.extended` and `~sdata` are the source's Python bitwise complements
(`pyBnot`), tested for truthiness (`pyTruthy`), exactly as written. -/
def handleCMD (d0 : D) (st : Str) (sdata : Bool) : D × Str × Bool :=
  let d := cmdA d0
  if d.bitcount = 0 ∧ sdata then cmdset d st "R0W" "FIND DATA"
  else
    let d := cmdB d sdata
    if d.bitcount = 2 ∧ pyTruthy (pyBnot d.extended) then
      if sdata then cmdset d st "RR" "FIND ADDRESS"
      else cmdset d st "RW" "FIND ADDRESS"
    else if d.bitcount = 3 ∧ pyTruthy (pyBnot (boolInt sdata)) then
      if pyTruthy d.extended then cmdset d st "ERR" "FIND BTEY_COUNT"
      else cmdset d st "ERW" "FIND BTEY_COUNT"
    else if d.bitcount = 3 ∧ pyTruthy d.extended then
      let d1 := { d with es := d.samplenum }
      let d2 := putx d1 "CMD_WARNINGS" none
      (dinit d2, st, true)
    else if d.bitcount = 4 then
      if sdata then cmdset d st "ERRL" "FIND BTEY_COUNT"
      else cmdset d st "ERWL" "FIND BTEY_COUNT"
    else if d.bitcount < 4 then
      let r := ijeLoopF psQ d st
      if r.2.2 then ({ r.1 with bitcount := r.1.bitcount + 1 }, r.2.1, true)
      else (r.1, r.2.1, false)
    else (d, st, true)

/-- The FIND PARITY dispatch table: after the parity bit is consumed,
choose the next state from the classified command key and the parity
count (source lines following `self.handle(sclk,sdata,'P','NULL',0)`). -/
def parityDispatch (d : D) : D :=
  if d.cmdkey = "R0W" then { d with state := "FIND BUS_PARK" }
  else if d.cmdkey = "ERW" then
    if d.Pcount = 1 then { d with ADDcount := 1, state := "FIND ADDRESS" }
    else if d.Pcount = 2 then { d with state := "FIND DATA" } else d
  else if d.cmdkey = "ERR" then
    if d.Pcount = 1 then { d with ADDcount := 1, state := "FIND ADDRESS" }
    else if d.Pcount = 2 then { d with BPcount := 1, state := "FIND BUS_PARK" } else d
  else if d.cmdkey = "ERWL" then
    if d.Pcount = 1 then { d with ADDcount := 2, state := "FIND ADDRESS" }
    else if d.Pcount = 2 then { d with ADDcount := 1, state := "FIND ADDRESS" }
    else if d.Pcount = 3 then { d with state := "FIND DATA" } else d
  else if d.cmdkey = "ERRL" then
    if d.Pcount = 1 then { d with ADDcount := 2, state := "FIND ADDRESS" }
    else if d.Pcount = 2 then { d with ADDcount := 1, state := "FIND ADDRESS" }
    else if d.Pcount = 3 then { d with BPcount := 1, state := "FIND BUS_PARK" } else d
  else if d.cmdkey = "RW" then
    if d.Pcount = 1 then { d with state := "FIND DATA" }
    else if d.Pcount = 2 then { d with BPcount := 1, state := "FIND BUS_PARK" } else d
  else if d.cmdkey = "RR" then
    { d with state := "FIND BUS_PARK", BPcount := if d.Pcount = 1 then 1 else 2 }
  else d

/-- The FIND SSC branch of `decode`: detect a Sequence-Start Condition,
emitting SSC-Warning on a malformed start (clock found high) and
Illegal-Jump-Edge on unexpected mid-sequence edges. -/
def stepSSC (d : D) (st : Str) : D × Str × Bool :=
  match dwait d st psSSC1 with
  | none => (d, st, false)
  | some (d1, st1, _) =>
    let d2 :=
      if d1.matched.testBit 0 then
        let da := { d1 with ss := d1.samplenum, es := d1.samplenum }
        let db := putx da "SSC_WARNINGS" none
        { db with state := "FIND BUS_PARK" }
      else d1
    if d2.matched.testBit 1 then
      match dwait d2 st1 psRise with
      | none => (d2, st1, false)
      | some (d3, st2, _) =>
        if d3.matched.testBit 0 then
          let d4 := { d3 with ss := d3.samplenum }
          match dwait d4 st2 psRise with
          | none => (d4, st2, false)
          | some (d5, st3, _) =>
            let d6 := if d5.matched.testBit 0 then
                putx { d5 with es := d5.samplenum } "IJE" none else d5
            if d6.matched.testBit 1 then
              let d7 := putx { d6 with es := d6.samplenum } "IJE" none
              let d8 := { d7 with ss := d7.BPss, es := d7.samplenum }
              let d9 := putx d8 "SSC" none
              ({ d9 with state := "FIND SLAVE ADDRESS" }, st3, true)
            else (d6, st3, true)
        else
          if d3.matched.testBit 1 then
            let d4 := { d3 with ss := d3.BPss, es := d3.samplenum }
            let d5 := putx d4 "SSC" none
            ({ d5 with state := "FIND SLAVE ADDRESS" }, st2, true)
          else (d3, st2, true)
    else (d2, st1, true)

/-- The Illegal-Jump-Edge emissions after the second FIND BUS_PARK wait
(`if matched bit 0: es; putx IJE` then `if matched bit 1: es; putx IJE`). -/
def bpIJE (d3 : D) : D :=
  let d4 := if d3.matched.testBit 0 then
      putx { d3 with es := d3.samplenum } "IJE" none else d3
  if d4.matched.testBit 1 then
    putx { d4 with es := d4.samplenum } "IJE" none else d4

/-- The main body of the FIND BUS_PARK branch: the `if matched bit 1`
block of the source, entered with `matched`/`samplenum` from the last
wait; dispatches on the classified command key (idle-bus watch for
`'NULL'`, resume into FIND DATA for the read family with park-count 1,
otherwise consume the final park and reset via `initBP`). -/
def stepBPmain (d2 : D) (st2 : Str) : D × Str × Bool :=
  if d2.matched.testBit 1 then
    let d3 := { d2 with BPss := d2.samplenum }
    if d3.cmdkey = "NULL" then
      match dwait d3 st2 psBP3 with
      | none => (d3, st2, false)
      | some (d4, st3, _) =>
        if d4.matched.testBit 0 then
          match dwait { d4 with ss := d4.samplenum } st3 psBP4 with
          | none => ({ d4 with ss := d4.samplenum }, st3, false)
          | some (d6, st4, _) =>
            let d7 :=
              if d6.matched.testBit 0 then
                { putx { d6 with es := d6.samplenum } "SSC_WARNINGS" none with
                    state := "FIND BUS_PARK" }
              else d6
            let d8 := if d7.matched.testBit 1 then { d7 with BPss := d7.samplenum } else d7
            if d8.matched.testBit 2 then ({ d8 with state := "FIND SSC" }, st4, true)
            else
              if d8.matched.testBit 1 then ({ d8 with state := "FIND SSC" }, st4, true)
              else (d8, st4, true)
        else
          if d4.matched.testBit 1 then ({ d4 with state := "FIND SSC" }, st3, true)
          else (d4, st3, true)
    else if d3.cmdkey = "ERR" ∨ d3.cmdkey = "ERRL" ∨ d3.cmdkey = "RR" then
      (initBP d3 "FIND DATA" (if d3.BPcount = 1 then 0 else 1), st2, true)
    else (initBP d3 "FIND SSC" 1, st2, true)
  else (d2, st2, true)

/-- The FIND BUS_PARK branch of `decode`: find the bus-park pattern; with
no classified command (`cmdkey == 'NULL'`) watch the idle bus and re-arm
into FIND SSC; for the read family with park-count 1 resume into FIND
DATA without resetting; otherwise consume the final park and reset via
`initBP`. -/
def stepBP (d : D) (st : Str) : D × Str × Bool :=
  match dwait d st psBP1 with
  | none => (d, st, false)
  | some (d1, st1, _) =>
    if d1.matched.testBit 0 then
      match dwait { d1 with ss := d1.samplenum } st1 psBP2 with
      | none => ({ d1 with ss := d1.samplenum }, st1, false)
      | some (d3, st2, _) => stepBPmain (bpIJE d3) st2
    else stepBPmain d1 st1

/-- One iteration of the outer `while True` loop of `Decoder.decode`. -/
def step (d : D) (st : Str) : D × Str × Bool :=
  if d.state = "FIND SSC" then stepSSC d st
  else if d.state = "FIND SLAVE ADDRESS" then
    match dwait d st [pH] with
    | none => (d, st, false)
    | some (d1, st1, pins) => handle d1 st1 pins.sdata "SA" "FIND COMMAND" 3
  else if d.state = "FIND COMMAND" then
    match dwait d st [pH] with
    | none => (d, st, false)
    | some (d1, st1, pins) => handleCMD d1 st1 pins.sdata
  else if d.state = "FIND BTEY_COUNT" then
    match dwait d st [pH] with
    | none => (d, st, false)
    | some (d1, st1, pins) =>
      if d1.cmdkey = "ERW" ∨ d1.cmdkey = "ERR" then
        handle d1 st1 pins.sdata "BC" "FIND PARITY" 3
      else handle d1 st1 pins.sdata "BC" "FIND PARITY" 2
  else if d.state = "FIND ADDRESS" then
    match dwait d st [pH] with
    | none => (d, st, false)
    | some (d1, st1, pins) =>
      if d1.cmdkey = "RW" ∨ d1.cmdkey = "RR" then
        handle d1 st1 pins.sdata "ADDRESS" "FIND PARITY" 4
      else handle d1 st1 pins.sdata "ADDRESS" "FIND PARITY" 7
  else if d.state = "FIND DATA" then
    match dwait d st [pH] with
    | none => (d, st, false)
    | some (d1, st1, pins) =>
      if d1.cmdkey = "R0W" then handle d1 st1 pins.sdata "DATA" "FIND PARITY" 6
      else if d1.cmdkey = "RW" ∨ d1.cmdkey = "RR" then
        handle d1 st1 pins.sdata "DATA" "FIND PARITY" 7
      else handle d1 st1 pins.sdata "DATA" "FIND PARITY" ((d1.BC : Int) * 8 - 1)
  else if d.state = "FIND PARITY" then
    match dwait d st [pH] with
    | none => (d, st, false)
    | some (d1, st1, pins) =>
      let d2 := { d1 with Pcount := d1.Pcount + 1 }
      let r := handle d2 st1 pins.sdata "P" "NULL" 0
      if r.2.2 then (parityDispatch r.1, r.2.1, true) else (r.1, r.2.1, false)
  else if d.state = "FIND BUS_PARK" then stepBP d st
  else (d, st, true)

/-- Fuel-bounded iteration of `step`; stops early at EOF. -/
def run : Nat → D → Str → D × Str
  | 0, d, st => (d, st)
  | fuel + 1, d, st =>
    let r := step d st
    if r.2.2 then run fuel r.1 r.2.1 else (r.1, r.2.1)

/-- Decode a sample list with the given `address_format` option value and
outer-loop fuel; result is the final decoder state (its `anns` field is
the emitted annotation sequence). -/
def decodeRun (opt : String) (samples : List Sample) (fuel : Nat) : D :=
  (run fuel (initD opt) (mkStr samples)).1

/-! ### Frame lemmas: which fields an operation can touch -/

/-- The fields of the decoder state that the inner bit-wait loops never
modify (everything except `ss`, `es`, `matched`, `samplenum`, `anns`). -/
def SameCore (d d' : D) : Prop :=
  d'.state = d.state ∧ d'.cmdkey = d.cmdkey ∧ d'.bitcount = d.bitcount ∧
  d'.databyte = d.databyte ∧ d'.extended = d.extended ∧ d'.BC = d.BC ∧
  d'.Pcount = d.Pcount ∧ d'.BPcount = d.BPcount ∧ d'.ADDcount = d.ADDcount ∧
  d'.BPss = d.BPss ∧ d'.Pes = d.Pes ∧ d'.DATAss = d.DATAss ∧
  d'.addressFormat = d.addressFormat

/-- `d'`'s annotation list extends `d`'s by a suffix whose members all
satisfy `P`. -/
def AnnsExt (d d' : D) (P : Ann → Prop) : Prop :=
  ∃ t, d'.anns = d.anns ++ t ∧ ∀ a ∈ t, P a

theorem sameCore_refl (d : D) : SameCore d d := by
  simp [SameCore]

theorem sameCore_trans {d d' d'' : D} (h1 : SameCore d d') (h2 : SameCore d' d'') :
    SameCore d d'' := by
  obtain ⟨a1, b1, c1, e1, f1, g1, i1, j1, k1, l1, m1, n1, o1⟩ := h1
  obtain ⟨a2, b2, c2, e2, f2, g2, i2, j2, k2, l2, m2, n2, o2⟩ := h2
  exact ⟨a2.trans a1, b2.trans b1, c2.trans c1, e2.trans e1, f2.trans f1,
         g2.trans g1, i2.trans i1, j2.trans j1, k2.trans k1, l2.trans l1,
         m2.trans m1, n2.trans n1, o2.trans o1⟩

theorem annsExt_refl (d : D) (P : Ann → Prop) : AnnsExt d d P :=
  ⟨[], by simp, by simp⟩

theorem annsExt_trans {d d' d'' : D} {P : Ann → Prop}
    (h1 : AnnsExt d d' P) (h2 : AnnsExt d' d'' P) : AnnsExt d d'' P := by
  obtain ⟨t1, e1, p1⟩ := h1
  obtain ⟨t2, e2, p2⟩ := h2
  refine ⟨t1 ++ t2, by simp [e2, e1], ?_⟩
  intro a ha
  rcases List.mem_append.mp ha with h | h
  · exact p1 a h
  · exact p2 a h

theorem annsExt_mono {d d' : D} {P Q : Ann → Prop}
    (h : AnnsExt d d' P) (hpq : ∀ a, P a → Q a) : AnnsExt d d' Q := by
  obtain ⟨t, e, p⟩ := h
  exact ⟨t, e, fun a ha => hpq a (p a ha)⟩

theorem dwait_some_eq {d : D} {st : Str} {ps : List Pattern} {d1 : D} {st1 : Str}
    {pins : Sample} (h : dwait d st ps = some (d1, st1, pins)) :
    ∃ m n, d1 = { d with matched := m, samplenum := n } := by
  unfold dwait at h
  cases hw : waitCore ps st.prev st.idx st.rest with
  | none => rw [hw] at h; exact absurd h (by simp)
  | some x =>
    obtain ⟨m, n, p, st'⟩ := x
    rw [hw] at h
    simp only [Option.some.injEq, Prod.mk.injEq] at h
    exact ⟨m, (n : Int), h.1.symm⟩

theorem dwait_sameCore {d : D} {st : Str} {ps : List Pattern} {d1 : D} {st1 : Str}
    {pins : Sample} (h : dwait d st ps = some (d1, st1, pins)) :
    SameCore d d1 ∧ d1.anns = d.anns ∧ d1.ss = d.ss ∧ d1.es = d.es := by
  obtain ⟨m, n, rfl⟩ := dwait_some_eq h
  simp [SameCore]

theorem putx_anns (d : D) (k : String) (v : Option (Int × Nat)) :
    (putx d k v).anns = d.anns ++ [⟨d.ss, d.es, k, v⟩] := rfl

theorem putx_sameCore (d : D) (k : String) (v : Option (Int × Nat)) :
    SameCore d (putx d k v) := by
  simp [SameCore, putx]

theorem annsExt_of_eq {d d' : D} {P : Ann → Prop} (h : d'.anns = d.anns) :
    AnnsExt d d' P :=
  ⟨[], by simp [h], by simp⟩

theorem annsExt_mk {d d' : D} {P : Ann → Prop} (h1 : d.anns <+: d'.anns)
    (h2 : ∀ a ∈ d'.anns.drop d.anns.length, P a) : AnnsExt d d' P := by
  obtain ⟨t, ht⟩ := h1
  refine ⟨t, ht.symm, ?_⟩
  intro a ha
  apply h2
  rw [← ht, List.drop_left]
  exact ha

theorem ijeStep2_sameCore (d : D) : SameCore d (ijeStep2 d) := by
  unfold ijeStep2
  split
  · simp [SameCore, putx]
  · exact sameCore_refl d

theorem ijeStep2_annsExt (d : D) : AnnsExt d (ijeStep2 d) (fun a => a.kind = "IJE") := by
  unfold ijeStep2
  split
  · exact ⟨[⟨d.ss, d.samplenum, "IJE", none⟩], by simp [putx], by simp⟩
  · exact annsExt_refl d _

/-- Frame property of the inner bit-wait loop: it only touches `ss`,
`es`, `matched`, `samplenum`, and appends only Illegal-Jump-Edge
annotations. -/
theorem ijeLoop_spec (ps : List Pattern) : ∀ (fuel : Nat) (d : D) (st : Str),
    SameCore d (ijeLoop ps fuel d st).1 ∧
    AnnsExt d (ijeLoop ps fuel d st).1 (fun a => a.kind = "IJE") := by
  intro fuel
  induction fuel with
  | zero => intro d st; exact ⟨sameCore_refl d, annsExt_refl d _⟩
  | succ n ih =>
    intro d st
    simp only [ijeLoop]
    cases h1 : dwait d st ps with
    | none => exact ⟨sameCore_refl d, annsExt_refl d _⟩
    | some x =>
      obtain ⟨d1, st1, pins⟩ := x
      obtain ⟨hc1, ha1, _, _⟩ := dwait_sameCore h1
      by_cases hb1 : d1.matched.testBit 0
      · simp only [hb1, if_true]
        have hc1' : SameCore d ({ d1 with ss := d1.samplenum } : D) :=
          sameCore_trans hc1 (by simp [SameCore])
        cases h2 : dwait { d1 with ss := d1.samplenum } st1 ps with
        | none =>
          exact ⟨hc1', annsExt_of_eq ha1⟩
        | some y =>
          obtain ⟨d3, st2, pins2⟩ := y
          obtain ⟨hc3, ha3, _, _⟩ := dwait_sameCore h2
          have hc3' : SameCore d d3 := sameCore_trans hc1' hc3
          have ha3' : AnnsExt d d3 (fun a => a.kind = "IJE") :=
            annsExt_of_eq (show d3.anns = d.anns from ha3.trans ha1)
          have hc4 : SameCore d (ijeStep2 d3) :=
            sameCore_trans hc3' (ijeStep2_sameCore d3)
          have ha4 : AnnsExt d (ijeStep2 d3) (fun a => a.kind = "IJE") :=
            annsExt_trans ha3' (ijeStep2_annsExt d3)
          by_cases hb4 : (ijeStep2 d3).matched.testBit 1
          · simp only [hb4, if_true]
            refine ⟨sameCore_trans hc4 (by simp [SameCore, putx]), ?_⟩
            exact annsExt_trans ha4
              ⟨[⟨(ijeStep2 d3).ss, (ijeStep2 d3).samplenum, "IJE", none⟩], by simp [putx], by simp⟩
          · simp only [hb4, if_false]
            obtain ⟨hcr, har⟩ := ih (ijeStep2 d3) st2
            exact ⟨sameCore_trans hc4 hcr, annsExt_trans ha4 har⟩
      · simp only [hb1, if_false]
        by_cases hb2 : d1.matched.testBit 1
        · simp only [hb2, if_true]
          exact ⟨hc1, annsExt_of_eq ha1⟩
        · simp only [hb2, if_false]
          obtain ⟨hcr, har⟩ := ih d1 st1
          exact ⟨sameCore_trans hc1 hcr, annsExt_trans (annsExt_of_eq ha1) har⟩

theorem ijeLoopF_spec (ps : List Pattern) (d : D) (st : Str) :
    SameCore d (ijeLoopF ps d st).1 ∧
    AnnsExt d (ijeLoopF ps d st).1 (fun a => a.kind = "IJE") :=
  ijeLoop_spec ps (st.rest.length + 1) d st

/-! ### Behavioural case lemmas for `handle`, `cmdset`, `handle_CMD` -/

theorem prodEq3 {α β γ : Type} {a a' : α} {b b' : β} {c c' : γ}
    (h : (a, b, c) = (a', b', c')) : a' = a ∧ b' = b ∧ c' = c := by
  injection h with h1 h23
  injection h23 with h2 h3
  exact ⟨h1.symm, h2.symm, h3.symm⟩

theorem pushD_fields (d : D) (b : Bool) :
    (pushD d b).state = d.state ∧ (pushD d b).cmdkey = d.cmdkey ∧
    (pushD d b).bitcount = d.bitcount ∧ (pushD d b).databyte = pushBit d.databyte b ∧
    (pushD d b).extended = d.extended ∧ (pushD d b).BC = d.BC ∧
    (pushD d b).Pcount = d.Pcount ∧ (pushD d b).BPcount = d.BPcount ∧
    (pushD d b).ADDcount = d.ADDcount ∧ (pushD d b).anns = d.anns ∧
    (pushD d b).addressFormat = d.addressFormat := by
  simp only [pushD]
  split <;> simp

/-- Case analysis of `Decoder.handle`.  On a successful call with
`bitcount < key` the bit is accumulated and the bit counter advances; on
a successful call with `bitcount ≥ key` the field annotation is emitted
carrying the bit-width parameter `key` and the accumulated value, and the
machine moves to `stn`; at EOF nothing but Illegal-Jump-Edge warnings
happened.  The classified command key, the transaction counters, the
byte count and the extended flag are never modified. -/
theorem handle_cases (d : D) (st : Str) (b : Bool) (cmd stn : String) (key : Int)
    {d' : D} {st' : Str} {ok : Bool}
    (h : handle d st b cmd stn key = (d', st', ok)) :
    d'.cmdkey = d.cmdkey ∧ d'.Pcount = d.Pcount ∧ d'.BPcount = d.BPcount ∧
    d'.ADDcount = d.ADDcount ∧ d'.BC = d.BC ∧ d'.extended = d.extended ∧
    d'.addressFormat = d.addressFormat ∧
    (ok = true → (d.bitcount : Int) < key →
      d'.state = d.state ∧ d'.bitcount = d.bitcount + 1 ∧
      d'.databyte = pushBit d.databyte b ∧
      AnnsExt d d' (fun a => a.kind = "IJE")) ∧
    (ok = true → ¬ (d.bitcount : Int) < key →
      d'.state = stn ∧ d'.bitcount = 0 ∧ d'.databyte = 0 ∧
      ∃ t s e, (∀ a ∈ t, a.kind = "IJE") ∧
        d'.anns = d.anns ++ (t ++ [⟨s, e, cmd, some (key, pushBit d.databyte b)⟩])) ∧
    (ok = false → d'.state = d.state ∧ d'.bitcount = d.bitcount ∧
      AnnsExt d d' (fun a => a.kind = "IJE")) := by
  obtain ⟨f1, f2, f3, f4, f5, f6, f7, f8, f9, f10, f11⟩ := pushD_fields d b
  obtain ⟨hc, ha⟩ := ijeLoopF_spec psRise (pushD d b) st
  obtain ⟨c1, c2, c3, c4, c5, c6, c7, c8, c9, c10, c11, c12, c13⟩ := hc
  obtain ⟨t, hte, htp⟩ := ha
  unfold handle at h
  simp only [f3] at h
  rcases hr : ijeLoopF psRise (pushD d b) st with ⟨dr, str, okr⟩
  rw [hr] at h
  simp only [hr] at c1 c2 c3 c4 c5 c6 c7 c8 c9 c10 c11 c12 c13 hte
  by_cases hk : (d.bitcount : Int) < key
  · rw [if_pos hk] at h
    cases okr with
    | true =>
      simp only [if_true] at h
      obtain ⟨hd, hst2, hok⟩ := prodEq3 h
      subst hd; subst hst2; subst hok
      refine ⟨by simp [c2, f2], by simp [c7, f7], by simp [c8, f8], by simp [c9, f9],
              by simp [c6, f6], by simp [c5, f5], by simp [c13, f11], ?_, ?_, ?_⟩
      · intro _ _
        exact ⟨by simp [c1, f1], by simp [c3, f3], by simp [c4, f4],
               ⟨t, by simp [hte, f10], htp⟩⟩
      · intro _ hk2; exact absurd hk hk2
      · intro hfalse; exact absurd hfalse (by simp)
    | false =>
      simp only [Bool.false_eq_true, if_false] at h
      obtain ⟨hd, hst2, hok⟩ := prodEq3 h
      subst hd; subst hst2; subst hok
      refine ⟨c2.trans f2, c7.trans f7, c8.trans f8, c9.trans f9, c6.trans f6,
              c5.trans f5, c13.trans f11, ?_, ?_, ?_⟩
      · intro hok; exact absurd hok (by simp)
      · intro hok; exact absurd hok (by simp)
      · intro _
        exact ⟨c1.trans f1, c3.trans f3, ⟨t, by simp [hte, f10], htp⟩⟩
  · rw [if_neg hk] at h
    cases okr with
    | true =>
      simp only [if_true] at h
      by_cases hcmd : cmd = "P"
      · rw [if_pos hcmd] at h
        obtain ⟨hd, hst2, hok⟩ := prodEq3 h
        subst hd; subst hst2; subst hok
        refine ⟨by simp [putx, c2, f2], by simp [putx, c7, f7], by simp [putx, c8, f8],
                by simp [putx, c9, f9], by simp [putx, c6, f6], by simp [putx, c5, f5],
                by simp [putx, c13, f11], ?_, ?_, ?_⟩
        · intro _ hk2; exact absurd hk2 hk
        · intro _ _
          refine ⟨by simp [putx], by simp [putx], by simp [putx], ?_⟩
          exact ⟨t, dr.DATAss, dr.samplenum,  htp, by simp [putx, hte, f10, f4]⟩
        · intro hfalse; exact absurd hfalse (by simp)
      · rw [if_neg hcmd] at h
        obtain ⟨hd, hst2, hok⟩ := prodEq3 h
        subst hd; subst hst2; subst hok
        refine ⟨by simp [putx, c2, f2], by simp [putx, c7, f7], by simp [putx, c8, f8],
                by simp [putx, c9, f9], by simp [putx, c6, f6], by simp [putx, c5, f5],
                by simp [putx, c13, f11], ?_, ?_, ?_⟩
        · intro _ hk2; exact absurd hk2 hk
        · intro _ _
          refine ⟨by simp [putx], by simp [putx], by simp [putx], ?_⟩
          exact ⟨t, dr.DATAss, dr.samplenum, htp, by simp [putx, hte, f10, f4]⟩
        · intro hfalse; exact absurd hfalse (by simp)
    | false =>
      simp only [Bool.false_eq_true, if_false] at h
      obtain ⟨hd, hst2, hok⟩ := prodEq3 h
      subst hd; subst hst2; subst hok
      refine ⟨c2.trans f2, c7.trans f7, c8.trans f8, c9.trans f9, c6.trans f6,
              c5.trans f5, c13.trans f11, ?_, ?_, ?_⟩
      · intro hok; exact absurd hok (by simp)
      · intro hok; exact absurd hok (by simp)
      · intro _
        exact ⟨c1.trans f1, c3.trans f3, ⟨t, by simp [hte, f10], htp⟩⟩

/-- Case analysis of `Decoder.cmdset`: on success, sets the machine state
and classified command key and emits the command annotation; at EOF
nothing but Illegal-Jump-Edge warnings happened.  The transaction
counters, byte count and data accumulator are never modified. -/
theorem cmdset_cases (d : D) (st : Str) (cmd stn : String)
    {d' : D} {st' : Str} {ok : Bool}
    (h : cmdset d st cmd stn = (d', st', ok)) :
    d'.Pcount = d.Pcount ∧ d'.BPcount = d.BPcount ∧ d'.ADDcount = d.ADDcount ∧
    d'.BC = d.BC ∧ d'.databyte = d.databyte ∧ d'.addressFormat = d.addressFormat ∧
    (ok = true → d'.state = stn ∧ d'.cmdkey = cmd ∧ d'.bitcount = 0 ∧
      d'.extended = -1 ∧
      ∃ t s e, (∀ a ∈ t, a.kind = "IJE") ∧
        d'.anns = d.anns ++ (t ++ [⟨s, e, cmd, none⟩])) ∧
    (ok = false → d'.state = d.state ∧ d'.cmdkey = d.cmdkey ∧
      d'.bitcount = d.bitcount ∧ d'.extended = d.extended ∧
      AnnsExt d d' (fun a => a.kind = "IJE")) := by
  obtain ⟨hc, ha⟩ := ijeLoopF_spec psRise d st
  obtain ⟨c1, c2, c3, c4, c5, c6, c7, c8, c9, c10, c11, c12, c13⟩ := hc
  obtain ⟨t, hte, htp⟩ := ha
  unfold cmdset at h
  rcases hr : ijeLoopF psRise d st with ⟨dr, str, okr⟩
  rw [hr] at h
  simp only [hr] at c1 c2 c3 c4 c5 c6 c7 c8 c9 c10 c11 c12 c13 hte
  cases okr with
  | true =>
    simp only [if_true] at h
    obtain ⟨hd, hst2, hok⟩ := prodEq3 h
    subst hd; subst hst2; subst hok
    refine ⟨by simp [putx, c7], by simp [putx, c8], by simp [putx, c9],
            by simp [putx, c6], by simp [putx, c4], by simp [putx, c13], ?_, ?_⟩
    · intro _
      refine ⟨by simp [putx], by simp [putx], by simp [putx], by simp [putx], ?_⟩
      exact ⟨t, dr.DATAss, dr.samplenum, htp, by simp [putx, hte]⟩
    · intro hfalse; exact absurd hfalse (by simp)
  | false =>
    simp only [Bool.false_eq_true, if_false] at h
    obtain ⟨hd, hst2, hok⟩ := prodEq3 h
    subst hd; subst hst2; subst hok
    refine ⟨c7, c8, c9, c6, c4, c13, ?_, ?_⟩
    · intro hok; exact absurd hok (by simp)
    · intro _
      exact ⟨c1, c2, c3, c5, ⟨t, hte, htp⟩⟩

theorem pyTruthy_pyBnot_01 {x : Int} (h : x = 0 ∨ x = 1) :
    pyTruthy (pyBnot x) = true := by
  rcases h with rfl | rfl <;> rfl

/-- Case analysis of `Decoder.handle_CMD` from a reachable configuration
(`bitcount ≤ 2`, and the extended flag is 0/1 when `bitcount = 2`).
Because `~self.extended` is truthy for both flag values, a successful
call either classifies Register-0-Write at bit 0, classifies
Register-Read/Write at bit 2, or just advances the bit counter; the
Command-Warning branch (bit 3) and the extended command keys are
unreachable. -/
theorem handleCMD_cases (d : D) (st : Str) (b : Bool)
    (hbc : d.bitcount ≤ 2)
    (hext : d.bitcount = 2 → d.extended = 0 ∨ d.extended = 1)
    {d' : D} {st' : Str} {ok : Bool}
    (h : handleCMD d st b = (d', st', ok)) :
    d'.Pcount = d.Pcount ∧ d'.BPcount = d.BPcount ∧ d'.ADDcount = d.ADDcount ∧
    d'.BC = d.BC ∧
    (ok = true →
      (d.bitcount = 0 ∧ b = true ∧ d'.state = "FIND DATA" ∧ d'.cmdkey = "R0W" ∧
        d'.bitcount = 0 ∧ d'.extended = -1 ∧
        AnnsExt d d' (fun a => a.kind = "IJE" ∨ a.kind = "R0W")) ∨
      (d.bitcount = 2 ∧ d'.state = "FIND ADDRESS" ∧
        (d'.cmdkey = "RR" ∨ d'.cmdkey = "RW") ∧ d'.bitcount = 0 ∧ d'.extended = -1 ∧
        AnnsExt d d' (fun a => a.kind = "IJE" ∨ a.kind = "RR" ∨ a.kind = "RW")) ∨
      (d.bitcount ≤ 1 ∧ d'.state = d.state ∧ d'.cmdkey = d.cmdkey ∧
        d'.bitcount = d.bitcount + 1 ∧
        (d'.bitcount = 2 → d'.extended = 0 ∨ d'.extended = 1) ∧
        AnnsExt d d' (fun a => a.kind = "IJE"))) ∧
    (ok = false → d'.state = d.state ∧ d'.cmdkey = d.cmdkey ∧
      d'.bitcount = d.bitcount ∧ AnnsExt d d' (fun a => a.kind = "IJE")) := by
  have hbc3 : d.bitcount = 0 ∨ d.bitcount = 1 ∨ d.bitcount = 2 := by omega
  rcases hbc3 with hb0 | hb1 | hb2
  · -- bitcount = 0
    by_cases hsd : b = true
    · subst hsd
      rw [handleCMD] at h
      rw [show cmdA d = { d with DATAss := d.samplenum } by simp [cmdA, hb0]] at h
      rw [if_pos (by simp [hb0])] at h
      obtain ⟨p1, p2, p3, p4, p5, p6, pok, pfail⟩ :=
        cmdset_cases ({ d with DATAss := d.samplenum }) st "R0W" "FIND DATA" h
      refine ⟨by simpa using p1, by simpa using p2, by simpa using p3,
              by simpa using p4, ?_, ?_⟩
      · intro hok
        obtain ⟨q1, q2, q3, q4, t, s, e, htp, hta⟩ := pok hok
        exact Or.inl ⟨hb0, rfl, q1, q2, q3, q4,
          ⟨t ++ [⟨s, e, "R0W", none⟩], by simpa using hta, by
            intro a ha
            rcases List.mem_append.mp ha with hx | hx
            · exact Or.inl (htp a hx)
            · simp at hx; subst hx; exact Or.inr rfl⟩⟩
      · intro hok
        obtain ⟨q1, q2, q3, _, q5⟩ := pfail hok
        exact ⟨by simpa using q1, by simpa using q2, by simpa using q3, by
          obtain ⟨t, hte, htp⟩ := q5
          exact ⟨t, by simpa using hte, htp⟩⟩
    · have hsd' : b = false := by simpa using hsd
      subst hsd'
      rw [handleCMD] at h
      rw [show cmdA d = { d with DATAss := d.samplenum } by simp [cmdA, hb0]] at h
      rw [if_neg (by simp)] at h
      rw [show cmdB { d with DATAss := d.samplenum } false =
            { d with DATAss := d.samplenum } by simp [cmdB, hb0]] at h
      rw [if_neg (by simp [hb0]), if_neg (by simp [hb0]), if_neg (by simp [hb0]),
          if_neg (by simp [hb0]), if_pos (by simp [hb0] : ({ d with DATAss := d.samplenum } : D).bitcount < 4)] at h
      obtain ⟨hc, ha⟩ := ijeLoopF_spec psQ { d with DATAss := d.samplenum } st
      obtain ⟨c1, c2, c3, c4, c5, c6, c7, c8, c9, c10, c11, c12, c13⟩ := hc
      obtain ⟨t, hte, htp⟩ := ha
      rcases hr : ijeLoopF psQ { d with DATAss := d.samplenum } st with ⟨dr, str, okr⟩
      rw [hr] at h
      simp only [hr] at c1 c2 c3 c4 c5 c6 c7 c8 c9 c10 c11 c12 c13 hte
      cases okr with
      | true =>
        simp only [if_true] at h
        obtain ⟨hd, hst2, hok⟩ := prodEq3 h
        subst hd; subst hst2; subst hok
        refine ⟨by simpa using c7, by simpa using c8, by simpa using c9,
                by simpa using c6, ?_, ?_⟩
        · intro _
          refine Or.inr (Or.inr ⟨by omega, by simpa using c1, by simpa using c2,
            by simp [c3, hb0], ?_, ⟨t, by simpa using hte, htp⟩⟩)
          intro hbit
          simp only [c3] at hbit
          simp [hb0] at hbit
        · intro hfalse; exact absurd hfalse (by simp)
      | false =>
        simp only [Bool.false_eq_true, if_false] at h
        obtain ⟨hd, hst2, hok⟩ := prodEq3 h
        subst hd; subst hst2; subst hok
        refine ⟨by simpa using c7, by simpa using c8, by simpa using c9,
                by simpa using c6, ?_, ?_⟩
        · intro hok; exact absurd hok (by simp)
        · intro _
          exact ⟨by simpa using c1, by simpa using c2, by simpa using c3,
                 ⟨t, by simpa using hte, htp⟩⟩
  · -- bitcount = 1
    rw [handleCMD] at h
    rw [show cmdA d = d by simp [cmdA, hb1]] at h
    rw [if_neg (by simp [hb1])] at h
    rw [show cmdB d b = { d with extended := if b then 0 else 1 } by
          simp [cmdB, hb1]] at h
    rw [if_neg (by simp [hb1]), if_neg (by simp [hb1]), if_neg (by simp [hb1]),
        if_neg (by simp [hb1]),
        if_pos (by simp [hb1] : ({ d with extended := if b then 0 else 1 } : D).bitcount < 4)] at h
    obtain ⟨hc, ha⟩ := ijeLoopF_spec psQ { d with extended := if b then 0 else 1 } st
    obtain ⟨c1, c2, c3, c4, c5, c6, c7, c8, c9, c10, c11, c12, c13⟩ := hc
    obtain ⟨t, hte, htp⟩ := ha
    rcases hr : ijeLoopF psQ { d with extended := if b then 0 else 1 } st with ⟨dr, str, okr⟩
    rw [hr] at h
    simp only [hr] at c1 c2 c3 c4 c5 c6 c7 c8 c9 c10 c11 c12 c13 hte
    cases okr with
    | true =>
      simp only [if_true] at h
      obtain ⟨hd, hst2, hok⟩ := prodEq3 h
      subst hd; subst hst2; subst hok
      refine ⟨by simpa using c7, by simpa using c8, by simpa using c9,
              by simpa using c6, ?_, ?_⟩
      · intro _
        refine Or.inr (Or.inr ⟨by omega, by simpa using c1, by simpa using c2,
          by simp [c3, hb1], ?_, ⟨t, by simpa using hte, htp⟩⟩)
        intro _
        have : dr.extended = if b then 0 else 1 := by simpa using c5
        rw [this]
        by_cases hbv : b = true
        · subst hbv; simp
        · simp [hbv]
      · intro hfalse; exact absurd hfalse (by simp)
    | false =>
      simp only [Bool.false_eq_true, if_false] at h
      obtain ⟨hd, hst2, hok⟩ := prodEq3 h
      subst hd; subst hst2; subst hok
      refine ⟨by simpa using c7, by simpa using c8, by simpa using c9,
              by simpa using c6, ?_, ?_⟩
      · intro hok; exact absurd hok (by simp)
      · intro _
        exact ⟨by simpa using c1, by simpa using c2, by simpa using c3,
               ⟨t, by simpa using hte, htp⟩⟩
  · -- bitcount = 2: the `~self.extended` guard is truthy, classify RR/RW
    rw [handleCMD] at h
    rw [show cmdA d = d by simp [cmdA, hb2]] at h
    rw [if_neg (by simp [hb2])] at h
    rw [show cmdB d b = d by simp [cmdB, hb2]] at h
    rw [if_pos (by
      refine ⟨hb2, ?_⟩
      exact pyTruthy_pyBnot_01 (hext hb2))] at h
    by_cases hsd : b = true
    · subst hsd
      rw [if_pos rfl] at h
      obtain ⟨p1, p2, p3, p4, p5, p6, pok, pfail⟩ := cmdset_cases d st "RR" "FIND ADDRESS" h
      refine ⟨p1, p2, p3, p4, ?_, ?_⟩
      · intro hok
        obtain ⟨q1, q2, q3, q4, t, s, e, htp, hta⟩ := pok hok
        refine Or.inr (Or.inl ⟨hb2, q1, Or.inl q2, q3, q4, ?_⟩)
        exact ⟨t ++ [⟨s, e, "RR", none⟩], by simpa using hta, by
          intro a ha
          rcases List.mem_append.mp ha with hx | hx
          · exact Or.inl (htp a hx)
          · simp at hx; subst hx; exact Or.inr (Or.inl rfl)⟩
      · intro hok
        obtain ⟨q1, q2, q3, _, q5⟩ := pfail hok
        exact ⟨q1, q2, q3, q5⟩
    · have hsd' : b = false := by simpa using hsd
      subst hsd'
      rw [if_neg (by simp)] at h
      obtain ⟨p1, p2, p3, p4, p5, p6, pok, pfail⟩ := cmdset_cases d st "RW" "FIND ADDRESS" h
      refine ⟨p1, p2, p3, p4, ?_, ?_⟩
      · intro hok
        obtain ⟨q1, q2, q3, q4, t, s, e, htp, hta⟩ := pok hok
        refine Or.inr (Or.inl ⟨hb2, q1, Or.inr q2, q3, q4, ?_⟩)
        exact ⟨t ++ [⟨s, e, "RW", none⟩], by simpa using hta, by
          intro a ha
          rcases List.mem_append.mp ha with hx | hx
          · exact Or.inl (htp a hx)
          · simp at hx; subst hx; exact Or.inr (Or.inr rfl)⟩
      · intro hok
        obtain ⟨q1, q2, q3, _, q5⟩ := pfail hok
        exact ⟨q1, q2, q3, q5⟩

theorem dinit_fields (d : D) :
    (dinit d).cmdkey = "NULL" ∧ (dinit d).Pcount = 0 ∧ (dinit d).BPcount = 0 ∧
    (dinit d).ADDcount = 0 ∧ (dinit d).BC = 0 ∧ (dinit d).bitcount = 0 ∧
    (dinit d).databyte = d.databyte ∧ (dinit d).extended = d.extended ∧
    (dinit d).anns = d.anns ∧ (dinit d).addressFormat = d.addressFormat ∧
    ((dinit d).state = "FIND BUS_PARK" ∨ (dinit d).state = "FIND SSC") ∧
    (d.state ≠ "FIND COMMAND" → (dinit d).state = "FIND SSC") := by
  simp only [dinit]
  split <;> simp_all

theorem initBP_fields (d : D) (stn : String) (key : Nat) :
    (initBP d stn key).anns = d.anns ++ [⟨d.Pes, d.samplenum, "BP", none⟩] ∧
    (initBP d stn key).addressFormat = d.addressFormat ∧
    (initBP d stn key).databyte = d.databyte ∧
    (initBP d stn key).extended = d.extended ∧
    (key = 0 → (initBP d stn key).state = stn ∧ (initBP d stn key).cmdkey = d.cmdkey ∧
      (initBP d stn key).Pcount = d.Pcount ∧ (initBP d stn key).BPcount = d.BPcount ∧
      (initBP d stn key).ADDcount = d.ADDcount ∧ (initBP d stn key).BC = d.BC ∧
      (initBP d stn key).bitcount = d.bitcount) ∧
    (key ≠ 0 → stn ≠ "FIND COMMAND" →
      (initBP d stn key).state = "FIND SSC" ∧ (initBP d stn key).cmdkey = "NULL" ∧
      (initBP d stn key).Pcount = 0 ∧ (initBP d stn key).BPcount = 0 ∧
      (initBP d stn key).ADDcount = 0 ∧ (initBP d stn key).BC = 0 ∧
      (initBP d stn key).bitcount = 0) := by
  simp only [initBP, handleBP, dinit, putx]
  split
  · split <;> simp_all
  · simp_all

/-- Case analysis of the FIND SSC branch: the transaction context is
never touched; the state moves to FIND BUS_PARK (malformed start), FIND
SLAVE ADDRESS (SSC found) or stays; only SSC, SSC-Warning and
Illegal-Jump-Edge annotations can be emitted. -/
theorem stepSSC_cases (d : D) (st : Str) {d' : D} {st' : Str} {ok : Bool}
    (h : stepSSC d st = (d', st', ok)) :
    d'.cmdkey = d.cmdkey ∧ d'.Pcount = d.Pcount ∧ d'.BPcount = d.BPcount ∧
    d'.ADDcount = d.ADDcount ∧ d'.BC = d.BC ∧ d'.bitcount = d.bitcount ∧
    d'.databyte = d.databyte ∧ d'.extended = d.extended ∧
    d'.addressFormat = d.addressFormat ∧
    (d'.state = d.state ∨ d'.state = "FIND BUS_PARK" ∨ d'.state = "FIND SLAVE ADDRESS") ∧
    AnnsExt d d' (fun a => a.kind = "IJE" ∨ a.kind = "SSC" ∨ a.kind = "SSC_WARNINGS") := by
  have leaf : ∀ (e : D), e.cmdkey = d.cmdkey → e.Pcount = d.Pcount → e.BPcount = d.BPcount →
      e.ADDcount = d.ADDcount → e.BC = d.BC → e.bitcount = d.bitcount →
      e.databyte = d.databyte → e.extended = d.extended → e.addressFormat = d.addressFormat →
      (e.state = d.state ∨ e.state = "FIND BUS_PARK" ∨ e.state = "FIND SLAVE ADDRESS") →
      AnnsExt d e (fun a => a.kind = "IJE" ∨ a.kind = "SSC" ∨ a.kind = "SSC_WARNINGS") →
      e.cmdkey = d.cmdkey ∧ e.Pcount = d.Pcount ∧ e.BPcount = d.BPcount ∧
      e.ADDcount = d.ADDcount ∧ e.BC = d.BC ∧ e.bitcount = d.bitcount ∧
      e.databyte = d.databyte ∧ e.extended = d.extended ∧ e.addressFormat = d.addressFormat ∧
      (e.state = d.state ∨ e.state = "FIND BUS_PARK" ∨ e.state = "FIND SLAVE ADDRESS") ∧
      AnnsExt d e (fun a => a.kind = "IJE" ∨ a.kind = "SSC" ∨ a.kind = "SSC_WARNINGS") := by
    intro e a1 a2 a3 a4 a5 a6 a7 a8 a9 a10 a11
    exact ⟨a1, a2, a3, a4, a5, a6, a7, a8, a9, a10, a11⟩
  unfold stepSSC at h
  cases h1 : dwait d st psSSC1 with
  | none =>
    rw [h1] at h
    obtain ⟨hd, -, -⟩ := prodEq3 h
    rw [hd]
    exact leaf d rfl rfl rfl rfl rfl rfl rfl rfl rfl (Or.inl rfl) (annsExt_refl d _)
  | some x =>
    obtain ⟨d1, st1, pins⟩ := x
    rw [h1] at h
    obtain ⟨m, n, rfl⟩ := dwait_some_eq h1
    by_cases hb0 : m.testBit 0
    · simp only [hb0, if_true, putx] at h
      by_cases hb1 : m.testBit 1
      · simp only [hb1, if_true] at h
        cases h2 : dwait ({ d with matched := m, samplenum := n, ss := n, es := n, state := "FIND BUS_PARK", anns := d.anns ++ [⟨n, n, "SSC_WARNINGS", none⟩] } : D) st1 psRise with
        | none =>
          rw [h2] at h
          obtain ⟨hd, -, -⟩ := prodEq3 h
          rw [hd]
          exact leaf _ rfl rfl rfl rfl rfl rfl rfl rfl rfl (Or.inr (Or.inl rfl))
            (annsExt_mk (by simp) (by simp [List.drop_left]))
        | some y =>
          obtain ⟨d3, st2, pins2⟩ := y
          rw [h2] at h
          obtain ⟨m3, n3, rfl⟩ := dwait_some_eq h2
          by_cases hc0 : m3.testBit 0
          · simp only [hc0, if_true, putx] at h
            cases h3 : dwait ({ d with matched := m3, samplenum := n3, ss := n3, es := n, state := "FIND BUS_PARK", anns := d.anns ++ [⟨n, n, "SSC_WARNINGS", none⟩] } : D) st2 psRise with
            | none =>
              rw [h3] at h
              obtain ⟨hd, -, -⟩ := prodEq3 h
              rw [hd]
              exact leaf _ rfl rfl rfl rfl rfl rfl rfl rfl rfl (Or.inr (Or.inl rfl))
                (annsExt_mk (by simp) (by simp [List.drop_left]))
            | some z =>
              obtain ⟨d5, st3, pins3⟩ := z
              rw [h3] at h
              obtain ⟨m5, n5, rfl⟩ := dwait_some_eq h3
              simp only [ijeStep2, putx] at h
              by_cases hd0 : m5.testBit 0
              · simp only [hd0, if_true] at h
                by_cases hd1 : m5.testBit 1
                · simp only [hd1, if_true] at h
                  obtain ⟨hd, -, -⟩ := prodEq3 h
                  rw [hd]
                  exact leaf _ (by simp) (by simp) (by simp) (by simp) (by simp) (by simp)
                    (by simp) (by simp) (by simp) (Or.inr (Or.inr (by simp)))
                    (annsExt_mk (by simp) (by simp [List.drop_left]))
                · simp only [hd1, Bool.false_eq_true, if_false] at h
                  obtain ⟨hd, -, -⟩ := prodEq3 h
                  rw [hd]
                  exact leaf _ (by simp) (by simp) (by simp) (by simp) (by simp) (by simp)
                    (by simp) (by simp) (by simp) (Or.inr (Or.inl (by simp)))
                    (annsExt_mk (by simp) (by simp [List.drop_left]))
              · simp only [hd0, Bool.false_eq_true, if_false] at h
                by_cases hd1 : m5.testBit 1
                · simp only [hd1, if_true] at h
                  obtain ⟨hd, -, -⟩ := prodEq3 h
                  rw [hd]
                  exact leaf _ (by simp) (by simp) (by simp) (by simp) (by simp) (by simp)
                    (by simp) (by simp) (by simp) (Or.inr (Or.inr (by simp)))
                    (annsExt_mk (by simp) (by simp [List.drop_left]))
                · simp only [hd1, Bool.false_eq_true, if_false] at h
                  obtain ⟨hd, -, -⟩ := prodEq3 h
                  rw [hd]
                  exact leaf _ (by simp) (by simp) (by simp) (by simp) (by simp) (by simp)
                    (by simp) (by simp) (by simp) (Or.inr (Or.inl (by simp)))
                    (annsExt_mk (by simp) (by simp [List.drop_left]))
          · simp only [hc0, Bool.false_eq_true, if_false] at h
            by_cases hc1 : m3.testBit 1
            · simp only [hc1, if_true, putx] at h
              obtain ⟨hd, -, -⟩ := prodEq3 h
              rw [hd]
              exact leaf _ (by simp) (by simp) (by simp) (by simp) (by simp) (by simp)
                (by simp) (by simp) (by simp) (Or.inr (Or.inr (by simp)))
                (annsExt_mk (by simp) (by simp [List.drop_left]))
            · simp only [hc1, Bool.false_eq_true, if_false] at h
              obtain ⟨hd, -, -⟩ := prodEq3 h
              rw [hd]
              exact leaf _ (by simp) (by simp) (by simp) (by simp) (by simp) (by simp)
                (by simp) (by simp) (by simp) (Or.inr (Or.inl (by simp)))
                (annsExt_mk (by simp) (by simp [List.drop_left]))
      · simp only [hb1, Bool.false_eq_true, if_false] at h
        obtain ⟨hd, -, -⟩ := prodEq3 h
        rw [hd]
        exact leaf _ (by simp) (by simp) (by simp) (by simp) (by simp) (by simp)
          (by simp) (by simp) (by simp) (Or.inr (Or.inl (by simp)))
          (annsExt_mk (by simp) (by simp [List.drop_left]))
    · simp only [hb0, Bool.false_eq_true, if_false] at h
      by_cases hb1 : m.testBit 1
      · simp only [hb1, if_true] at h
        cases h2 : dwait ({ d with matched := m, samplenum := n } : D) st1 psRise with
        | none =>
          rw [h2] at h
          obtain ⟨hd, -, -⟩ := prodEq3 h
          rw [hd]
          exact leaf _ (by simp) (by simp) (by simp) (by simp) (by simp) (by simp)
            (by simp) (by simp) (by simp) (Or.inl (by simp)) (annsExt_of_eq (by simp))
        | some y =>
          obtain ⟨d3, st2, pins2⟩ := y
          rw [h2] at h
          obtain ⟨m3, n3, rfl⟩ := dwait_some_eq h2
          by_cases hc0 : m3.testBit 0
          · simp only [hc0, if_true, putx] at h
            cases h3 : dwait ({ d with matched := m3, samplenum := n3, ss := n3 } : D) st2 psRise with
            | none =>
              rw [h3] at h
              obtain ⟨hd, -, -⟩ := prodEq3 h
              rw [hd]
              exact leaf _ (by simp) (by simp) (by simp) (by simp) (by simp) (by simp)
                (by simp) (by simp) (by simp) (Or.inl (by simp)) (annsExt_of_eq (by simp))
            | some z =>
              obtain ⟨d5, st3, pins3⟩ := z
              rw [h3] at h
              obtain ⟨m5, n5, rfl⟩ := dwait_some_eq h3
              simp only [ijeStep2, putx] at h
              by_cases hd0 : m5.testBit 0
              · simp only [hd0, if_true] at h
                by_cases hd1 : m5.testBit 1
                · simp only [hd1, if_true] at h
                  obtain ⟨hd, -, -⟩ := prodEq3 h
                  rw [hd]
                  exact leaf _ (by simp) (by simp) (by simp) (by simp) (by simp) (by simp)
                    (by simp) (by simp) (by simp) (Or.inr (Or.inr (by simp)))
                    (annsExt_mk (by simp) (by simp [List.drop_left]))
                · simp only [hd1, Bool.false_eq_true, if_false] at h
                  obtain ⟨hd, -, -⟩ := prodEq3 h
                  rw [hd]
                  exact leaf _ (by simp) (by simp) (by simp) (by simp) (by simp) (by simp)
                    (by simp) (by simp) (by simp) (Or.inl (by simp))
                    (annsExt_mk (by simp) (by simp [List.drop_left]))
              · simp only [hd0, Bool.false_eq_true, if_false] at h
                by_cases hd1 : m5.testBit 1
                · simp only [hd1, if_true] at h
                  obtain ⟨hd, -, -⟩ := prodEq3 h
                  rw [hd]
                  exact leaf _ (by simp) (by simp) (by simp) (by simp) (by simp) (by simp)
                    (by simp) (by simp) (by simp) (Or.inr (Or.inr (by simp)))
                    (annsExt_mk (by simp) (by simp [List.drop_left]))
                · simp only [hd1, Bool.false_eq_true, if_false] at h
                  obtain ⟨hd, -, -⟩ := prodEq3 h
                  rw [hd]
                  exact leaf _ (by simp) (by simp) (by simp) (by simp) (by simp) (by simp)
                    (by simp) (by simp) (by simp) (Or.inl (by simp))
                    (annsExt_mk (by simp) (by simp [List.drop_left]))
          · simp only [hc0, Bool.false_eq_true, if_false] at h
            by_cases hc1 : m3.testBit 1
            · simp only [hc1, if_true, putx] at h
              obtain ⟨hd, -, -⟩ := prodEq3 h
              rw [hd]
              exact leaf _ (by simp) (by simp) (by simp) (by simp) (by simp) (by simp)
                (by simp) (by simp) (by simp) (Or.inr (Or.inr (by simp)))
                (annsExt_mk (by simp) (by simp [List.drop_left]))
            · simp only [hc1, Bool.false_eq_true, if_false] at h
              obtain ⟨hd, -, -⟩ := prodEq3 h
              rw [hd]
              exact leaf _ (by simp) (by simp) (by simp) (by simp) (by simp) (by simp)
                (by simp) (by simp) (by simp) (Or.inl (by simp)) (annsExt_of_eq (by simp))
      · simp only [hb1, Bool.false_eq_true, if_false] at h
        obtain ⟨hd, -, -⟩ := prodEq3 h
        rw [hd]
        exact leaf _ (by simp) (by simp) (by simp) (by simp) (by simp) (by simp)
          (by simp) (by simp) (by simp) (Or.inl (by simp)) (annsExt_of_eq (by simp))


theorem bpIJE_spec (d : D) :
    SameCore d (bpIJE d) ∧ (bpIJE d).matched = d.matched ∧
    (bpIJE d).samplenum = d.samplenum ∧ (bpIJE d).Pes = d.Pes ∧
    AnnsExt d (bpIJE d) (fun a => a.kind = "IJE") := by
  simp only [bpIJE]
  by_cases h0 : d.matched.testBit 0
  · simp only [h0, if_true, putx]
    by_cases h1 : d.matched.testBit 1
    · simp only [h1, if_true]
      exact ⟨by simp [SameCore], by simp, by simp, by simp,
             annsExt_mk (by simp) (by simp [List.drop_left])⟩
    · simp only [h1, Bool.false_eq_true, if_false]
      exact ⟨by simp [SameCore], by simp, by simp, by simp,
             annsExt_mk (by simp) (by simp [List.drop_left])⟩
  · simp only [h0, Bool.false_eq_true, if_false]
    by_cases h1 : d.matched.testBit 1
    · simp only [h1, if_true, putx]
      exact ⟨by simp [SameCore], by simp, by simp, by simp,
             annsExt_mk (by simp) (by simp [List.drop_left])⟩
    · simp only [h1, Bool.false_eq_true, if_false]
      exact ⟨sameCore_refl d, by simp, by simp, by simp, annsExt_refl d _⟩

/-- Case analysis of the main FIND BUS_PARK dispatch (`if matched bit 1`
block): either nothing observable happens, or (`cmdkey == 'NULL'`) the
idle bus is watched and the machine re-arms, or a Bus-Park annotation is
consumed — resuming into FIND DATA without any reset when the classified
command is in the read family with park-count 1, and otherwise resetting
the whole transaction context and re-arming into FIND SSC. -/
theorem stepBPmain_cases (d2 : D) (st2 : Str) {d' : D} {st' : Str} {ok : Bool}
    (h : stepBPmain d2 st2 = (d', st', ok)) :
    d'.databyte = d2.databyte ∧ d'.extended = d2.extended ∧
    d'.addressFormat = d2.addressFormat ∧
    ((d'.state = d2.state ∧ d'.cmdkey = d2.cmdkey ∧ d'.Pcount = d2.Pcount ∧
      d'.BPcount = d2.BPcount ∧ d'.ADDcount = d2.ADDcount ∧ d'.BC = d2.BC ∧
      d'.bitcount = d2.bitcount ∧ d'.anns = d2.anns) ∨
     (d2.cmdkey = "NULL" ∧ d'.cmdkey = d2.cmdkey ∧ d'.Pcount = d2.Pcount ∧
      d'.BPcount = d2.BPcount ∧ d'.ADDcount = d2.ADDcount ∧ d'.BC = d2.BC ∧
      d'.bitcount = d2.bitcount ∧
      (d'.state = d2.state ∨ d'.state = "FIND BUS_PARK" ∨ d'.state = "FIND SSC") ∧
      AnnsExt d2 d' (fun a => a.kind = "SSC_WARNINGS")) ∨
     ((d2.cmdkey = "ERR" ∨ d2.cmdkey = "ERRL" ∨ d2.cmdkey = "RR") ∧ d2.BPcount = 1 ∧
      d'.state = "FIND DATA" ∧ d'.cmdkey = d2.cmdkey ∧ d'.Pcount = d2.Pcount ∧
      d'.BPcount = d2.BPcount ∧ d'.ADDcount = d2.ADDcount ∧ d'.BC = d2.BC ∧
      d'.bitcount = d2.bitcount ∧
      ∃ e, d'.anns = d2.anns ++ [⟨d2.Pes, e, "BP", none⟩]) ∨
     (d2.cmdkey ≠ "NULL" ∧
      ((d2.cmdkey = "ERR" ∨ d2.cmdkey = "ERRL" ∨ d2.cmdkey = "RR") → d2.BPcount ≠ 1) ∧
      d'.state = "FIND SSC" ∧ d'.cmdkey = "NULL" ∧ d'.Pcount = 0 ∧ d'.BPcount = 0 ∧
      d'.ADDcount = 0 ∧ d'.BC = 0 ∧ d'.bitcount = 0 ∧
      ∃ e, d'.anns = d2.anns ++ [⟨d2.Pes, e, "BP", none⟩])) := by
  unfold stepBPmain at h
  by_cases hm1 : d2.matched.testBit 1
  · simp only [hm1, if_true] at h
    by_cases hk : d2.cmdkey = "NULL"
    · rw [if_pos (show ({ d2 with BPss := d2.samplenum } : D).cmdkey = "NULL" from hk)] at h
      cases h2 : dwait ({ d2 with BPss := d2.samplenum } : D) st2 psBP3 with
      | none =>
        rw [h2] at h
        obtain ⟨hd, -, -⟩ := prodEq3 h
        rw [hd]
        exact ⟨by simp, by simp, by simp,
               Or.inl ⟨by simp, by simp, by simp, by simp, by simp, by simp, by simp, by simp⟩⟩
      | some y =>
        obtain ⟨d4, st3, pins⟩ := y
        rw [h2] at h
        obtain ⟨m4, n4, rfl⟩ := dwait_some_eq h2
        by_cases hm40 : m4.testBit 0
        · simp only [hm40, if_true] at h
          cases h3 : dwait ({ d2 with BPss := d2.samplenum, matched := m4, samplenum := n4, ss := n4 } : D) st3 psBP4 with
          | none =>
            rw [h3] at h
            obtain ⟨hd, -, -⟩ := prodEq3 h
            rw [hd]
            exact ⟨by simp, by simp, by simp,
                   Or.inl ⟨by simp, by simp, by simp, by simp, by simp, by simp, by simp, by simp⟩⟩
          | some z =>
            obtain ⟨d6, st4, pins2⟩ := z
            rw [h3] at h
            obtain ⟨m6, n6, rfl⟩ := dwait_some_eq h3
            simp only [putx] at h
            by_cases ht0 : m6.testBit 0
            · simp only [ht0, if_true] at h
              by_cases ht1 : m6.testBit 1
              · simp only [ht1, if_true] at h
                by_cases ht2 : m6.testBit 2
                · simp only [ht2, if_true] at h
                  obtain ⟨hd, -, -⟩ := prodEq3 h
                  rw [hd]
                  refine ⟨by simp, by simp, by simp, Or.inr (Or.inl ⟨hk, by simp, by simp,
                    by simp, by simp, by simp, by simp, Or.inr (Or.inr (by simp)), ?_⟩)⟩
                  exact annsExt_mk (by simp) (by simp [List.drop_left])
                · simp only [ht2, Bool.false_eq_true, if_false, ht1, if_true] at h
                  obtain ⟨hd, -, -⟩ := prodEq3 h
                  rw [hd]
                  refine ⟨by simp, by simp, by simp, Or.inr (Or.inl ⟨hk, by simp, by simp,
                    by simp, by simp, by simp, by simp, Or.inr (Or.inr (by simp)), ?_⟩)⟩
                  exact annsExt_mk (by simp) (by simp [List.drop_left])
              · simp only [ht1, Bool.false_eq_true, if_false] at h
                by_cases ht2 : m6.testBit 2
                · simp only [ht2, if_true] at h
                  obtain ⟨hd, -, -⟩ := prodEq3 h
                  rw [hd]
                  refine ⟨by simp, by simp, by simp, Or.inr (Or.inl ⟨hk, by simp, by simp,
                    by simp, by simp, by simp, by simp, Or.inr (Or.inr (by simp)), ?_⟩)⟩
                  exact annsExt_mk (by simp) (by simp [List.drop_left])
                · simp only [ht2, Bool.false_eq_true, if_false] at h
                  obtain ⟨hd, -, -⟩ := prodEq3 h
                  rw [hd]
                  refine ⟨by simp, by simp, by simp, Or.inr (Or.inl ⟨hk, by simp, by simp,
                    by simp, by simp, by simp, by simp, Or.inr (Or.inl (by simp)), ?_⟩)⟩
                  exact annsExt_mk (by simp) (by simp [List.drop_left])
            · simp only [ht0, Bool.false_eq_true, if_false] at h
              by_cases ht1 : m6.testBit 1
              · simp only [ht1, if_true] at h
                by_cases ht2 : m6.testBit 2
                · simp only [ht2, if_true] at h
                  obtain ⟨hd, -, -⟩ := prodEq3 h
                  rw [hd]
                  exact ⟨by simp, by simp, by simp, Or.inr (Or.inl ⟨hk, by simp, by simp,
                    by simp, by simp, by simp, by simp, Or.inr (Or.inr (by simp)),
                    annsExt_of_eq (by simp)⟩)⟩
                · simp only [ht2, Bool.false_eq_true, if_false, ht1, if_true] at h
                  obtain ⟨hd, -, -⟩ := prodEq3 h
                  rw [hd]
                  exact ⟨by simp, by simp, by simp, Or.inr (Or.inl ⟨hk, by simp, by simp,
                    by simp, by simp, by simp, by simp, Or.inr (Or.inr (by simp)),
                    annsExt_of_eq (by simp)⟩)⟩
              · simp only [ht1, Bool.false_eq_true, if_false] at h
                by_cases ht2 : m6.testBit 2
                · simp only [ht2, if_true] at h
                  obtain ⟨hd, -, -⟩ := prodEq3 h
                  rw [hd]
                  exact ⟨by simp, by simp, by simp, Or.inr (Or.inl ⟨hk, by simp, by simp,
                    by simp, by simp, by simp, by simp, Or.inr (Or.inr (by simp)),
                    annsExt_of_eq (by simp)⟩)⟩
                · simp only [ht2, Bool.false_eq_true, if_false] at h
                  obtain ⟨hd, -, -⟩ := prodEq3 h
                  rw [hd]
                  exact ⟨by simp, by simp, by simp,
                         Or.inl ⟨by simp, by simp, by simp, by simp, by simp, by simp,
                                 by simp, by simp⟩⟩
        · simp only [hm40, Bool.false_eq_true, if_false] at h
          by_cases hm41 : m4.testBit 1
          · simp only [hm41, if_true] at h
            obtain ⟨hd, -, -⟩ := prodEq3 h
            rw [hd]
            exact ⟨by simp, by simp, by simp, Or.inr (Or.inl ⟨hk, by simp, by simp,
              by simp, by simp, by simp, by simp, Or.inr (Or.inr (by simp)),
              annsExt_of_eq (by simp)⟩)⟩
          · simp only [hm41, Bool.false_eq_true, if_false] at h
            obtain ⟨hd, -, -⟩ := prodEq3 h
            rw [hd]
            exact ⟨by simp, by simp, by simp,
                   Or.inl ⟨by simp, by simp, by simp, by simp, by simp, by simp, by simp, by simp⟩⟩
    · rw [if_neg (show ¬ ({ d2 with BPss := d2.samplenum } : D).cmdkey = "NULL" from hk)] at h
      by_cases hrd : d2.cmdkey = "ERR" ∨ d2.cmdkey = "ERRL" ∨ d2.cmdkey = "RR"
      · rw [if_pos (show ({ d2 with BPss := d2.samplenum } : D).cmdkey = "ERR" ∨
            ({ d2 with BPss := d2.samplenum } : D).cmdkey = "ERRL" ∨
            ({ d2 with BPss := d2.samplenum } : D).cmdkey = "RR" from hrd)] at h
        by_cases hbp : d2.BPcount = 1
        · rw [if_pos (show ({ d2 with BPss := d2.samplenum } : D).BPcount = 1 from hbp)] at h
          obtain ⟨hd, -, -⟩ := prodEq3 h
          rw [hd]
          obtain ⟨i1, i2, i3, i4, i5, -⟩ :=
            initBP_fields ({ d2 with BPss := d2.samplenum } : D) "FIND DATA" 0
          obtain ⟨j1, j2, j3, j4, j5, j6, j7⟩ := i5 rfl
          refine ⟨by rw [i3], by rw [i4], by rw [i2],
                  Or.inr (Or.inr (Or.inl ⟨hrd, hbp, by rw [j1], by rw [j2],
                    by rw [j3], by rw [j4], by rw [j5], by rw [j6], by rw [j7], ?_⟩))⟩
          exact ⟨d2.samplenum, by rw [i1]⟩
        · rw [if_neg (show ¬ ({ d2 with BPss := d2.samplenum } : D).BPcount = 1 from hbp)] at h
          obtain ⟨hd, -, -⟩ := prodEq3 h
          rw [hd]
          obtain ⟨i1, i2, i3, i4, -, i6⟩ :=
            initBP_fields ({ d2 with BPss := d2.samplenum } : D) "FIND DATA" 1
          obtain ⟨j1, j2, j3, j4, j5, j6, j7⟩ := i6 (by simp) (by simp)
          refine ⟨by rw [i3], by rw [i4], by rw [i2],
                  Or.inr (Or.inr (Or.inr ⟨hk, fun _ => hbp, by rw [j1], by rw [j2],
                    by rw [j3], by rw [j4], by rw [j5], by rw [j6], by rw [j7], ?_⟩))⟩
          exact ⟨d2.samplenum, by rw [i1]⟩
      · rw [if_neg (show ¬ (({ d2 with BPss := d2.samplenum } : D).cmdkey = "ERR" ∨
            ({ d2 with BPss := d2.samplenum } : D).cmdkey = "ERRL" ∨
            ({ d2 with BPss := d2.samplenum } : D).cmdkey = "RR") from hrd)] at h
        obtain ⟨hd, -, -⟩ := prodEq3 h
        rw [hd]
        obtain ⟨i1, i2, i3, i4, -, i6⟩ :=
          initBP_fields ({ d2 with BPss := d2.samplenum } : D) "FIND SSC" 1
        obtain ⟨j1, j2, j3, j4, j5, j6, j7⟩ := i6 (by simp) (by simp)
        refine ⟨by rw [i3], by rw [i4], by rw [i2],
                Or.inr (Or.inr (Or.inr ⟨hk, fun hx => absurd hx hrd, by rw [j1], by rw [j2],
                  by rw [j3], by rw [j4], by rw [j5], by rw [j6], by rw [j7], ?_⟩))⟩
        exact ⟨d2.samplenum, by rw [i1]⟩
  · simp only [hm1, Bool.false_eq_true, if_false] at h
    obtain ⟨hd, -, -⟩ := prodEq3 h
    rw [hd]
    exact ⟨rfl, rfl, rfl, Or.inl ⟨rfl, rfl, rfl, rfl, rfl, rfl, rfl, rfl⟩⟩

/-- Case analysis of the whole FIND BUS_PARK branch (claim C6's shape):
either the step is observably inert (possible Illegal-Jump-Edge warnings
only), or the idle-bus watch for `cmdkey == 'NULL'` runs, or a Bus-Park
annotation is consumed — read family with park-count 1 resumes into FIND
DATA with the transaction context intact, every other classified command
resets the context and re-arms into FIND SSC. -/
theorem stepBP_cases (d : D) (st : Str) {d' : D} {st' : Str} {ok : Bool}
    (h : stepBP d st = (d', st', ok)) :
    d'.databyte = d.databyte ∧ d'.extended = d.extended ∧
    d'.addressFormat = d.addressFormat ∧
    ((d'.state = d.state ∧ d'.cmdkey = d.cmdkey ∧ d'.Pcount = d.Pcount ∧
      d'.BPcount = d.BPcount ∧ d'.ADDcount = d.ADDcount ∧ d'.BC = d.BC ∧
      d'.bitcount = d.bitcount ∧ AnnsExt d d' (fun a => a.kind = "IJE")) ∨
     (d.cmdkey = "NULL" ∧ d'.cmdkey = d.cmdkey ∧ d'.Pcount = d.Pcount ∧
      d'.BPcount = d.BPcount ∧ d'.ADDcount = d.ADDcount ∧ d'.BC = d.BC ∧
      d'.bitcount = d.bitcount ∧
      (d'.state = d.state ∨ d'.state = "FIND BUS_PARK" ∨ d'.state = "FIND SSC") ∧
      AnnsExt d d' (fun a => a.kind = "IJE" ∨ a.kind = "SSC_WARNINGS")) ∨
     ((d.cmdkey = "ERR" ∨ d.cmdkey = "ERRL" ∨ d.cmdkey = "RR") ∧ d.BPcount = 1 ∧
      d'.state = "FIND DATA" ∧ d'.cmdkey = d.cmdkey ∧ d'.Pcount = d.Pcount ∧
      d'.BPcount = d.BPcount ∧ d'.ADDcount = d.ADDcount ∧ d'.BC = d.BC ∧
      d'.bitcount = d.bitcount ∧
      ∃ t e, (∀ a ∈ t, a.kind = "IJE") ∧
        d'.anns = d.anns ++ t ++ [⟨d.Pes, e, "BP", none⟩]) ∨
     (d.cmdkey ≠ "NULL" ∧
      ((d.cmdkey = "ERR" ∨ d.cmdkey = "ERRL" ∨ d.cmdkey = "RR") → d.BPcount ≠ 1) ∧
      d'.state = "FIND SSC" ∧ d'.cmdkey = "NULL" ∧ d'.Pcount = 0 ∧ d'.BPcount = 0 ∧
      d'.ADDcount = 0 ∧ d'.BC = 0 ∧ d'.bitcount = 0 ∧
      ∃ t e, (∀ a ∈ t, a.kind = "IJE") ∧
        d'.anns = d.anns ++ t ++ [⟨d.Pes, e, "BP", none⟩])) := by
  unfold stepBP at h
  cases h1 : dwait d st psBP1 with
  | none =>
    rw [h1] at h
    obtain ⟨hd, -, -⟩ := prodEq3 h
    rw [hd]
    exact ⟨rfl, rfl, rfl, Or.inl ⟨rfl, rfl, rfl, rfl, rfl, rfl, rfl, annsExt_refl d _⟩⟩
  | some x =>
    obtain ⟨d1, st1, pins⟩ := x
    rw [h1] at h
    obtain ⟨m, n, rfl⟩ := dwait_some_eq h1
    by_cases hb0 : m.testBit 0
    · simp only [hb0, if_true] at h
      cases h2 : dwait ({ d with matched := m, samplenum := n, ss := n } : D) st1 psBP2 with
      | none =>
        rw [h2] at h
        obtain ⟨hd, -, -⟩ := prodEq3 h
        rw [hd]
        exact ⟨by simp, by simp, by simp,
               Or.inl ⟨by simp, by simp, by simp, by simp, by simp, by simp, by simp,
                       annsExt_of_eq (by simp)⟩⟩
      | some y =>
        obtain ⟨d3, st2, pins2⟩ := y
        rw [h2] at h
        obtain ⟨m3, n3, rfl⟩ := dwait_some_eq h2
        simp only [] at h
        obtain ⟨bc, bm, bn, bp, ⟨bt, bte, btp⟩⟩ :=
          bpIJE_spec ({ d with matched := m3, samplenum := n3, ss := n } : D)
        obtain ⟨s1, s2, s3, s4, s5, s6, s7, s8, s9, s10, s11, s12, s13⟩ := bc
        obtain ⟨e1, e2, e3, hdisp⟩ := stepBPmain_cases _ st2 h
        refine ⟨e1.trans s4, e2.trans s5, e3.trans s13, ?_⟩
        rcases hdisp with ⟨q1, q2, q3, q4, q5, q6, q7, q8⟩ | ⟨q0, q2, q3, q4, q5, q6, q7, q8, q9⟩ |
          ⟨q0, q1, q2, q3, q4, q5, q6, q7, q8, e, q9⟩ | ⟨q0, q1, q2, q3, q4, q5, q6, q7, q8, e, q9⟩
        · exact Or.inl ⟨q1.trans s1, q2.trans s2, q3.trans s7, q4.trans s8, q5.trans s9,
            q6.trans s6, q7.trans s3, ⟨bt, q8.trans bte, btp⟩⟩
        · refine Or.inr (Or.inl ⟨s2.symm.trans q0, q2.trans s2, q3.trans s7, q4.trans s8,
            q5.trans s9, q6.trans s6, q7.trans s3, ?_, ?_⟩)
          · rcases q8 with hq | hq | hq
            · exact Or.inl (hq.trans s1)
            · exact Or.inr (Or.inl hq)
            · exact Or.inr (Or.inr hq)
          · exact annsExt_trans (annsExt_mono ⟨bt, bte, btp⟩ (fun a hx => Or.inl hx))
              (annsExt_mono q9 (fun a hx => Or.inr hx))
        · refine Or.inr (Or.inr (Or.inl ⟨?_, s8.symm.trans q1, q2, q3.trans s2, q4.trans s7,
            q5.trans s8, q6.trans s9, q7.trans s6, q8.trans s3, ?_⟩))
          · rcases q0 with hq | hq | hq
            · exact Or.inl (s2.symm.trans hq)
            · exact Or.inr (Or.inl (s2.symm.trans hq))
            · exact Or.inr (Or.inr (s2.symm.trans hq))
          · exact ⟨bt, e, btp, q9.trans (by rw [bte, bp])⟩
        · refine Or.inr (Or.inr (Or.inr ⟨fun hx => q0 (s2.trans hx), ?_, q2, q3, q4, q5, q6,
            q7, q8, ?_⟩))
          · intro hx hb
            rcases hx with hq | hq | hq
            · exact q1 (Or.inl (s2.trans hq)) (s8.trans hb)
            · exact q1 (Or.inr (Or.inl (s2.trans hq))) (s8.trans hb)
            · exact q1 (Or.inr (Or.inr (s2.trans hq))) (s8.trans hb)
          · exact ⟨bt, e, btp, q9.trans (by rw [bte, bp])⟩
    · simp only [hb0, Bool.false_eq_true, if_false] at h
      obtain ⟨e1, e2, e3, hdisp⟩ := stepBPmain_cases _ st1 h
      refine ⟨e1, e2, e3, ?_⟩
      rcases hdisp with ⟨q1, q2, q3, q4, q5, q6, q7, q8⟩ | ⟨q0, q2, q3, q4, q5, q6, q7, q8, q9⟩ |
        ⟨q0, q1, q2, q3, q4, q5, q6, q7, q8, e, q9⟩ | ⟨q0, q1, q2, q3, q4, q5, q6, q7, q8, e, q9⟩
      · exact Or.inl ⟨q1, q2, q3, q4, q5, q6, q7, annsExt_of_eq q8⟩
      · refine Or.inr (Or.inl ⟨q0, q2, q3, q4, q5, q6, q7, ?_,
          annsExt_mono q9 (fun a hx => Or.inr hx)⟩)
        rcases q8 with hq | hq | hq
        · exact Or.inl hq
        · exact Or.inr (Or.inl hq)
        · exact Or.inr (Or.inr hq)
      · exact Or.inr (Or.inr (Or.inl ⟨q0, q1, q2, q3, q4, q5, q6, q7, q8,
          ⟨[], e, by simp, by simpa using q9⟩⟩))
      · exact Or.inr (Or.inr (Or.inr ⟨q0, q1, q2, q3, q4, q5, q6, q7, q8,
          ⟨[], e, by simp, by simpa using q9⟩⟩))

/-! ### The reachability invariant -/

/-- Command keys that the decoder can actually reach: because the
`~self.extended` test is truthy for both flag values, classification
always completes at bit 0 (Register-0-Write) or bit 2 (Register-Read /
Register-Write); the extended command keys are dead. -/
def GoodKey (k : String) : Prop := k = "NULL" ∨ k = "R0W" ∨ k = "RW" ∨ k = "RR"

/-- Annotation kinds that can actually be emitted: never a Byte-Count, a
Command-Warning, or an extended command key. -/
def AnnOK (a : Ann) : Prop :=
  a.kind ≠ "BC" ∧ a.kind ≠ "CMD_WARNINGS" ∧ a.kind ≠ "ERW" ∧ a.kind ≠ "ERR" ∧
  a.kind ≠ "ERWL" ∧ a.kind ≠ "ERRL"

/-- The reachable machine states ('FIND BTEY_COUNT' and 'NULL' are dead). -/
def StOK (s : String) : Prop :=
  s = "FIND SSC" ∨ s = "FIND SLAVE ADDRESS" ∨ s = "FIND COMMAND" ∨ s = "FIND ADDRESS" ∨
  s = "FIND DATA" ∨ s = "FIND PARITY" ∨ s = "FIND BUS_PARK"

/-- The part of the invariant that holds at every halting point, even
when the stream ends mid-step. -/
def InvW (d : D) : Prop :=
  GoodKey d.cmdkey ∧ d.state ≠ "FIND BTEY_COUNT" ∧ d.ADDcount = 0 ∧ ∀ a ∈ d.anns, AnnOK a

/-- The full reachability invariant, preserved by every completed step
from the initial state. -/
def Inv (d : D) : Prop :=
  InvW d ∧ StOK d.state ∧
  (d.cmdkey = "NULL" → d.Pcount = 0 ∧ d.BPcount = 0) ∧
  ((d.state = "FIND SSC" ∨ d.state = "FIND SLAVE ADDRESS" ∨ d.state = "FIND COMMAND") →
    d.cmdkey = "NULL") ∧
  (d.state = "FIND COMMAND" → d.bitcount ≤ 2 ∧
    (d.bitcount = 2 → d.extended = 0 ∨ d.extended = 1)) ∧
  (d.state = "FIND ADDRESS" →
    (d.cmdkey = "RW" ∨ d.cmdkey = "RR") ∧ d.Pcount = 0 ∧ d.BPcount = 0) ∧
  (d.state = "FIND DATA" →
    (d.cmdkey = "R0W" ∧ d.BPcount = 0) ∨
    (d.cmdkey = "RW" ∧ d.Pcount ≤ 1 ∧ d.BPcount = 0) ∨
    (d.cmdkey = "RR" ∧ d.Pcount ≤ 1 ∧ d.BPcount ≤ 1)) ∧
  (d.state = "FIND PARITY" →
    d.cmdkey = "R0W" ∨ (d.cmdkey = "RW" ∧ d.Pcount ≤ 1 ∧ d.BPcount = 0) ∨
    (d.cmdkey = "RR" ∧ d.BPcount ≤ 1)) ∧
  (d.state = "FIND BUS_PARK" → d.cmdkey = "RR" → d.BPcount = 1 → d.Pcount ≤ 1)

theorem initD_inv (opt : String) : Inv (initD opt) := by
  refine ⟨⟨Or.inl rfl, by simp [initD], rfl, by simp [initD]⟩, ?_, ?_, ?_, ?_, ?_, ?_, ?_, ?_⟩ <;>
    simp [initD, StOK]

/-- Counter behaviour of one step: either all three transaction counters
are monotone, or they are all reset to zero — and a reset can only happen
from the FIND BUS_PARK state. -/
def MonoR (d d' : D) : Prop :=
  (d.Pcount ≤ d'.Pcount ∧ d.BPcount ≤ d'.BPcount ∧ d.ADDcount ≤ d'.ADDcount) ∨
  (d'.Pcount = 0 ∧ d'.BPcount = 0 ∧ d'.ADDcount = 0 ∧ d.state = "FIND BUS_PARK")

/-- What a step can do while the classified command is Register-0-Write:
no Address annotation is emitted, FIND ADDRESS is never entered, and the
parity step goes straight to FIND BUS_PARK. -/
def R0WConcl (d d' : D) (ok : Bool) : Prop :=
  d.cmdkey = "R0W" →
    AnnsExt d d' (fun a => a.kind ≠ "ADDRESS") ∧ d'.state ≠ "FIND ADDRESS" ∧
    (d.state = "FIND PARITY" → ok = true → d'.state = "FIND BUS_PARK")

/-- Everything the claims need from one step out of an invariant state. -/
def StepConcl (d d' : D) (ok : Bool) : Prop :=
  InvW d' ∧ (ok = true → Inv d') ∧ MonoR d d' ∧ R0WConcl d d' ok

theorem parityDispatch_R0W {d : D} (h : d.cmdkey = "R0W") :
    parityDispatch d = { d with state := "FIND BUS_PARK" } := by
  simp [parityDispatch, h]

theorem parityDispatch_RW {d : D} (h : d.cmdkey = "RW") :
    parityDispatch d =
      if d.Pcount = 1 then { d with state := "FIND DATA" }
      else if d.Pcount = 2 then { d with BPcount := 1, state := "FIND BUS_PARK" }
      else d := by
  simp [parityDispatch, h]

theorem parityDispatch_RR {d : D} (h : d.cmdkey = "RR") :
    parityDispatch d =
      { d with state := "FIND BUS_PARK", BPcount := if d.Pcount = 1 then 1 else 2 } := by
  simp [parityDispatch, h]

theorem master_ssc {d : D} {st : Str} {d' : D} {st' : Str} {ok : Bool}
    (hI : Inv d) (hs : d.state = "FIND SSC") (h : stepSSC d st = (d', st', ok)) :
    StepConcl d d' ok := by
  obtain ⟨⟨hGK, hBT, hAD, hAN⟩, hSt, hNull, hNK, hCmd, hAddr, hData, hPar, hBPK⟩ := hI
  obtain ⟨c1, c2, c3, c4, c5, c6, c7, c8, c9, cstate, cann⟩ := stepSSC_cases d st h
  have hkey : d.cmdkey = "NULL" := hNK (Or.inl hs)
  have hP0 : d.Pcount = 0 := (hNull hkey).1
  have hBP0 : d.BPcount = 0 := (hNull hkey).2
  have hkey' : d'.cmdkey = "NULL" := c1.trans hkey
  have hst3 : d'.state = "FIND SSC" ∨ d'.state = "FIND BUS_PARK" ∨
      d'.state = "FIND SLAVE ADDRESS" := by
    rcases cstate with hc | hc | hc
    · exact Or.inl (hc.trans hs)
    · exact Or.inr (Or.inl hc)
    · exact Or.inr (Or.inr hc)
  have hAN' : ∀ a ∈ d'.anns, AnnOK a := by
    obtain ⟨t, hte, htp⟩ := cann
    intro a ha
    rw [hte] at ha
    rcases List.mem_append.mp ha with hx | hx
    · exact hAN a hx
    · rcases htp a hx with hk | hk | hk <;> simp [AnnOK, hk]
  have hInvW : InvW d' := by
    refine ⟨Or.inl hkey', ?_, c4.trans hAD, hAN'⟩
    rcases hst3 with hc | hc | hc <;> simp [hc]
  refine ⟨hInvW, ?_, Or.inl ⟨le_of_eq c2.symm, le_of_eq c3.symm, le_of_eq c4.symm⟩, ?_⟩
  · intro _
    refine ⟨hInvW, ?_, ?_, ?_, ?_, ?_, ?_, ?_, ?_⟩
    · rcases hst3 with hc | hc | hc <;> simp [StOK, hc]
    · intro _; exact ⟨c2.trans hP0, c3.trans hBP0⟩
    · intro _; exact hkey'
    · intro hc; rcases hst3 with hx | hx | hx <;> rw [hc] at hx <;> simp at hx
    · intro hc; rcases hst3 with hx | hx | hx <;> rw [hc] at hx <;> simp at hx
    · intro hc; rcases hst3 with hx | hx | hx <;> rw [hc] at hx <;> simp at hx
    · intro hc; rcases hst3 with hx | hx | hx <;> rw [hc] at hx <;> simp at hx
    · intro _ hrr; rw [hkey'] at hrr; simp at hrr
  · intro hr0w; rw [hr0w] at hkey; simp at hkey

theorem inv_mk_null {d' : D} (hW : InvW d')
    (hst : d'.state = "FIND SSC" ∨ d'.state = "FIND SLAVE ADDRESS" ∨
      d'.state = "FIND BUS_PARK")
    (hkey : d'.cmdkey = "NULL") (hP : d'.Pcount = 0) (hBP : d'.BPcount = 0) : Inv d' := by
  refine ⟨hW, ?_, fun _ => ⟨hP, hBP⟩, fun _ => hkey, ?_, ?_, ?_, ?_, ?_⟩
  · rcases hst with hc | hc | hc <;> simp [StOK, hc]
  · intro hc; rcases hst with hx | hx | hx <;> rw [hc] at hx <;> simp at hx
  · intro hc; rcases hst with hx | hx | hx <;> rw [hc] at hx <;> simp at hx
  · intro hc; rcases hst with hx | hx | hx <;> rw [hc] at hx <;> simp at hx
  · intro hc; rcases hst with hx | hx | hx <;> rw [hc] at hx <;> simp at hx
  · intro _ hrr; rw [hkey] at hrr; simp at hrr

theorem inv_mk_cmd {d' : D} (hW : InvW d') (hst : d'.state = "FIND COMMAND")
    (hkey : d'.cmdkey = "NULL") (hP : d'.Pcount = 0) (hBP : d'.BPcount = 0)
    (hbc : d'.bitcount ≤ 2)
    (hext : d'.bitcount = 2 → d'.extended = 0 ∨ d'.extended = 1) : Inv d' := by
  refine ⟨hW, by simp [StOK, hst], fun _ => ⟨hP, hBP⟩, fun _ => hkey,
    fun _ => ⟨hbc, hext⟩, ?_, ?_, ?_, ?_⟩
  · intro hc; rw [hst] at hc; simp at hc
  · intro hc; rw [hst] at hc; simp at hc
  · intro hc; rw [hst] at hc; simp at hc
  · intro _ hrr; rw [hkey] at hrr; simp at hrr

theorem inv_mk_addr {d' : D} (hW : InvW d') (hst : d'.state = "FIND ADDRESS")
    (hkey : d'.cmdkey = "RW" ∨ d'.cmdkey = "RR") (hP : d'.Pcount = 0)
    (hBP : d'.BPcount = 0) : Inv d' := by
  refine ⟨hW, by simp [StOK, hst], ?_, ?_, ?_, fun _ => ⟨hkey, hP, hBP⟩, ?_, ?_, ?_⟩
  · intro hc; rcases hkey with hk | hk <;> rw [hc] at hk <;> simp at hk
  · intro hc; rcases hc with hc | hc | hc <;> rw [hst] at hc <;> simp at hc
  · intro hc; rw [hst] at hc; simp at hc
  · intro hc; rw [hst] at hc; simp at hc
  · intro hc; rw [hst] at hc; simp at hc
  · intro hc; rw [hst] at hc; simp at hc

theorem inv_mk_data {d' : D} (hW : InvW d') (hst : d'.state = "FIND DATA")
    (halt : (d'.cmdkey = "R0W" ∧ d'.BPcount = 0) ∨
      (d'.cmdkey = "RW" ∧ d'.Pcount ≤ 1 ∧ d'.BPcount = 0) ∨
      (d'.cmdkey = "RR" ∧ d'.Pcount ≤ 1 ∧ d'.BPcount ≤ 1)) : Inv d' := by
  refine ⟨hW, by simp [StOK, hst], ?_, ?_, ?_, ?_, fun _ => halt, ?_, ?_⟩
  · intro hc
    rcases halt with ⟨hk, -⟩ | ⟨hk, -⟩ | ⟨hk, -⟩ <;> rw [hc] at hk <;> simp at hk
  · intro hc; rcases hc with hc | hc | hc <;> rw [hst] at hc <;> simp at hc
  · intro hc; rw [hst] at hc; simp at hc
  · intro hc; rw [hst] at hc; simp at hc
  · intro hc; rw [hst] at hc; simp at hc
  · intro hc; rw [hst] at hc; simp at hc

theorem inv_mk_par {d' : D} (hW : InvW d') (hst : d'.state = "FIND PARITY")
    (halt : d'.cmdkey = "R0W" ∨ (d'.cmdkey = "RW" ∧ d'.Pcount ≤ 1 ∧ d'.BPcount = 0) ∨
      (d'.cmdkey = "RR" ∧ d'.BPcount ≤ 1)) : Inv d' := by
  refine ⟨hW, by simp [StOK, hst], ?_, ?_, ?_, ?_, ?_, fun _ => halt, ?_⟩
  · intro hc
    rcases halt with hk | ⟨hk, -⟩ | ⟨hk, -⟩ <;> rw [hc] at hk <;> simp at hk
  · intro hc; rcases hc with hc | hc | hc <;> rw [hst] at hc <;> simp at hc
  · intro hc; rw [hst] at hc; simp at hc
  · intro hc; rw [hst] at hc; simp at hc
  · intro hc; rw [hst] at hc; simp at hc
  · intro hc; rw [hst] at hc; simp at hc

theorem inv_mk_bp {d' : D} (hW : InvW d') (hst : d'.state = "FIND BUS_PARK")
    (hnull : d'.cmdkey = "NULL" → d'.Pcount = 0 ∧ d'.BPcount = 0)
    (hrr : d'.cmdkey = "RR" → d'.BPcount = 1 → d'.Pcount ≤ 1) : Inv d' := by
  refine ⟨hW, by simp [StOK, hst], hnull, ?_, ?_, ?_, ?_, ?_, fun _ => hrr⟩
  · intro hc; rcases hc with hc | hc | hc <;> rw [hst] at hc <;> simp at hc
  · intro hc; rw [hst] at hc; simp at hc
  · intro hc; rw [hst] at hc; simp at hc
  · intro hc; rw [hst] at hc; simp at hc
  · intro hc; rw [hst] at hc; simp at hc

theorem stepConcl_eof_id {d : D} (hI : Inv d) : StepConcl d d false := by
  obtain ⟨hW, hSt, hNull, hNK, hCmd, hAddr, hData, hPar, hBPK⟩ := hI
  refine ⟨hW, by simp, Or.inl ⟨le_refl _, le_refl _, le_refl _⟩, ?_⟩
  intro hr0w
  refine ⟨annsExt_refl d _, ?_, ?_⟩
  · intro hc
    rcases (hAddr hc).1 with hk | hk <;> rw [hr0w] at hk <;> simp at hk
  · intro _ hok; exact absurd hok (by simp)

theorem invW_mk {d d' : D} (hAN : ∀ a ∈ d.anns, AnnOK a) (hGK' : GoodKey d'.cmdkey)
    (hBT' : d'.state ≠ "FIND BTEY_COUNT") (hAD' : d'.ADDcount = 0)
    (hx : AnnsExt d d' AnnOK) : InvW d' := by
  obtain ⟨t, hte, htp⟩ := hx
  refine ⟨hGK', hBT', hAD', ?_⟩
  intro a ha
  rw [hte] at ha
  rcases List.mem_append.mp ha with hm | hm
  · exact hAN a hm
  · exact htp a hm

theorem master_sa {d : D} {st : Str} {d' : D} {st' : Str} {ok : Bool}
    (hI : Inv d) (hs : d.state = "FIND SLAVE ADDRESS") (h : step d st = (d', st', ok)) :
    StepConcl d d' ok := by
  unfold step at h
  rw [if_neg (show ¬ d.state = "FIND SSC" by rw [hs]; simp), if_pos hs] at h
  cases hw : dwait d st [pH] with
  | none =>
    rw [hw] at h
    obtain ⟨hd, -, hok⟩ := prodEq3 h
    rw [hd, hok]
    exact stepConcl_eof_id hI
  | some x =>
    obtain ⟨d1, st1, pins⟩ := x
    rw [hw] at h
    obtain ⟨m, n, rfl⟩ := dwait_some_eq hw
    obtain ⟨p1, p2, p3, p4, p5, p6, p7, pokLT, pokGE, pfail⟩ :=
      handle_cases _ st1 pins.sdata "SA" "FIND COMMAND" 3 h
    obtain ⟨⟨hGK, hBT, hAD, hAN⟩, hSt, hNull, hNK, hCmd, hAddr, hData, hPar, hBPK⟩ := hI
    have hkey : d.cmdkey = "NULL" := hNK (Or.inr (Or.inl hs))
    have hP0 : d.Pcount = 0 := (hNull hkey).1
    have hBP0 : d.BPcount = 0 := (hNull hkey).2
    have q1 : d'.cmdkey = d.cmdkey := p1
    have q2 : d'.Pcount = d.Pcount := p2
    have q3 : d'.BPcount = d.BPcount := p3
    have q4 : d'.ADDcount = d.ADDcount := p4
    have hr0wX : R0WConcl d d' ok := by
      intro hr0w; rw [hr0w] at hkey; simp at hkey
    have hMono : MonoR d d' :=
      Or.inl ⟨le_of_eq q2.symm, le_of_eq q3.symm, le_of_eq q4.symm⟩
    cases ok with
    | false =>
      obtain ⟨f1, f2, f3⟩ := pfail rfl
      have hst' : d'.state = d.state := f1
      have hx : AnnsExt d d' AnnOK :=
        annsExt_mono (show AnnsExt d d' (fun a => a.kind = "IJE") from f3)
          (fun a hk => by simp [AnnOK, hk])
      refine ⟨invW_mk hAN (by rw [q1]; exact hGK) (by rw [hst', hs]; simp)
        (q4.trans hAD) hx, by simp, hMono, hr0wX⟩
    | true =>
      by_cases hbc : (d.bitcount : Int) < 3
      · obtain ⟨f1, f2, f3, f4⟩ := pokLT rfl hbc
        have hst' : d'.state = d.state := f1
        have hx : AnnsExt d d' AnnOK :=
          annsExt_mono (show AnnsExt d d' (fun a => a.kind = "IJE") from f4)
            (fun a hk => by simp [AnnOK, hk])
        have hW : InvW d' := invW_mk hAN (by rw [q1]; exact hGK)
          (by rw [hst', hs]; simp) (q4.trans hAD) hx
        refine ⟨hW, fun _ => ?_, hMono, hr0wX⟩
        exact inv_mk_null hW (Or.inr (Or.inl (hst'.trans hs))) (q1.trans hkey)
          (q2.trans hP0) (q3.trans hBP0)
      · obtain ⟨f1, f2, f3, t, s, e, htp, hta⟩ := pokGE rfl hbc
        have hst' : d'.state = "FIND COMMAND" := f1
        have hx : AnnsExt d d' AnnOK := by
          refine ⟨t ++ [⟨s, e, "SA", some (3, pushBit d.databyte pins.sdata)⟩], hta, ?_⟩
          intro a ha
          rcases List.mem_append.mp ha with hm | hm
          · simp [AnnOK, htp a hm]
          · simp at hm; subst hm; simp [AnnOK]
        have hW : InvW d' := invW_mk hAN (by rw [q1]; exact hGK)
          (by rw [hst']; simp) (q4.trans hAD) hx
        refine ⟨hW, fun _ => ?_, hMono, hr0wX⟩
        refine inv_mk_cmd hW hst' (q1.trans hkey) (q2.trans hP0) (q3.trans hBP0)
          (by rw [show d'.bitcount = 0 from f2]; simp) ?_
        intro hb2; rw [show d'.bitcount = 0 from f2] at hb2; simp at hb2

theorem master_cmd {d : D} {st : Str} {d' : D} {st' : Str} {ok : Bool}
    (hI : Inv d) (hs : d.state = "FIND COMMAND") (h : step d st = (d', st', ok)) :
    StepConcl d d' ok := by
  unfold step at h
  rw [if_neg (show ¬ d.state = "FIND SSC" by rw [hs]; simp),
      if_neg (show ¬ d.state = "FIND SLAVE ADDRESS" by rw [hs]; simp), if_pos hs] at h
  cases hw : dwait d st [pH] with
  | none =>
    rw [hw] at h
    obtain ⟨hd, -, hok⟩ := prodEq3 h
    rw [hd, hok]
    exact stepConcl_eof_id hI
  | some x =>
    obtain ⟨d1, st1, pins⟩ := x
    rw [hw] at h
    obtain ⟨m, n, rfl⟩ := dwait_some_eq hw
    obtain ⟨⟨hGK, hBT, hAD, hAN⟩, hSt, hNull, hNK, hCmd, hAddr, hData, hPar, hBPK⟩ := hI
    have hkey : d.cmdkey = "NULL" := hNK (Or.inr (Or.inr hs))
    have hP0 : d.Pcount = 0 := (hNull hkey).1
    have hBP0 : d.BPcount = 0 := (hNull hkey).2
    obtain ⟨p1, p2, p3, p4, pok, pfail⟩ :=
      handleCMD_cases ({ d with matched := m, samplenum := n } : D) st1 pins.sdata
        ((hCmd hs).1) ((hCmd hs).2) h
    have q1 : d'.Pcount = d.Pcount := p1
    have q2 : d'.BPcount = d.BPcount := p2
    have q3 : d'.ADDcount = d.ADDcount := p3
    have hr0wX : R0WConcl d d' ok := by
      intro hr0w; rw [hr0w] at hkey; simp at hkey
    have hMono : MonoR d d' :=
      Or.inl ⟨le_of_eq q1.symm, le_of_eq q2.symm, le_of_eq q3.symm⟩
    cases ok with
    | false =>
      obtain ⟨f1, f2, f3, f4⟩ := pfail rfl
      have hst' : d'.state = d.state := f1
      have hx : AnnsExt d d' AnnOK :=
        annsExt_mono (show AnnsExt d d' (fun a => a.kind = "IJE") from f4)
          (fun a hk => by simp [AnnOK, hk])
      refine ⟨invW_mk hAN (by rw [show d'.cmdkey = d.cmdkey from f2]; exact hGK)
        (by rw [hst', hs]; simp) (q3.trans hAD) hx, by simp, hMono, hr0wX⟩
    | true =>
      rcases pok rfl with ⟨hb0, hsd, f1, f2, f3, f4, f5⟩ |
        ⟨hb2, f1, f2, f3, f4, f5⟩ | ⟨hble, f1, f2, f3, f4, f5⟩
      · -- classified Register-0-Write
        have hx : AnnsExt d d' AnnOK :=
          annsExt_mono (show AnnsExt d d' (fun a => a.kind = "IJE" ∨ a.kind = "R0W") from f5)
            (fun a hk => by rcases hk with hk | hk <;> simp [AnnOK, hk])
        have hW : InvW d' := invW_mk hAN (by rw [f2]; exact Or.inr (Or.inl rfl))
          (by rw [f1]; simp) (q3.trans hAD) hx
        refine ⟨hW, fun _ => ?_, hMono, hr0wX⟩
        exact inv_mk_data hW f1 (Or.inl ⟨f2, q2.trans hBP0⟩)
      · -- classified Register-Read / Register-Write at bit 2
        have hx : AnnsExt d d' AnnOK :=
          annsExt_mono
            (show AnnsExt d d' (fun a => a.kind = "IJE" ∨ a.kind = "RR" ∨ a.kind = "RW") from f5)
            (fun a hk => by rcases hk with hk | hk | hk <;> simp [AnnOK, hk])
        have hW : InvW d' := invW_mk hAN
          (by rcases f2 with hk | hk <;> rw [hk] <;> simp [GoodKey])
          (by rw [f1]; simp) (q3.trans hAD) hx
        refine ⟨hW, fun _ => ?_, hMono, hr0wX⟩
        refine inv_mk_addr hW f1 ?_ (q1.trans hP0) (q2.trans hBP0)
        rcases f2 with hk | hk
        · exact Or.inr hk
        · exact Or.inl hk
      · -- just another command bit
        have hst' : d'.state = d.state := f1
        have hx : AnnsExt d d' AnnOK :=
          annsExt_mono (show AnnsExt d d' (fun a => a.kind = "IJE") from f5)
            (fun a hk => by simp [AnnOK, hk])
        have hW : InvW d' := invW_mk hAN (by rw [show d'.cmdkey = d.cmdkey from f2]; exact hGK)
          (by rw [hst', hs]; simp) (q3.trans hAD) hx
        refine ⟨hW, fun _ => ?_, hMono, hr0wX⟩
        refine inv_mk_cmd hW (hst'.trans hs) ((show d'.cmdkey = d.cmdkey from f2).trans hkey)
          (q1.trans hP0) (q2.trans hBP0) (by omega) f4

theorem master_addr {d : D} {st : Str} {d' : D} {st' : Str} {ok : Bool}
    (hI : Inv d) (hs : d.state = "FIND ADDRESS") (h : step d st = (d', st', ok)) :
    StepConcl d d' ok := by
  unfold step at h
  rw [if_neg (show ¬ d.state = "FIND SSC" by rw [hs]; simp),
      if_neg (show ¬ d.state = "FIND SLAVE ADDRESS" by rw [hs]; simp),
      if_neg (show ¬ d.state = "FIND COMMAND" by rw [hs]; simp),
      if_neg (show ¬ d.state = "FIND BTEY_COUNT" by rw [hs]; simp), if_pos hs] at h
  cases hw : dwait d st [pH] with
  | none =>
    rw [hw] at h
    obtain ⟨hd, -, hok⟩ := prodEq3 h
    rw [hd, hok]
    exact stepConcl_eof_id hI
  | some x =>
    obtain ⟨d1, st1, pins⟩ := x
    rw [hw] at h
    obtain ⟨m, n, rfl⟩ := dwait_some_eq hw
    simp only [] at h
    obtain ⟨⟨hGK, hBT, hAD, hAN⟩, hSt, hNull, hNK, hCmd, hAddr, hData, hPar, hBPK⟩ := hI
    obtain ⟨hks, hP0, hBP0⟩ := hAddr hs
    rw [if_pos (show ({ d with matched := m, samplenum := n } : D).cmdkey = "RW" ∨
        ({ d with matched := m, samplenum := n } : D).cmdkey = "RR" from hks)] at h
    obtain ⟨p1, p2, p3, p4, p5, p6, p7, pokLT, pokGE, pfail⟩ :=
      handle_cases _ st1 pins.sdata "ADDRESS" "FIND PARITY" 4 h
    have q1 : d'.cmdkey = d.cmdkey := p1
    have q2 : d'.Pcount = d.Pcount := p2
    have q3 : d'.BPcount = d.BPcount := p3
    have q4 : d'.ADDcount = d.ADDcount := p4
    have hr0wX : R0WConcl d d' ok := by
      intro hr0w
      rcases hks with hk | hk <;> rw [hr0w] at hk <;> simp at hk
    have hMono : MonoR d d' :=
      Or.inl ⟨le_of_eq q2.symm, le_of_eq q3.symm, le_of_eq q4.symm⟩
    have hGK' : GoodKey d'.cmdkey := by rw [q1]; exact hGK
    cases ok with
    | false =>
      obtain ⟨f1, f2, f3⟩ := pfail rfl
      have hst' : d'.state = d.state := f1
      have hx : AnnsExt d d' AnnOK :=
        annsExt_mono (show AnnsExt d d' (fun a => a.kind = "IJE") from f3)
          (fun a hk => by simp [AnnOK, hk])
      exact ⟨invW_mk hAN hGK' (by rw [hst', hs]; simp) (q4.trans hAD) hx, by simp,
             hMono, hr0wX⟩
    | true =>
      by_cases hbc : (d.bitcount : Int) < 4
      · obtain ⟨f1, f2, f3, f4⟩ := pokLT rfl hbc
        have hst' : d'.state = d.state := f1
        have hx : AnnsExt d d' AnnOK :=
          annsExt_mono (show AnnsExt d d' (fun a => a.kind = "IJE") from f4)
            (fun a hk => by simp [AnnOK, hk])
        have hW : InvW d' := invW_mk hAN hGK' (by rw [hst', hs]; simp) (q4.trans hAD) hx
        refine ⟨hW, fun _ => ?_, hMono, hr0wX⟩
        refine inv_mk_addr hW (hst'.trans hs) ?_ (q2.trans hP0) (q3.trans hBP0)
        rcases hks with hk | hk
        · exact Or.inl (q1.trans hk)
        · exact Or.inr (q1.trans hk)
      · obtain ⟨f1, f2, f3, t, s, e, htp, hta⟩ := pokGE rfl hbc
        have hst' : d'.state = "FIND PARITY" := f1
        have hx : AnnsExt d d' AnnOK := by
          refine ⟨t ++ [⟨s, e, "ADDRESS", some (4, pushBit d.databyte pins.sdata)⟩], hta, ?_⟩
          intro a ha
          rcases List.mem_append.mp ha with hm | hm
          · simp [AnnOK, htp a hm]
          · simp at hm; subst hm; simp [AnnOK]
        have hW : InvW d' := invW_mk hAN hGK' (by rw [hst']; simp) (q4.trans hAD) hx
        refine ⟨hW, fun _ => ?_, hMono, hr0wX⟩
        refine inv_mk_par hW hst' ?_
        rcases hks with hk | hk
        · exact Or.inr (Or.inl ⟨q1.trans hk, by rw [q2, hP0]; simp, q3.trans hBP0⟩)
        · exact Or.inr (Or.inr ⟨q1.trans hk, by rw [q3, hBP0]; simp⟩)

theorem master_data {d : D} {st : Str} {d' : D} {st' : Str} {ok : Bool}
    (hI : Inv d) (hs : d.state = "FIND DATA") (h : step d st = (d', st', ok)) :
    StepConcl d d' ok := by
  unfold step at h
  rw [if_neg (show ¬ d.state = "FIND SSC" by rw [hs]; simp),
      if_neg (show ¬ d.state = "FIND SLAVE ADDRESS" by rw [hs]; simp),
      if_neg (show ¬ d.state = "FIND COMMAND" by rw [hs]; simp),
      if_neg (show ¬ d.state = "FIND BTEY_COUNT" by rw [hs]; simp),
      if_neg (show ¬ d.state = "FIND ADDRESS" by rw [hs]; simp), if_pos hs] at h
  cases hw : dwait d st [pH] with
  | none =>
    rw [hw] at h
    obtain ⟨hd, -, hok⟩ := prodEq3 h
    rw [hd, hok]
    exact stepConcl_eof_id hI
  | some x =>
    obtain ⟨d1, st1, pins⟩ := x
    rw [hw] at h
    obtain ⟨m, n, rfl⟩ := dwait_some_eq hw
    simp only [] at h
    obtain ⟨⟨hGK, hBT, hAD, hAN⟩, hSt, hNull, hNK, hCmd, hAddr, hData, hPar, hBPK⟩ := hI
    have key3 : ∀ (key : Int),
        handle ({ d with matched := m, samplenum := n } : D) st1 pins.sdata
          "DATA" "FIND PARITY" key = (d', st', ok) →
        ((d.cmdkey = "R0W" ∧ d.BPcount = 0) ∨
         (d.cmdkey = "RW" ∧ d.Pcount ≤ 1 ∧ d.BPcount = 0) ∨
         (d.cmdkey = "RR" ∧ d.Pcount ≤ 1 ∧ d.BPcount ≤ 1)) →
        StepConcl d d' ok := by
      intro key hh halt
      obtain ⟨p1, p2, p3, p4, p5, p6, p7, pokLT, pokGE, pfail⟩ :=
        handle_cases _ st1 pins.sdata "DATA" "FIND PARITY" key hh
      have q1 : d'.cmdkey = d.cmdkey := p1
      have q2 : d'.Pcount = d.Pcount := p2
      have q3 : d'.BPcount = d.BPcount := p3
      have q4 : d'.ADDcount = d.ADDcount := p4
      have hMono : MonoR d d' :=
        Or.inl ⟨le_of_eq q2.symm, le_of_eq q3.symm, le_of_eq q4.symm⟩
      have hGK' : GoodKey d'.cmdkey := by rw [q1]; exact hGK
      cases ok with
      | false =>
        obtain ⟨f1, f2, f3⟩ := pfail rfl
        have hst' : d'.state = d.state := f1
        have hx : AnnsExt d d' AnnOK :=
          annsExt_mono (show AnnsExt d d' (fun a => a.kind = "IJE") from f3)
            (fun a hk => by simp [AnnOK, hk])
        refine ⟨invW_mk hAN hGK' (by rw [hst', hs]; simp) (q4.trans hAD) hx, by simp,
               hMono, ?_⟩
        intro _
        refine ⟨annsExt_mono (show AnnsExt d d' (fun a => a.kind = "IJE") from f3)
          (fun a hk => by simp [hk]), by rw [hst', hs]; simp, ?_⟩
        intro hc; rw [hs] at hc; simp at hc
      | true =>
        by_cases hbc : (d.bitcount : Int) < key
        · obtain ⟨f1, f2, f3, f4⟩ := pokLT rfl hbc
          have hst' : d'.state = d.state := f1
          have hx : AnnsExt d d' AnnOK :=
            annsExt_mono (show AnnsExt d d' (fun a => a.kind = "IJE") from f4)
              (fun a hk => by simp [AnnOK, hk])
          have hW : InvW d' := invW_mk hAN hGK' (by rw [hst', hs]; simp) (q4.trans hAD) hx
          refine ⟨hW, fun _ => ?_, hMono, ?_⟩
          · refine inv_mk_data hW (hst'.trans hs) ?_
            rcases halt with ⟨hk, hb⟩ | ⟨hk, hp, hb⟩ | ⟨hk, hp, hb⟩
            · exact Or.inl ⟨q1.trans hk, q3.trans hb⟩
            · exact Or.inr (Or.inl ⟨q1.trans hk, by rw [q2]; exact hp, q3.trans hb⟩)
            · exact Or.inr (Or.inr ⟨q1.trans hk, by rw [q2]; exact hp, by rw [q3]; exact hb⟩)
          · intro _
            refine ⟨annsExt_mono (show AnnsExt d d' (fun a => a.kind = "IJE") from f4)
              (fun a hk => by simp [hk]), by rw [hst', hs]; simp, ?_⟩
            intro hc; rw [hs] at hc; simp at hc
        · obtain ⟨f1, f2, f3, t, s, e, htp, hta⟩ := pokGE rfl hbc
          have hst' : d'.state = "FIND PARITY" := f1
          have hx0 : AnnsExt d d' (fun a => a.kind = "IJE" ∨ a.kind = "DATA") := by
            refine ⟨t ++ [⟨s, e, "DATA", some (key, pushBit d.databyte pins.sdata)⟩], hta, ?_⟩
            intro a ha
            rcases List.mem_append.mp ha with hm | hm
            · exact Or.inl (htp a hm)
            · simp at hm; subst hm; exact Or.inr rfl
          have hx : AnnsExt d d' AnnOK :=
            annsExt_mono hx0 (fun a hk => by rcases hk with hk | hk <;> simp [AnnOK, hk])
          have hW : InvW d' := invW_mk hAN hGK' (by rw [hst']; simp) (q4.trans hAD) hx
          refine ⟨hW, fun _ => ?_, hMono, ?_⟩
          · refine inv_mk_par hW hst' ?_
            rcases halt with ⟨hk, hb⟩ | ⟨hk, hp, hb⟩ | ⟨hk, hp, hb⟩
            · exact Or.inl (q1.trans hk)
            · exact Or.inr (Or.inl ⟨q1.trans hk, by rw [q2]; exact hp, q3.trans hb⟩)
            · exact Or.inr (Or.inr ⟨q1.trans hk, by rw [q3]; exact hb⟩)
          · intro _
            refine ⟨annsExt_mono hx0
              (fun a hk => by rcases hk with hk | hk <;> simp [hk]), by rw [hst']; simp, ?_⟩
            intro hc; rw [hs] at hc; simp at hc
    rcases hData hs with ⟨hk, hb⟩ | ⟨hk, hp, hb⟩ | ⟨hk, hp, hb⟩
    · rw [if_pos (show ({ d with matched := m, samplenum := n } : D).cmdkey = "R0W" from hk)] at h
      exact key3 6 h (Or.inl ⟨hk, hb⟩)
    · rw [if_neg (show ¬ ({ d with matched := m, samplenum := n } : D).cmdkey = "R0W" by
          show ¬ d.cmdkey = "R0W"; rw [hk]; simp),
          if_pos (show ({ d with matched := m, samplenum := n } : D).cmdkey = "RW" ∨
            ({ d with matched := m, samplenum := n } : D).cmdkey = "RR" from Or.inl hk)] at h
      exact key3 7 h (Or.inr (Or.inl ⟨hk, hp, hb⟩))
    · rw [if_neg (show ¬ ({ d with matched := m, samplenum := n } : D).cmdkey = "R0W" by
          show ¬ d.cmdkey = "R0W"; rw [hk]; simp),
          if_pos (show ({ d with matched := m, samplenum := n } : D).cmdkey = "RW" ∨
            ({ d with matched := m, samplenum := n } : D).cmdkey = "RR" from Or.inr hk)] at h
      exact key3 7 h (Or.inr (Or.inr ⟨hk, hp, hb⟩))

theorem master_par {d : D} {st : Str} {d' : D} {st' : Str} {ok : Bool}
    (hI : Inv d) (hs : d.state = "FIND PARITY") (h : step d st = (d', st', ok)) :
    StepConcl d d' ok := by
  unfold step at h
  rw [if_neg (show ¬ d.state = "FIND SSC" by rw [hs]; simp),
      if_neg (show ¬ d.state = "FIND SLAVE ADDRESS" by rw [hs]; simp),
      if_neg (show ¬ d.state = "FIND COMMAND" by rw [hs]; simp),
      if_neg (show ¬ d.state = "FIND BTEY_COUNT" by rw [hs]; simp),
      if_neg (show ¬ d.state = "FIND ADDRESS" by rw [hs]; simp),
      if_neg (show ¬ d.state = "FIND DATA" by rw [hs]; simp), if_pos hs] at h
  cases hw : dwait d st [pH] with
  | none =>
    rw [hw] at h
    obtain ⟨hd, -, hok⟩ := prodEq3 h
    rw [hd, hok]
    exact stepConcl_eof_id hI
  | some x =>
    obtain ⟨d1, st1, pins⟩ := x
    rw [hw] at h
    obtain ⟨m, n, rfl⟩ := dwait_some_eq hw
    simp only [] at h
    obtain ⟨⟨hGK, hBT, hAD, hAN⟩, hSt, hNull, hNK, hCmd, hAddr, hData, hPar, hBPK⟩ := hI
    rcases hh : handle ({ d with matched := m, samplenum := n, Pcount := d.Pcount + 1 } : D)
        st1 pins.sdata "P" "NULL" 0 with ⟨dr, str2, okr⟩
    rw [hh] at h
    obtain ⟨p1, p2, p3, p4, p5, p6, p7, pokLT, pokGE, pfail⟩ :=
      handle_cases _ st1 pins.sdata "P" "NULL" 0 hh
    have hq1 : dr.cmdkey = d.cmdkey := p1
    have hq2 : dr.Pcount = d.Pcount + 1 := p2
    have hq3 : dr.BPcount = d.BPcount := p3
    have hq4 : dr.ADDcount = d.ADDcount := p4
    cases okr with
    | false =>
      simp only [Bool.false_eq_true, if_false] at h
      obtain ⟨hd, -, hok⟩ := prodEq3 h
      subst hok
      obtain ⟨f1, f2, f3⟩ := pfail rfl
      have hst' : dr.state = d.state := f1
      have hx : AnnsExt d dr AnnOK := by
        obtain ⟨t, hte, htp⟩ := f3
        exact ⟨t, by rw [hte], fun a ha => by simp [AnnOK, htp a ha]⟩
      rw [hd]
      refine ⟨invW_mk hAN (by rw [hq1]; exact hGK) (by rw [hst', hs]; simp)
        (hq4.trans hAD) hx, by simp, Or.inl ⟨by omega, le_of_eq hq3.symm,
        le_of_eq hq4.symm⟩, ?_⟩
      intro _
      refine ⟨?_, by rw [hst', hs]; simp, ?_⟩
      · obtain ⟨t, hte, htp⟩ := f3
        exact ⟨t, by rw [hte], fun a ha => by simp [htp a ha]⟩
      · intro _ hok; exact absurd hok (by simp)
    | true =>
      simp only [if_true] at h
      obtain ⟨hd, -, hok⟩ := prodEq3 h
      subst hok
      have hbc : ¬ ((({ d with matched := m, samplenum := n, Pcount := d.Pcount + 1 } : D).bitcount : Int) < 0) := by
        simp
      obtain ⟨f1, f2, f3, t, s, e, htp, hta⟩ := pokGE rfl hbc
      have hx0 : AnnsExt d dr (fun a => a.kind = "IJE" ∨ a.kind = "P") := by
        refine ⟨t ++ [⟨s, e, "P", some (0, pushBit d.databyte pins.sdata)⟩], hta, ?_⟩
        intro a ha
        rcases List.mem_append.mp ha with hm | hm
        · exact Or.inl (htp a hm)
        · simp at hm; subst hm; exact Or.inr rfl
      have hx : AnnsExt d dr AnnOK :=
        annsExt_mono hx0 (fun a hk => by rcases hk with hk | hk <;> simp [AnnOK, hk])
      have hGKr : GoodKey dr.cmdkey := by rw [hq1]; exact hGK
      have hADr : dr.ADDcount = 0 := hq4.trans hAD
      rcases hPar hs with hk | ⟨hk, hp, hb⟩ | ⟨hk, hb⟩
      · -- Register-0-Write parity: straight to FIND BUS_PARK
        have hdisp : parityDispatch dr = { dr with state := "FIND BUS_PARK" } :=
          parityDispatch_R0W (hq1.trans hk)
        rw [hd, hdisp]
        have hW : InvW ({ dr with state := "FIND BUS_PARK" } : D) :=
          invW_mk hAN hGKr (by simp) hADr hx
        refine ⟨hW, fun _ => ?_, Or.inl ⟨show d.Pcount ≤ dr.Pcount by omega,
          show d.BPcount ≤ dr.BPcount by omega, show d.ADDcount ≤ dr.ADDcount by omega⟩, ?_⟩
        · refine inv_mk_bp hW rfl ?_ ?_
          · intro hq
            rw [show ({ dr with state := "FIND BUS_PARK" } : D).cmdkey = d.cmdkey from hq1, hk] at hq
            simp at hq
          · intro hq
            rw [show ({ dr with state := "FIND BUS_PARK" } : D).cmdkey = d.cmdkey from hq1, hk] at hq
            simp at hq
        · intro _
          refine ⟨?_, by simp, fun _ _ => rfl⟩
          obtain ⟨t2, hte2, htp2⟩ := hx0
          exact ⟨t2, hte2, fun a ha => by rcases htp2 a ha with hk2 | hk2 <;> simp [hk2]⟩
      · -- Register-Write parity
        have hr0wX : R0WConcl d d' true := by
          intro hr0w; rw [hr0w] at hk; simp at hk
        have hdisp := parityDispatch_RW (hq1.trans hk)
        rcases (by omega : d.Pcount = 0 ∨ d.Pcount = 1) with hP | hP
        · rw [if_pos (by omega : dr.Pcount = 1)] at hdisp
          rw [hd, hdisp]
          have hW : InvW ({ dr with state := "FIND DATA" } : D) :=
            invW_mk hAN hGKr (by simp) hADr hx
          refine ⟨hW, fun _ => ?_, Or.inl ⟨show d.Pcount ≤ dr.Pcount by omega,
            show d.BPcount ≤ dr.BPcount by omega, show d.ADDcount ≤ dr.ADDcount by omega⟩,
            by intro hr0w; rw [hr0w] at hk; simp at hk⟩
          refine inv_mk_data hW rfl (Or.inr (Or.inl ⟨hq1.trans hk,
            show dr.Pcount ≤ 1 by omega, hq3.trans hb⟩))
        · rw [if_neg (by omega : ¬ dr.Pcount = 1), if_pos (by omega : dr.Pcount = 2)] at hdisp
          rw [hd, hdisp]
          have hW : InvW ({ dr with BPcount := 1, state := "FIND BUS_PARK" } : D) :=
            invW_mk hAN hGKr (by simp) hADr hx
          refine ⟨hW, fun _ => ?_, Or.inl ⟨show d.Pcount ≤ dr.Pcount by omega,
            show d.BPcount ≤ 1 by omega, show d.ADDcount ≤ dr.ADDcount by omega⟩,
            by intro hr0w; rw [hr0w] at hk; simp at hk⟩
          refine inv_mk_bp hW rfl ?_ ?_
          · intro hq
            rw [show ({ dr with BPcount := 1, state := "FIND BUS_PARK" } : D).cmdkey = d.cmdkey from hq1, hk] at hq
            simp at hq
          · intro hq
            rw [show ({ dr with BPcount := 1, state := "FIND BUS_PARK" } : D).cmdkey = d.cmdkey from hq1, hk] at hq
            simp at hq
      · -- Register-Read parity
        have hr0wX : R0WConcl d d' true := by
          intro hr0w; rw [hr0w] at hk; simp at hk
        have hdisp := parityDispatch_RR (hq1.trans hk)
        rw [hd, hdisp]
        have hW : InvW ({ dr with state := "FIND BUS_PARK", BPcount := if dr.Pcount = 1 then 1 else 2 } : D) :=
          invW_mk hAN hGKr (by simp) hADr hx
        refine ⟨hW, fun _ => ?_, ?_, by intro hr0w; rw [hr0w] at hk; simp at hk⟩
        · refine inv_mk_bp hW rfl ?_ ?_
          · intro hq
            rw [show ({ dr with state := "FIND BUS_PARK", BPcount := if dr.Pcount = 1 then 1 else 2 } : D).cmdkey = d.cmdkey from hq1, hk] at hq
            simp at hq
          · intro _ hbp1
            show dr.Pcount ≤ 1
            by_cases hone : dr.Pcount = 1
            · omega
            · rw [show ({ dr with state := "FIND BUS_PARK", BPcount := if dr.Pcount = 1 then 1 else 2 } : D).BPcount = (if dr.Pcount = 1 then 1 else 2) from rfl, if_neg hone] at hbp1
              simp at hbp1
        · refine Or.inl ⟨show d.Pcount ≤ dr.Pcount by omega, ?_,
            show d.ADDcount ≤ dr.ADDcount by omega⟩
          show d.BPcount ≤ (if dr.Pcount = 1 then 1 else 2)
          by_cases hone : dr.Pcount = 1
          · rw [if_pos hone]; omega
          · rw [if_neg hone]; omega

theorem master_bp {d : D} {st : Str} {d' : D} {st' : Str} {ok : Bool}
    (hI : Inv d) (hs : d.state = "FIND BUS_PARK") (h : step d st = (d', st', ok)) :
    StepConcl d d' ok := by
  unfold step at h
  rw [if_neg (show ¬ d.state = "FIND SSC" by rw [hs]; simp),
      if_neg (show ¬ d.state = "FIND SLAVE ADDRESS" by rw [hs]; simp),
      if_neg (show ¬ d.state = "FIND COMMAND" by rw [hs]; simp),
      if_neg (show ¬ d.state = "FIND BTEY_COUNT" by rw [hs]; simp),
      if_neg (show ¬ d.state = "FIND ADDRESS" by rw [hs]; simp),
      if_neg (show ¬ d.state = "FIND DATA" by rw [hs]; simp),
      if_neg (show ¬ d.state = "FIND PARITY" by rw [hs]; simp), if_pos hs] at h
  obtain ⟨⟨hGK, hBT, hAD, hAN⟩, hSt, hNull, hNK, hCmd, hAddr, hData, hPar, hBPK⟩ := hI
  obtain ⟨e1, e2, e3, hdisp⟩ := stepBP_cases d st h
  rcases hdisp with ⟨q1, q2, q3, q4, q5, q6, q7, q8⟩ | ⟨q0, q2, q3, q4, q5, q6, q7, q8, q9⟩ |
    ⟨q0, q1, q2, q3, q4, q5, q6, q7, q8, t, e, htp, q9⟩ |
    ⟨q0, q1, q2, q3, q4, q5, q6, q7, q8, t, e, htp, q9⟩
  · -- nothing observable happened
    have hx : AnnsExt d d' AnnOK :=
      annsExt_mono q8 (fun a hk => by simp [AnnOK, hk])
    have hW : InvW d' := invW_mk hAN (by rw [q2]; exact hGK) (by rw [q1, hs]; simp)
      (by rw [q5]; exact hAD) hx
    refine ⟨hW, fun _ => ?_, Or.inl ⟨le_of_eq q3.symm, le_of_eq q4.symm, le_of_eq q5.symm⟩, ?_⟩
    · refine inv_mk_bp hW (q1.trans hs) ?_ ?_
      · intro hq
        rw [q2] at hq
        obtain ⟨hp0, hb0⟩ := hNull hq
        exact ⟨q3.trans hp0, q4.trans hb0⟩
      · intro hq hb1
        rw [q2] at hq
        rw [q4] at hb1
        rw [q3]
        exact hBPK hs hq hb1
    · intro hr0w
      exact ⟨annsExt_mono q8 (fun a hk => by simp [hk]), by rw [q1, hs]; simp,
             fun hc => by rw [hs] at hc; simp at hc⟩
  · -- idle-bus watch with no classified command
    have hx : AnnsExt d d' AnnOK :=
      annsExt_mono q9 (fun a hk => by rcases hk with hk | hk <;> simp [AnnOK, hk])
    have hkey' : d'.cmdkey = "NULL" := q2.trans q0
    obtain ⟨hp0, hb0⟩ := hNull q0
    have hW : InvW d' := invW_mk hAN (Or.inl hkey') ?_ (by rw [q5]; exact hAD) hx
    · refine ⟨hW, fun _ => ?_, Or.inl ⟨le_of_eq q3.symm, le_of_eq q4.symm, le_of_eq q5.symm⟩, ?_⟩
      · rcases q8 with hc | hc | hc
        · exact inv_mk_bp hW (hc.trans hs) (fun _ => ⟨q3.trans hp0, q4.trans hb0⟩)
            (fun hq => by rw [hkey'] at hq; simp at hq)
        · exact inv_mk_bp hW hc (fun _ => ⟨q3.trans hp0, q4.trans hb0⟩)
            (fun hq => by rw [hkey'] at hq; simp at hq)
        · exact inv_mk_null hW (Or.inl hc) hkey' (q3.trans hp0) (q4.trans hb0)
      · intro hr0w
        rw [hr0w] at q0; simp at q0
    · rcases q8 with hc | hc | hc <;> rw [hc] <;> try rw [hs]
      all_goals simp
  · -- read family with park-count 1: resume into FIND DATA
    have hkRR : d.cmdkey = "RR" := by
      rcases q0 with hk | hk | hk
      · rcases hGK with hg | hg | hg | hg <;> rw [hk] at hg <;> simp at hg
      · rcases hGK with hg | hg | hg | hg <;> rw [hk] at hg <;> simp at hg
      · exact hk
    have hx : AnnsExt d d' AnnOK := by
      refine ⟨t ++ [⟨d.Pes, e, "BP", none⟩], by rw [q9, List.append_assoc], ?_⟩
      intro a ha
      rcases List.mem_append.mp ha with hm | hm
      · simp [AnnOK, htp a hm]
      · simp at hm; subst hm; simp [AnnOK]
    have hW : InvW d' := invW_mk hAN (by rw [q3]; exact hGK) (by rw [q2]; simp)
      (by rw [q6]; exact hAD) hx
    refine ⟨hW, fun _ => ?_, Or.inl ⟨le_of_eq q4.symm, le_of_eq q5.symm, le_of_eq q6.symm⟩, ?_⟩
    · refine inv_mk_data hW q2 (Or.inr (Or.inr ⟨q3.trans hkRR, ?_, ?_⟩))
      · rw [q4]
        exact hBPK hs hkRR q1
      · rw [q5, q1]
    · intro hr0w
      rw [hr0w] at hkRR; simp at hkRR
  · -- final Bus-Park of the transaction: reset and re-arm
    have hx : AnnsExt d d' AnnOK := by
      refine ⟨t ++ [⟨d.Pes, e, "BP", none⟩], by rw [q9, List.append_assoc], ?_⟩
      intro a ha
      rcases List.mem_append.mp ha with hm | hm
      · simp [AnnOK, htp a hm]
      · simp at hm; subst hm; simp [AnnOK]
    have hW : InvW d' := invW_mk hAN (Or.inl q3) (by rw [q2]; simp) q6 hx
    refine ⟨hW, fun _ => ?_, Or.inr ⟨q4, q5, q6, hs⟩, ?_⟩
    · exact inv_mk_null hW (Or.inl q2) q3 q4 q5
    · intro hr0w
      refine ⟨?_, by rw [q2]; simp, fun hc => by rw [hs] at hc; simp at hc⟩
      refine ⟨t ++ [⟨d.Pes, e, "BP", none⟩], by rw [q9, List.append_assoc], ?_⟩
      intro a ha
      rcases List.mem_append.mp ha with hm | hm
      · simp [htp a hm]
      · simp at hm; subst hm; simp

theorem master_step {d : D} {st : Str} {d' : D} {st' : Str} {ok : Bool}
    (hI : Inv d) (h : step d st = (d', st', ok)) : StepConcl d d' ok := by
  rcases hI.2.1 with hs | hs | hs | hs | hs | hs | hs
  · unfold step at h
    rw [if_pos hs] at h
    exact master_ssc hI hs h
  · exact master_sa hI hs h
  · exact master_cmd hI hs h
  · exact master_addr hI hs h
  · exact master_data hI hs h
  · exact master_par hI hs h
  · exact master_bp hI hs h

theorem run_invW : ∀ (fuel : Nat) (d : D) (st : Str), Inv d → InvW (run fuel d st).1 := by
  intro fuel
  induction fuel with
  | zero => intro d st hI; exact hI.1
  | succ f ih =>
    intro d st hI
    rcases hstep : step d st with ⟨d1, st1, ok1⟩
    obtain ⟨hW1, hInv1, -, -⟩ := master_step hI hstep
    show InvW (if (step d st).2.2 then run f (step d st).1 (step d st).2.1
      else ((step d st).1, (step d st).2.1)).1
    rw [hstep]
    cases ok1 with
    | true => simpa using ih d1 st1 (hInv1 rfl)
    | false => simpa using hW1

/-! ### Noninterference of the display-only `address_format` option -/

/-- Overwrite the stored option value. -/
def setOpt (o : String) (d : D) : D := { d with addressFormat := o }

/-- Push `setOpt` through the result triple of a decoding operation. -/
def mapOptR (o : String) (x : D × Str × Bool) : D × Str × Bool :=
  (setOpt o x.1, x.2.1, x.2.2)

/-- Push `setOpt` through a wait result. -/
def mapOptW (o : String) (x : D × Str × Sample) : D × Str × Sample :=
  (setOpt o x.1, x.2.1, x.2.2)

theorem putx_setOpt (o : String) (d : D) (k : String) (v : Option (Int × Nat)) :
    putx (setOpt o d) k v = setOpt o (putx d k v) := rfl

theorem dwait_setOpt (o : String) (d : D) (st : Str) (ps : List Pattern) :
    dwait (setOpt o d) st ps = (dwait d st ps).map (mapOptW o) := by
  unfold dwait
  cases hw : waitCore ps st.prev st.idx st.rest with
  | none => rfl
  | some x => obtain ⟨m, nn, p, st2⟩ := x; rfl

theorem ijeStep2_setOpt (o : String) (d : D) :
    ijeStep2 (setOpt o d) = setOpt o (ijeStep2 d) := by
  unfold ijeStep2
  by_cases hb : d.matched.testBit 0
  · simp only [setOpt, hb, if_true]; rfl
  · simp only [setOpt, hb, Bool.false_eq_true, if_false]

theorem ijeLoop_setOpt (o : String) (ps : List Pattern) : ∀ (fuel : Nat) (d : D) (st : Str),
    ijeLoop ps fuel (setOpt o d) st = mapOptR o (ijeLoop ps fuel d st) := by
  intro fuel
  induction fuel with
  | zero => intro d st; rfl
  | succ f ih =>
    intro d st
    show ijeLoop ps (f + 1) (setOpt o d) st = mapOptR o (ijeLoop ps (f + 1) d st)
    rw [ijeLoop, ijeLoop, dwait_setOpt]
    cases h1 : dwait d st ps with
    | none => rfl
    | some x =>
      obtain ⟨d1, st1, pins⟩ := x
      show (if (setOpt o d1).matched.testBit 0 then _ else _) = _
      simp only [Option.map_some]
      by_cases hb : d1.matched.testBit 0
      · have hb' : (setOpt o d1).matched.testBit 0 = true := hb
        rw [if_pos hb', if_pos hb]
        rw [show ({ setOpt o d1 with ss := (setOpt o d1).samplenum } : D) =
              setOpt o { d1 with ss := d1.samplenum } from rfl, dwait_setOpt]
        cases h2 : dwait { d1 with ss := d1.samplenum } st1 ps with
        | none => rfl
        | some y =>
          obtain ⟨d3, st2, pins2⟩ := y
          simp only [Option.map_some]
          show (if (ijeStep2 (setOpt o d3)).matched.testBit 1 then _ else _) = _
          rw [ijeStep2_setOpt]
          by_cases hb4 : (ijeStep2 d3).matched.testBit 1
          · have hb4' : (setOpt o (ijeStep2 d3)).matched.testBit 1 = true := hb4
            rw [if_pos hb4', if_pos hb4]
            rfl
          · have hb4' : ¬ (setOpt o (ijeStep2 d3)).matched.testBit 1 = true := hb4
            rw [if_neg hb4', if_neg hb4]
            exact ih (ijeStep2 d3) st2
      · have hb' : ¬ (setOpt o d1).matched.testBit 0 = true := hb
        rw [if_neg hb', if_neg hb]
        by_cases hb1 : d1.matched.testBit 1
        · have hb1' : (setOpt o d1).matched.testBit 1 = true := hb1
          rw [if_pos hb1', if_pos hb1]
          rfl
        · have hb1' : ¬ (setOpt o d1).matched.testBit 1 = true := hb1
          rw [if_neg hb1', if_neg hb1]
          exact ih d1 st1

theorem ijeLoopF_setOpt (o : String) (ps : List Pattern) (d : D) (st : Str) :
    ijeLoopF ps (setOpt o d) st = mapOptR o (ijeLoopF ps d st) :=
  ijeLoop_setOpt o ps (st.rest.length + 1) d st

theorem pushD_setOpt (o : String) (d : D) (b : Bool) :
    pushD (setOpt o d) b = setOpt o (pushD d b) := by
  unfold pushD
  by_cases hb : d.bitcount = 0
  · have hb' : ({ setOpt o d with databyte := pushBit (setOpt o d).databyte b } : D).bitcount = 0 := hb
    rw [if_pos hb', if_pos (show ({ d with databyte := pushBit d.databyte b } : D).bitcount = 0 from hb)]
    rfl
  · have hb' : ¬ ({ setOpt o d with databyte := pushBit (setOpt o d).databyte b } : D).bitcount = 0 := hb
    rw [if_neg hb', if_neg (show ¬ ({ d with databyte := pushBit d.databyte b } : D).bitcount = 0 from hb)]
    rfl

theorem handle_setOpt (o : String) (d : D) (st : Str) (b : Bool) (cmd stn : String)
    (key : Int) :
    handle (setOpt o d) st b cmd stn key = mapOptR o (handle d st b cmd stn key) := by
  unfold handle
  rw [pushD_setOpt]
  by_cases hk : ((pushD d b).bitcount : Int) < key
  · rw [if_pos (show (((setOpt o (pushD d b)).bitcount : Int)) < key from hk), if_pos hk,
        ijeLoopF_setOpt]
    rcases hr : ijeLoopF psRise (pushD d b) st with ⟨dr, str, okr⟩
    cases okr <;> rfl
  · rw [if_neg (show ¬ (((setOpt o (pushD d b)).bitcount : Int)) < key from hk), if_neg hk,
        ijeLoopF_setOpt]
    rcases hr : ijeLoopF psRise (pushD d b) st with ⟨dr, str, okr⟩
    cases okr with
    | false => rfl
    | true =>
      by_cases hcmd : cmd = "P"
      · simp only [mapOptR, if_true]
        rw [if_pos hcmd, if_pos hcmd]
        rfl
      · simp only [mapOptR, if_true]
        rw [if_neg hcmd, if_neg hcmd]
        rfl

theorem cmdset_setOpt (o : String) (d : D) (st : Str) (cmd stn : String) :
    cmdset (setOpt o d) st cmd stn = mapOptR o (cmdset d st cmd stn) := by
  unfold cmdset
  rw [ijeLoopF_setOpt]
  rcases hr : ijeLoopF psRise d st with ⟨dr, str, okr⟩
  cases okr <;> rfl

theorem cmdA_setOpt (o : String) (d : D) : cmdA (setOpt o d) = setOpt o (cmdA d) := by
  unfold cmdA
  by_cases hb : d.bitcount = 0
  · rw [if_pos (show (setOpt o d).bitcount = 0 from hb), if_pos hb]; rfl
  · rw [if_neg (show ¬ (setOpt o d).bitcount = 0 from hb), if_neg hb]

theorem cmdB_setOpt (o : String) (d : D) (b : Bool) :
    cmdB (setOpt o d) b = setOpt o (cmdB d b) := by
  unfold cmdB
  by_cases hb : d.bitcount = 1
  · rw [if_pos (show (setOpt o d).bitcount = 1 from hb), if_pos hb]; rfl
  · rw [if_neg (show ¬ (setOpt o d).bitcount = 1 from hb), if_neg hb]

theorem dinit_setOpt (o : String) (d : D) : dinit (setOpt o d) = setOpt o (dinit d) := by
  unfold dinit
  by_cases hb : d.state = "FIND COMMAND"
  · rw [if_pos (show ({ setOpt o d with cmdkey := "NULL", ADDcount := 0, Pcount := 0, BPcount := 0, BC := 0, bitcount := 0, Pes := 0 } : D).state = "FIND COMMAND" from hb),
        if_pos (show ({ d with cmdkey := "NULL", ADDcount := 0, Pcount := 0, BPcount := 0, BC := 0, bitcount := 0, Pes := 0 } : D).state = "FIND COMMAND" from hb)]
    rfl
  · rw [if_neg (show ¬ ({ setOpt o d with cmdkey := "NULL", ADDcount := 0, Pcount := 0, BPcount := 0, BC := 0, bitcount := 0, Pes := 0 } : D).state = "FIND COMMAND" from hb),
        if_neg (show ¬ ({ d with cmdkey := "NULL", ADDcount := 0, Pcount := 0, BPcount := 0, BC := 0, bitcount := 0, Pes := 0 } : D).state = "FIND COMMAND" from hb)]
    rfl

theorem handleBP_setOpt (o : String) (d : D) (cmd stn : String) :
    handleBP (setOpt o d) cmd stn = setOpt o (handleBP d cmd stn) := rfl

theorem initBP_setOpt (o : String) (d : D) (stn : String) (key : Nat) :
    initBP (setOpt o d) stn key = setOpt o (initBP d stn key) := by
  show (if key ≠ 0 then dinit { handleBP (setOpt o d) "BP" stn with state := stn } else { handleBP (setOpt o d) "BP" stn with state := stn }) = setOpt o (if key ≠ 0 then dinit { handleBP d "BP" stn with state := stn } else { handleBP d "BP" stn with state := stn })
  by_cases hk : key ≠ 0
  · rw [if_pos hk, if_pos hk, handleBP_setOpt,
        show ({ setOpt o (handleBP d "BP" stn) with state := stn } : D) = setOpt o { handleBP d "BP" stn with state := stn } from rfl,
        dinit_setOpt]
  · rw [if_neg hk, if_neg hk]
    rfl

theorem handleCMD_setOpt (o : String) (d : D) (st : Str) (b : Bool) :
    handleCMD (setOpt o d) st b = mapOptR o (handleCMD d st b) := by
  unfold handleCMD
  rw [cmdA_setOpt]
  by_cases h0 : (cmdA d).bitcount = 0 ∧ b = true
  · rw [if_pos (show (setOpt o (cmdA d)).bitcount = 0 ∧ b = true from h0), if_pos h0,
        cmdset_setOpt]
  · rw [if_neg (show ¬ ((setOpt o (cmdA d)).bitcount = 0 ∧ b = true) from h0), if_neg h0,
        cmdB_setOpt]
    by_cases h2 : (cmdB (cmdA d) b).bitcount = 2 ∧ pyTruthy (pyBnot (cmdB (cmdA d) b).extended) = true
    · rw [if_pos (show (setOpt o (cmdB (cmdA d) b)).bitcount = 2 ∧
          pyTruthy (pyBnot (setOpt o (cmdB (cmdA d) b)).extended) = true from h2), if_pos h2]
      by_cases hsd : b = true
      · rw [if_pos hsd, if_pos hsd, cmdset_setOpt]
      · rw [if_neg hsd, if_neg hsd, cmdset_setOpt]
    · rw [if_neg (show ¬ ((setOpt o (cmdB (cmdA d) b)).bitcount = 2 ∧
          pyTruthy (pyBnot (setOpt o (cmdB (cmdA d) b)).extended) = true) from h2), if_neg h2]
      by_cases h3 : (cmdB (cmdA d) b).bitcount = 3 ∧ pyTruthy (pyBnot (boolInt b)) = true
      · rw [if_pos (show (setOpt o (cmdB (cmdA d) b)).bitcount = 3 ∧
            pyTruthy (pyBnot (boolInt b)) = true from h3), if_pos h3]
        by_cases hx : pyTruthy (cmdB (cmdA d) b).extended = true
        · rw [if_pos (show pyTruthy (setOpt o (cmdB (cmdA d) b)).extended = true from hx),
              if_pos hx, cmdset_setOpt]
        · rw [if_neg (show ¬ pyTruthy (setOpt o (cmdB (cmdA d) b)).extended = true from hx),
              if_neg hx, cmdset_setOpt]
      · rw [if_neg (show ¬ ((setOpt o (cmdB (cmdA d) b)).bitcount = 3 ∧
            pyTruthy (pyBnot (boolInt b)) = true) from h3), if_neg h3]
        by_cases h3b : (cmdB (cmdA d) b).bitcount = 3 ∧ pyTruthy (cmdB (cmdA d) b).extended = true
        · rw [if_pos (show (setOpt o (cmdB (cmdA d) b)).bitcount = 3 ∧
              pyTruthy (setOpt o (cmdB (cmdA d) b)).extended = true from h3b), if_pos h3b]
          show (dinit (putx (setOpt o { cmdB (cmdA d) b with es := (cmdB (cmdA d) b).samplenum }) "CMD_WARNINGS" none), st, true) = mapOptR o (dinit (putx { cmdB (cmdA d) b with es := (cmdB (cmdA d) b).samplenum } "CMD_WARNINGS" none), st, true)
          rw [putx_setOpt, dinit_setOpt]
          rfl
        · rw [if_neg (show ¬ ((setOpt o (cmdB (cmdA d) b)).bitcount = 3 ∧
              pyTruthy (setOpt o (cmdB (cmdA d) b)).extended = true) from h3b), if_neg h3b]
          by_cases h4 : (cmdB (cmdA d) b).bitcount = 4
          · rw [if_pos (show (setOpt o (cmdB (cmdA d) b)).bitcount = 4 from h4), if_pos h4]
            by_cases hsd : b = true
            · rw [if_pos hsd, if_pos hsd, cmdset_setOpt]
            · rw [if_neg hsd, if_neg hsd, cmdset_setOpt]
          · rw [if_neg (show ¬ (setOpt o (cmdB (cmdA d) b)).bitcount = 4 from h4), if_neg h4]
            by_cases h5 : (cmdB (cmdA d) b).bitcount < 4
            · rw [if_pos (show (setOpt o (cmdB (cmdA d) b)).bitcount < 4 from h5), if_pos h5,
                  ijeLoopF_setOpt]
              rcases hr : ijeLoopF psQ (cmdB (cmdA d) b) st with ⟨dr, str, okr⟩
              cases okr <;> rfl
            · rw [if_neg (show ¬ (setOpt o (cmdB (cmdA d) b)).bitcount < 4 from h5), if_neg h5]
              rfl

theorem parityDispatch_setOpt (o : String) (d : D) :
    parityDispatch (setOpt o d) = setOpt o (parityDispatch d) := by
  unfold parityDispatch
  simp only [apply_ite (setOpt o)]
  rfl

set_option maxHeartbeats 1000000 in
theorem stepSSC_setOpt (o : String) (d : D) (st : Str) :
    stepSSC (setOpt o d) st = mapOptR o (stepSSC d st) := by
  unfold stepSSC
  rw [dwait_setOpt]
  cases h1 : dwait d st psSSC1 with
  | none => rfl
  | some x =>
    obtain ⟨d1, st1, pins⟩ := x
    simp only [Option.map_some', Option.map_some, mapOptW]
    by_cases hb0 : d1.matched.testBit 0
    · rw [if_pos (show (setOpt o d1).matched.testBit 0 = true from hb0), if_pos hb0,
          show ({ putx { setOpt o d1 with ss := (setOpt o d1).samplenum, es := (setOpt o d1).samplenum } "SSC_WARNINGS" none with state := "FIND BUS_PARK" } : D) = setOpt o { putx { d1 with ss := d1.samplenum, es := d1.samplenum } "SSC_WARNINGS" none with state := "FIND BUS_PARK" } from rfl]
      generalize ({ putx { d1 with ss := d1.samplenum, es := d1.samplenum } "SSC_WARNINGS" none with state := "FIND BUS_PARK" } : D) = d2
      by_cases hb1 : d2.matched.testBit 1
      · rw [if_pos (show (setOpt o d2).matched.testBit 1 = true from hb1), if_pos hb1, dwait_setOpt]
        cases h2 : dwait d2 st1 psRise with
        | none => rfl
        | some y =>
          obtain ⟨d3, st2, p2⟩ := y
          simp only [Option.map_some', Option.map_some, mapOptW]
          by_cases hc0 : d3.matched.testBit 0
          · rw [if_pos (show (setOpt o d3).matched.testBit 0 = true from hc0), if_pos hc0,
                show ({ setOpt o d3 with ss := (setOpt o d3).samplenum } : D) = setOpt o { d3 with ss := d3.samplenum } from rfl, dwait_setOpt]
            generalize ({ d3 with ss := d3.samplenum } : D) = d4
            cases h3 : dwait d4 st2 psRise with
            | none => rfl
            | some z =>
              obtain ⟨d5, st3, p3⟩ := z
              simp only [Option.map_some', Option.map_some, mapOptW]
              by_cases he0 : d5.matched.testBit 0
              · rw [if_pos (show (setOpt o d5).matched.testBit 0 = true from he0), if_pos he0,
                    show (putx { setOpt o d5 with es := (setOpt o d5).samplenum } "IJE" none : D) = setOpt o (putx { d5 with es := d5.samplenum } "IJE" none) from rfl]
                generalize (putx { d5 with es := d5.samplenum } "IJE" none : D) = d6
                by_cases he1 : d6.matched.testBit 1
                · rw [if_pos (show (setOpt o d6).matched.testBit 1 = true from he1), if_pos he1]
                  rfl
                · rw [if_neg (show ¬ (setOpt o d6).matched.testBit 1 = true from he1), if_neg he1]
                  rfl
              · rw [if_neg (show ¬ (setOpt o d5).matched.testBit 0 = true from he0), if_neg he0]
                by_cases he1 : d5.matched.testBit 1
                · rw [if_pos (show (setOpt o d5).matched.testBit 1 = true from he1), if_pos he1]
                  rfl
                · rw [if_neg (show ¬ (setOpt o d5).matched.testBit 1 = true from he1), if_neg he1]
                  rfl
          · rw [if_neg (show ¬ (setOpt o d3).matched.testBit 0 = true from hc0), if_neg hc0]
            by_cases hc1 : d3.matched.testBit 1
            · rw [if_pos (show (setOpt o d3).matched.testBit 1 = true from hc1), if_pos hc1]
              rfl
            · rw [if_neg (show ¬ (setOpt o d3).matched.testBit 1 = true from hc1), if_neg hc1]
              rfl
      · rw [if_neg (show ¬ (setOpt o d2).matched.testBit 1 = true from hb1), if_neg hb1]
        rfl
    · rw [if_neg (show ¬ (setOpt o d1).matched.testBit 0 = true from hb0), if_neg hb0]
      by_cases hb1 : d1.matched.testBit 1
      · rw [if_pos (show (setOpt o d1).matched.testBit 1 = true from hb1), if_pos hb1, dwait_setOpt]
        cases h2 : dwait d1 st1 psRise with
        | none => rfl
        | some y =>
          obtain ⟨d3, st2, p2⟩ := y
          simp only [Option.map_some', Option.map_some, mapOptW]
          by_cases hc0 : d3.matched.testBit 0
          · rw [if_pos (show (setOpt o d3).matched.testBit 0 = true from hc0), if_pos hc0,
                show ({ setOpt o d3 with ss := (setOpt o d3).samplenum } : D) = setOpt o { d3 with ss := d3.samplenum } from rfl, dwait_setOpt]
            generalize ({ d3 with ss := d3.samplenum } : D) = d4
            cases h3 : dwait d4 st2 psRise with
            | none => rfl
            | some z =>
              obtain ⟨d5, st3, p3⟩ := z
              simp only [Option.map_some', Option.map_some, mapOptW]
              by_cases he0 : d5.matched.testBit 0
              · rw [if_pos (show (setOpt o d5).matched.testBit 0 = true from he0), if_pos he0,
                    show (putx { setOpt o d5 with es := (setOpt o d5).samplenum } "IJE" none : D) = setOpt o (putx { d5 with es := d5.samplenum } "IJE" none) from rfl]
                generalize (putx { d5 with es := d5.samplenum } "IJE" none : D) = d6
                by_cases he1 : d6.matched.testBit 1
                · rw [if_pos (show (setOpt o d6).matched.testBit 1 = true from he1), if_pos he1]
                  rfl
                · rw [if_neg (show ¬ (setOpt o d6).matched.testBit 1 = true from he1), if_neg he1]
                  rfl
              · rw [if_neg (show ¬ (setOpt o d5).matched.testBit 0 = true from he0), if_neg he0]
                by_cases he1 : d5.matched.testBit 1
                · rw [if_pos (show (setOpt o d5).matched.testBit 1 = true from he1), if_pos he1]
                  rfl
                · rw [if_neg (show ¬ (setOpt o d5).matched.testBit 1 = true from he1), if_neg he1]
                  rfl
          · rw [if_neg (show ¬ (setOpt o d3).matched.testBit 0 = true from hc0), if_neg hc0]
            by_cases hc1 : d3.matched.testBit 1
            · rw [if_pos (show (setOpt o d3).matched.testBit 1 = true from hc1), if_pos hc1]
              rfl
            · rw [if_neg (show ¬ (setOpt o d3).matched.testBit 1 = true from hc1), if_neg hc1]
              rfl
      · rw [if_neg (show ¬ (setOpt o d1).matched.testBit 1 = true from hb1), if_neg hb1]
        rfl

theorem bpIJE_setOpt (o : String) (d3 : D) : bpIJE (setOpt o d3) = setOpt o (bpIJE d3) := by
  unfold bpIJE
  simp only []
  by_cases hb0 : d3.matched.testBit 0
  · rw [if_pos (show (setOpt o d3).matched.testBit 0 = true from hb0), if_pos hb0,
        show (putx { setOpt o d3 with es := (setOpt o d3).samplenum } "IJE" none : D) = setOpt o (putx { d3 with es := d3.samplenum } "IJE" none) from rfl]
    generalize (putx { d3 with es := d3.samplenum } "IJE" none : D) = d4
    by_cases hb1 : d4.matched.testBit 1
    · rw [if_pos (show (setOpt o d4).matched.testBit 1 = true from hb1), if_pos hb1]
      rfl
    · rw [if_neg (show ¬ (setOpt o d4).matched.testBit 1 = true from hb1), if_neg hb1]
  · rw [if_neg (show ¬ (setOpt o d3).matched.testBit 0 = true from hb0), if_neg hb0]
    by_cases hb1 : d3.matched.testBit 1
    · rw [if_pos (show (setOpt o d3).matched.testBit 1 = true from hb1), if_pos hb1]
      rfl
    · rw [if_neg (show ¬ (setOpt o d3).matched.testBit 1 = true from hb1), if_neg hb1]

theorem stepBPmain_setOpt (o : String) (d2 : D) (st2 : Str) :
    stepBPmain (setOpt o d2) st2 = mapOptR o (stepBPmain d2 st2) := by
  unfold stepBPmain
  by_cases hb1 : d2.matched.testBit 1
  · rw [if_pos (show (setOpt o d2).matched.testBit 1 = true from hb1), if_pos hb1,
        show ({ setOpt o d2 with BPss := (setOpt o d2).samplenum } : D) = setOpt o { d2 with BPss := d2.samplenum } from rfl]
    generalize ({ d2 with BPss := d2.samplenum } : D) = d3
    by_cases hk : d3.cmdkey = "NULL"
    · rw [if_pos (show (setOpt o d3).cmdkey = "NULL" from hk), if_pos hk, dwait_setOpt]
      cases h4 : dwait d3 st2 psBP3 with
      | none => rfl
      | some y =>
        obtain ⟨d4, st3, p4⟩ := y
        simp only [Option.map_some', Option.map_some, mapOptW]
        by_cases hc0 : d4.matched.testBit 0
        · rw [if_pos (show (setOpt o d4).matched.testBit 0 = true from hc0), if_pos hc0,
              show ({ setOpt o d4 with ss := (setOpt o d4).samplenum } : D) = setOpt o { d4 with ss := d4.samplenum } from rfl, dwait_setOpt]
          cases h5 : dwait ({ d4 with ss := d4.samplenum } : D) st3 psBP4 with
          | none => rfl
          | some z =>
            obtain ⟨d6, st4, p6⟩ := z
            simp only [Option.map_some', Option.map_some, mapOptW]
            by_cases hd0 : d6.matched.testBit 0
            · rw [if_pos (show (setOpt o d6).matched.testBit 0 = true from hd0), if_pos hd0,
                  show ({ putx { setOpt o d6 with es := (setOpt o d6).samplenum } "SSC_WARNINGS" none with state := "FIND BUS_PARK" } : D) = setOpt o { putx { d6 with es := d6.samplenum } "SSC_WARNINGS" none with state := "FIND BUS_PARK" } from rfl]
              generalize ({ putx { d6 with es := d6.samplenum } "SSC_WARNINGS" none with state := "FIND BUS_PARK" } : D) = d7
              by_cases hd1 : d7.matched.testBit 1
              · rw [if_pos (show (setOpt o d7).matched.testBit 1 = true from hd1), if_pos hd1,
                    show ({ setOpt o d7 with BPss := (setOpt o d7).samplenum } : D) = setOpt o { d7 with BPss := d7.samplenum } from rfl]
                generalize ({ d7 with BPss := d7.samplenum } : D) = d8
                by_cases hd2 : d8.matched.testBit 2
                · rw [if_pos (show (setOpt o d8).matched.testBit 2 = true from hd2), if_pos hd2]
                  rfl
                · rw [if_neg (show ¬ (setOpt o d8).matched.testBit 2 = true from hd2), if_neg hd2]
                  by_cases hd1b : d8.matched.testBit 1
                  · rw [if_pos (show (setOpt o d8).matched.testBit 1 = true from hd1b), if_pos hd1b]
                    rfl
                  · rw [if_neg (show ¬ (setOpt o d8).matched.testBit 1 = true from hd1b), if_neg hd1b]
                    rfl
              · rw [if_neg (show ¬ (setOpt o d7).matched.testBit 1 = true from hd1), if_neg hd1]
                by_cases hd2 : d7.matched.testBit 2
                · rw [if_pos (show (setOpt o d7).matched.testBit 2 = true from hd2), if_pos hd2]
                  rfl
                · rw [if_neg (show ¬ (setOpt o d7).matched.testBit 2 = true from hd2), if_neg hd2]
                  by_cases hd1b : d7.matched.testBit 1
                  · rw [if_pos (show (setOpt o d7).matched.testBit 1 = true from hd1b), if_pos hd1b]
                    rfl
                  · rw [if_neg (show ¬ (setOpt o d7).matched.testBit 1 = true from hd1b), if_neg hd1b]
                    rfl
            · rw [if_neg (show ¬ (setOpt o d6).matched.testBit 0 = true from hd0), if_neg hd0]
              by_cases hd1 : d6.matched.testBit 1
              · rw [if_pos (show (setOpt o d6).matched.testBit 1 = true from hd1), if_pos hd1,
                    show ({ setOpt o d6 with BPss := (setOpt o d6).samplenum } : D) = setOpt o { d6 with BPss := d6.samplenum } from rfl]
                generalize ({ d6 with BPss := d6.samplenum } : D) = d8
                by_cases hd2 : d8.matched.testBit 2
                · rw [if_pos (show (setOpt o d8).matched.testBit 2 = true from hd2), if_pos hd2]
                  rfl
                · rw [if_neg (show ¬ (setOpt o d8).matched.testBit 2 = true from hd2), if_neg hd2]
                  by_cases hd1b : d8.matched.testBit 1
                  · rw [if_pos (show (setOpt o d8).matched.testBit 1 = true from hd1b), if_pos hd1b]
                    rfl
                  · rw [if_neg (show ¬ (setOpt o d8).matched.testBit 1 = true from hd1b), if_neg hd1b]
                    rfl
              · rw [if_neg (show ¬ (setOpt o d6).matched.testBit 1 = true from hd1), if_neg hd1]
                by_cases hd2 : d6.matched.testBit 2
                · rw [if_pos (show (setOpt o d6).matched.testBit 2 = true from hd2), if_pos hd2]
                  rfl
                · rw [if_neg (show ¬ (setOpt o d6).matched.testBit 2 = true from hd2), if_neg hd2]
                  by_cases hd1b : d6.matched.testBit 1
                  · rw [if_pos (show (setOpt o d6).matched.testBit 1 = true from hd1b), if_pos hd1b]
                    rfl
                  · rw [if_neg (show ¬ (setOpt o d6).matched.testBit 1 = true from hd1b), if_neg hd1b]
                    rfl
        · rw [if_neg (show ¬ (setOpt o d4).matched.testBit 0 = true from hc0), if_neg hc0]
          by_cases hc1 : d4.matched.testBit 1
          · rw [if_pos (show (setOpt o d4).matched.testBit 1 = true from hc1), if_pos hc1]
            rfl
          · rw [if_neg (show ¬ (setOpt o d4).matched.testBit 1 = true from hc1), if_neg hc1]
            rfl
    · rw [if_neg (show ¬ (setOpt o d3).cmdkey = "NULL" from hk), if_neg hk]
      by_cases hr : d3.cmdkey = "ERR" ∨ d3.cmdkey = "ERRL" ∨ d3.cmdkey = "RR"
      · rw [if_pos (show (setOpt o d3).cmdkey = "ERR" ∨ (setOpt o d3).cmdkey = "ERRL" ∨ (setOpt o d3).cmdkey = "RR" from hr), if_pos hr, initBP_setOpt]
        rfl
      · rw [if_neg (show ¬ ((setOpt o d3).cmdkey = "ERR" ∨ (setOpt o d3).cmdkey = "ERRL" ∨ (setOpt o d3).cmdkey = "RR") from hr), if_neg hr, initBP_setOpt]
        rfl
  · rw [if_neg (show ¬ (setOpt o d2).matched.testBit 1 = true from hb1), if_neg hb1]
    rfl

theorem stepBP_setOpt (o : String) (d : D) (st : Str) :
    stepBP (setOpt o d) st = mapOptR o (stepBP d st) := by
  unfold stepBP
  rw [dwait_setOpt]
  cases h1 : dwait d st psBP1 with
  | none => rfl
  | some x =>
    obtain ⟨d1, st1, pins⟩ := x
    simp only [Option.map_some', Option.map_some, mapOptW]
    by_cases hb0 : d1.matched.testBit 0
    · rw [if_pos (show (setOpt o d1).matched.testBit 0 = true from hb0), if_pos hb0,
          show ({ setOpt o d1 with ss := (setOpt o d1).samplenum } : D) = setOpt o { d1 with ss := d1.samplenum } from rfl, dwait_setOpt]
      generalize ({ d1 with ss := d1.samplenum } : D) = d2
      cases h2 : dwait d2 st1 psBP2 with
      | none => rfl
      | some y =>
        obtain ⟨d3, st2, p2⟩ := y
        simp only [Option.map_some', Option.map_some, mapOptW]
        rw [bpIJE_setOpt, stepBPmain_setOpt]
    · rw [if_neg (show ¬ (setOpt o d1).matched.testBit 0 = true from hb0), if_neg hb0,
          stepBPmain_setOpt]

theorem step_setOpt (o : String) (d : D) (st : Str) :
    step (setOpt o d) st = mapOptR o (step d st) := by
  unfold step
  by_cases h1 : d.state = "FIND SSC"
  · rw [if_pos (show (setOpt o d).state = "FIND SSC" from h1), if_pos h1]
    exact stepSSC_setOpt o d st
  · rw [if_neg (show ¬ (setOpt o d).state = "FIND SSC" from h1), if_neg h1]
    by_cases h2 : d.state = "FIND SLAVE ADDRESS"
    · rw [if_pos (show (setOpt o d).state = "FIND SLAVE ADDRESS" from h2), if_pos h2, dwait_setOpt]
      cases hw : dwait d st [pH] with
      | none => rfl
      | some x =>
        obtain ⟨d1, st1, pins⟩ := x
        simp only [Option.map_some', Option.map_some, mapOptW]
        exact handle_setOpt o d1 st1 pins.sdata "SA" "FIND COMMAND" 3
    · rw [if_neg (show ¬ (setOpt o d).state = "FIND SLAVE ADDRESS" from h2), if_neg h2]
      by_cases h3 : d.state = "FIND COMMAND"
      · rw [if_pos (show (setOpt o d).state = "FIND COMMAND" from h3), if_pos h3, dwait_setOpt]
        cases hw : dwait d st [pH] with
        | none => rfl
        | some x =>
          obtain ⟨d1, st1, pins⟩ := x
          simp only [Option.map_some', Option.map_some, mapOptW]
          exact handleCMD_setOpt o d1 st1 pins.sdata
      · rw [if_neg (show ¬ (setOpt o d).state = "FIND COMMAND" from h3), if_neg h3]
        by_cases h4 : d.state = "FIND BTEY_COUNT"
        · rw [if_pos (show (setOpt o d).state = "FIND BTEY_COUNT" from h4), if_pos h4, dwait_setOpt]
          cases hw : dwait d st [pH] with
          | none => rfl
          | some x =>
            obtain ⟨d1, st1, pins⟩ := x
            simp only [Option.map_some', Option.map_some, mapOptW]
            by_cases hc : d1.cmdkey = "ERW" ∨ d1.cmdkey = "ERR"
            · rw [if_pos (show (setOpt o d1).cmdkey = "ERW" ∨ (setOpt o d1).cmdkey = "ERR" from hc), if_pos hc]
              exact handle_setOpt o d1 st1 pins.sdata "BC" "FIND PARITY" 3
            · rw [if_neg (show ¬ ((setOpt o d1).cmdkey = "ERW" ∨ (setOpt o d1).cmdkey = "ERR") from hc), if_neg hc]
              exact handle_setOpt o d1 st1 pins.sdata "BC" "FIND PARITY" 2
        · rw [if_neg (show ¬ (setOpt o d).state = "FIND BTEY_COUNT" from h4), if_neg h4]
          by_cases h5 : d.state = "FIND ADDRESS"
          · rw [if_pos (show (setOpt o d).state = "FIND ADDRESS" from h5), if_pos h5, dwait_setOpt]
            cases hw : dwait d st [pH] with
            | none => rfl
            | some x =>
              obtain ⟨d1, st1, pins⟩ := x
              simp only [Option.map_some', Option.map_some, mapOptW]
              by_cases hc : d1.cmdkey = "RW" ∨ d1.cmdkey = "RR"
              · rw [if_pos (show (setOpt o d1).cmdkey = "RW" ∨ (setOpt o d1).cmdkey = "RR" from hc), if_pos hc]
                exact handle_setOpt o d1 st1 pins.sdata "ADDRESS" "FIND PARITY" 4
              · rw [if_neg (show ¬ ((setOpt o d1).cmdkey = "RW" ∨ (setOpt o d1).cmdkey = "RR") from hc), if_neg hc]
                exact handle_setOpt o d1 st1 pins.sdata "ADDRESS" "FIND PARITY" 7
          · rw [if_neg (show ¬ (setOpt o d).state = "FIND ADDRESS" from h5), if_neg h5]
            by_cases h6 : d.state = "FIND DATA"
            · rw [if_pos (show (setOpt o d).state = "FIND DATA" from h6), if_pos h6, dwait_setOpt]
              cases hw : dwait d st [pH] with
              | none => rfl
              | some x =>
                obtain ⟨d1, st1, pins⟩ := x
                simp only [Option.map_some', Option.map_some, mapOptW]
                by_cases hc : d1.cmdkey = "R0W"
                · rw [if_pos (show (setOpt o d1).cmdkey = "R0W" from hc), if_pos hc]
                  exact handle_setOpt o d1 st1 pins.sdata "DATA" "FIND PARITY" 6
                · rw [if_neg (show ¬ (setOpt o d1).cmdkey = "R0W" from hc), if_neg hc]
                  by_cases hc2 : d1.cmdkey = "RW" ∨ d1.cmdkey = "RR"
                  · rw [if_pos (show (setOpt o d1).cmdkey = "RW" ∨ (setOpt o d1).cmdkey = "RR" from hc2), if_pos hc2]
                    exact handle_setOpt o d1 st1 pins.sdata "DATA" "FIND PARITY" 7
                  · rw [if_neg (show ¬ ((setOpt o d1).cmdkey = "RW" ∨ (setOpt o d1).cmdkey = "RR") from hc2), if_neg hc2]
                    exact handle_setOpt o d1 st1 pins.sdata "DATA" "FIND PARITY" ((d1.BC : Int) * 8 - 1)
            · rw [if_neg (show ¬ (setOpt o d).state = "FIND DATA" from h6), if_neg h6]
              by_cases h7 : d.state = "FIND PARITY"
              · rw [if_pos (show (setOpt o d).state = "FIND PARITY" from h7), if_pos h7, dwait_setOpt]
                cases hw : dwait d st [pH] with
                | none => rfl
                | some x =>
                  obtain ⟨d1, st1, pins⟩ := x
                  simp only [Option.map_some', Option.map_some, mapOptW]
                  rw [show ({ setOpt o d1 with Pcount := (setOpt o d1).Pcount + 1 } : D) = setOpt o { d1 with Pcount := d1.Pcount + 1 } from rfl, handle_setOpt]
                  generalize handle ({ d1 with Pcount := d1.Pcount + 1 } : D) st1 pins.sdata "P" "NULL" 0 = r
                  obtain ⟨rd, rst, rok⟩ := r
                  cases rok with
                  | false => rfl
                  | true =>
                    simp only [mapOptR]
                    rw [parityDispatch_setOpt]
                    simp only [if_true]
              · rw [if_neg (show ¬ (setOpt o d).state = "FIND PARITY" from h7), if_neg h7]
                by_cases h8 : d.state = "FIND BUS_PARK"
                · rw [if_pos (show (setOpt o d).state = "FIND BUS_PARK" from h8), if_pos h8]
                  exact stepBP_setOpt o d st
                · rw [if_neg (show ¬ (setOpt o d).state = "FIND BUS_PARK" from h8), if_neg h8]
                  rfl

/-- Push `setOpt` through a `run` result. -/
def mapOptP (o : String) (x : D × Str) : D × Str := (setOpt o x.1, x.2)

theorem run_setOpt (o : String) : ∀ (fuel : Nat) (d : D) (st : Str),
    run fuel (setOpt o d) st = mapOptP o (run fuel d st) := by
  intro fuel
  induction fuel with
  | zero => intro d st; rfl
  | succ f ih =>
    intro d st
    show (let r := step (setOpt o d) st; if r.2.2 then run f r.1 r.2.1 else (r.1, r.2.1)) = mapOptP o (let r := step d st; if r.2.2 then run f r.1 r.2.1 else (r.1, r.2.1))
    rw [step_setOpt]
    rcases hs : step d st with ⟨sd, sst, sok⟩
    simp only [mapOptR]
    cases sok with
    | false => rfl
    | true =>
      show run f (setOpt o sd) sst = mapOptP o (run f sd sst)
      exact ih sd sst

/-! ### MSB-first accumulation: value and round-trip (for C8) -/

/-- Spec-side value of a bit sequence read MSB-first in input order. -/
def msbVal : List Bool → Nat
  | [] => 0
  | b :: t => (if b then 2 ^ t.length else 0) + msbVal t

/-- Spec-side re-encoding of a value into `n` bits, MSB first. -/
def toBitsBE : Nat → Nat → List Bool
  | 0, _ => []
  | n + 1, v => v.testBit n :: toBitsBE n v

theorem foldl_pushBit (bits : List Bool) : ∀ (v : Nat),
    List.foldl pushBit v bits = v * 2 ^ bits.length + msbVal bits := by
  induction bits with
  | nil => intro v; simp [msbVal]
  | cons b t ih =>
    intro v
    show List.foldl pushBit (pushBit v b) t = _
    rw [ih]
    cases b <;> simp [pushBit, msbVal, pow_succ] <;> ring

theorem msbVal_lt (bits : List Bool) : msbVal bits < 2 ^ bits.length := by
  induction bits with
  | nil => simp [msbVal]
  | cons b t ih =>
    show (if b then 2 ^ t.length else 0) + msbVal t < 2 ^ (t.length + 1)
    rw [pow_succ]
    cases b <;> simp <;> omega

theorem testBit_high (c : Nat) (b : Bool) (r : Nat) (h : r < 2 ^ c) :
    ((if b then 2 ^ c else 0) + r).testBit c = b := by
  cases b with
  | false => simpa using Nat.testBit_lt_two_pow h
  | true =>
    show (2 ^ c + r).testBit c = true
    have h1 : (2 ^ c + r) / 2 ^ c = 1 := by
      rw [Nat.add_comm, Nat.add_div_right r (Nat.two_pow_pos c), Nat.div_eq_of_lt h]
    rw [Nat.testBit_to_div_mod, h1]
    decide

theorem testBit_low (c i : Nat) (b : Bool) (r : Nat) (hi : i < c) :
    ((if b then 2 ^ c else 0) + r).testBit i = r.testBit i := by
  cases b with
  | false => simp
  | true =>
    show (2 ^ c + r).testBit i = r.testBit i
    have hc : 2 ^ c = 2 ^ (c - i - 1) * 2 * 2 ^ i := by
      have h1 : c = c - i - 1 + 1 + i := by omega
      calc 2 ^ c = 2 ^ (c - i - 1 + 1 + i) := by rw [← h1]
        _ = 2 ^ (c - i - 1 + 1) * 2 ^ i := pow_add 2 _ i
        _ = 2 ^ (c - i - 1) * 2 * 2 ^ i := by rw [pow_succ]
    rw [Nat.testBit_to_div_mod, Nat.testBit_to_div_mod, hc, Nat.add_comm,
        Nat.add_mul_div_right _ _ (Nat.two_pow_pos i), Nat.add_mul_mod_self_right]

theorem toBitsBE_congr (n : Nat) (x y : Nat)
    (h : ∀ i, i < n → x.testBit i = y.testBit i) : toBitsBE n x = toBitsBE n y := by
  induction n with
  | zero => rfl
  | succ m ih =>
    show x.testBit m :: toBitsBE m x = y.testBit m :: toBitsBE m y
    rw [h m (by omega), ih (fun i hi => h i (by omega))]

theorem toBitsBE_msbVal (bits : List Bool) :
    toBitsBE bits.length (msbVal bits) = bits := by
  induction bits with
  | nil => rfl
  | cons b t ih =>
    show (msbVal (b :: t)).testBit t.length :: toBitsBE t.length (msbVal (b :: t)) = b :: t
    have hhead : (msbVal (b :: t)).testBit t.length = b :=
      testBit_high t.length b (msbVal t) (msbVal_lt t)
    have htail : toBitsBE t.length (msbVal (b :: t)) = toBitsBE t.length (msbVal t) :=
      toBitsBE_congr t.length _ _ (fun i hi => testBit_low t.length i b (msbVal t) hi)
    rw [hhead, htail, ih]

/-! ### Concrete sample streams for the claims -/

/-- A sample from clock/data given as 0/1. -/
def B (c d : Nat) : Sample := ⟨decide (c ≠ 0), decide (d ≠ 0)⟩

/-- A complete Register-Write transaction: SSC, slave address 0b1010,
command 010 (RW), five address bits 00110, parity, data 0b11001010,
parity, bus park. -/
def streamRW : List Sample :=
  [B 0 0, B 0 1, B 0 0, B 1 0, B 1 1, B 0 1, B 1 0, B 1 0, B 0 0, B 1 1,
   B 1 1, B 0 1, B 1 0, B 1 0, B 0 0, B 1 0, B 1 0, B 0 0, B 1 1, B 1 1,
   B 0 1, B 1 0, B 1 0, B 0 0, B 1 0, B 1 0, B 0 0, B 1 0, B 1 0, B 0 0,
   B 1 1, B 1 1, B 0 1, B 1 1, B 1 1, B 0 1, B 1 0, B 1 0, B 0 0, B 1 1,
   B 1 1, B 0 1, B 1 1, B 1 1, B 0 1, B 1 1, B 1 1, B 0 1, B 1 0, B 1 0,
   B 0 0, B 1 0, B 1 0, B 0 0, B 1 1, B 1 1, B 0 1, B 1 0, B 1 0, B 0 0,
   B 1 1, B 1 1, B 0 1, B 1 0, B 1 0, B 0 0, B 1 0, B 1 0, B 0 0, B 1 0,
   B 0 0]

/-- Same prefix as `streamRW` up to the command, then five address bits
that are all 1: the decoder accumulates the value 31 into the field it
labels `[4:0]`. -/
def streamC5 : List Sample :=
  streamRW.take 25 ++
  [B 1 1, B 1 1, B 0 1, B 1 1, B 1 1, B 0 1, B 1 1, B 1 1, B 0 1,
   B 1 1, B 1 1, B 0 1, B 1 1, B 1 1, B 0 1, B 1 0, B 1 0, B 0 0]

/-- Same prefix as `streamRW` up to the command, then command bits 0,0,0
(an extended-command prefix per the specification): the decoder still
classifies at bit 2 and emits no Command-Warning. -/
def streamC4 : List Sample :=
  streamRW.take 16 ++
  [B 1 0, B 0 0, B 1 0, B 1 0, B 0 0, B 1 0, B 1 0, B 0 0, B 1 1]

/-- A decoder state two bits into command classification with
`extended = 0`. -/
def dC1 : D := { initD "unshifted" with state := "FIND COMMAND", bitcount := 2, extended := 0 }

/-- A short cursor for the C1 witness. -/
def stC1 : Str := mkStr [B 1 0, B 1 0, B 0 0]

/-- A decoder state four bits into an address field. -/
def dC5w : D := { initD "unshifted" with state := "FIND ADDRESS", bitcount := 4, databyte := 6, ss := 25, DATAss := 25 }

/-- A cursor holding the fifth address bit and the following clock edge. -/
def stC5w : Str := mkStr [B 1 0, B 1 0, B 0 0, B 1 1]

/-- A bus-park search state with a classified Register-Write. -/
def dC6 : D := { initD "unshifted" with state := "FIND BUS_PARK", cmdkey := "RW" }

/-- A command-classification state before the first command bit. -/
def dC7a : D := { initD "unshifted" with state := "FIND COMMAND" }

/-- A data-field state with a classified Register-0-Write. -/
def dC7b : D := { initD "unshifted" with cmdkey := "R0W", state := "FIND DATA" }

theorem dC7b_inv : Inv dC7b := by
  refine ⟨⟨Or.inr (Or.inl rfl), by decide, rfl, ?_⟩, ?_, ?_, ?_, ?_, ?_, ?_, ?_, ?_⟩
  · intro a ha
    exact absurd ha (List.not_mem_nil a)
  · exact Or.inr (Or.inr (Or.inr (Or.inr (Or.inl rfl))))
  · intro hnull
    exact absurd hnull (by decide)
  · intro hor
    rcases hor with hx | hx | hx <;> exact absurd hx (by decide)
  · intro hx
    exact absurd hx (by decide)
  · intro hx
    exact absurd hx (by decide)
  · intro hx
    exact Or.inl ⟨rfl, rfl⟩
  · intro hx
    exact absurd hx (by decide)
  · intro hx hy hz
    exact absurd hx (by decide)

/-! ### The claims -/

/-- Claim C1: at command bit index 2 the guard `~self.extended` (the
Python bitwise complement `pyBnot`, tested for truthiness) is truthy for
both possible values 0 and 1 of the extended flag, so for every command
whose bit 0 was 0 the classification as Register-Read or Register-Write
is taken unconditionally at bit 2, regardless of command bit 1 (which is
what `extended` records). -/
theorem claim_C1 (d : D) (st : Str) (b : Bool) (hbc : d.bitcount = 2)
    (hext : d.extended = 0 ∨ d.extended = 1) :
    pyTruthy (pyBnot 0) = true ∧ pyTruthy (pyBnot 1) = true ∧
    handleCMD d st b =
      (if b then cmdset d st "RR" "FIND ADDRESS" else cmdset d st "RW" "FIND ADDRESS") := by
  have hpt : pyTruthy (pyBnot d.extended) = true := by
    rcases hext with h | h <;> rw [h] <;> decide
  refine ⟨by decide, by decide, ?_⟩
  rw [handleCMD]
  rw [show cmdA d = d from by simp [cmdA, hbc]]
  rw [if_neg (by simp [hbc])]
  rw [show cmdB d b = d from by simp [cmdB, hbc]]
  rw [if_pos ⟨hbc, hpt⟩]

/-- Witness for C1 at a concrete state with `extended = 0`. -/
theorem claim_C1_witness :
    dC1.bitcount = 2 ∧ (dC1.extended = 0 ∨ dC1.extended = 1) ∧
    (pyTruthy (pyBnot 0) = true ∧ pyTruthy (pyBnot 1) = true ∧
      handleCMD dC1 stC1 false =
        (if false then cmdset dC1 stC1 "RR" "FIND ADDRESS"
         else cmdset dC1 stC1 "RW" "FIND ADDRESS")) :=
  ⟨rfl, Or.inl rfl, claim_C1 dC1 stC1 false rfl (Or.inl rfl)⟩

/-- Claim C2 (corrected): the initial state established by `reset` before
any sample is consumed is FIND BUS_PARK, not FIND SSC: the machine first
watches for a bus park and only afterwards arms the Sequence-Start
search. -/
theorem claim_C2 (opt : String) :
    (initD opt).state = "FIND BUS_PARK" ∧ (initD opt).state ≠ "FIND SSC" :=
  ⟨rfl, by simp [initD]⟩

/-- Counterexample for C2: concretely, the freshly initialised decoder is
in FIND BUS_PARK and not in FIND SSC. -/
theorem claim_C2_counterexample :
    (initD "shifted").state = "FIND BUS_PARK" ∧
    ¬ (initD "shifted").state = "FIND SSC" := by decide

/-- Claim C3 (corrected): from any reachable state one step either leaves
all three transaction counters non-decreasing or resets them all to zero,
and a reset only happens out of the FIND BUS_PARK state (the final
bus-park consumption runs `init`), never at the moment a fresh
Sequence-Start is found. -/
theorem claim_C3 {d : D} {st : Str} {d2 : D} {st2 : Str} {ok : Bool}
    (hI : Inv d) (h : step d st = (d2, st2, ok)) : MonoR d d2 :=
  (master_step hI h).2.2.1

/-- Witness for C3 at the initial state on the Register-Write stream. -/
theorem claim_C3_witness :
    Inv (initD "shifted") ∧
    MonoR (initD "shifted") (step (initD "shifted") (mkStr streamRW)).1 :=
  ⟨initD_inv "shifted",
   claim_C3 (initD_inv "shifted")
     (show step (initD "shifted") (mkStr streamRW) =
        ((step (initD "shifted") (mkStr streamRW)).1,
         (step (initD "shifted") (mkStr streamRW)).2.1,
         (step (initD "shifted") (mkStr streamRW)).2.2) from rfl)⟩

/-- Counterexample for C3: on the Register-Write stream the counters are
2/1/0 with the machine in FIND BUS_PARK after 24 steps; the 25th step
resets them to zero while emitting only the Bus-Park annotation — the
reset happens at bus-park consumption, not when a Sequence-Start is
found. -/
theorem claim_C3_counterexample :
    (decodeRun "shifted" streamRW 24).Pcount = 2 ∧
    (decodeRun "shifted" streamRW 24).BPcount = 1 ∧
    (decodeRun "shifted" streamRW 24).state = "FIND BUS_PARK" ∧
    (decodeRun "shifted" streamRW 25).Pcount = 0 ∧
    (decodeRun "shifted" streamRW 25).BPcount = 0 ∧
    (decodeRun "shifted" streamRW 25).state = "FIND SSC" ∧
    (decodeRun "shifted" streamRW 25).anns =
      (decodeRun "shifted" streamRW 24).anns ++ [⟨69, 70, "BP", none⟩] := by decide

/-- Claim C4 (corrected): the Command-Warning branch is dead code — no
execution of the decoder ever emits a CMD_WARNINGS annotation, because
classification always completes at bit 0 or bit 2. -/
theorem claim_C4 (opt : String) (samples : List Sample) (fuel : Nat) :
    ∀ a ∈ (decodeRun opt samples fuel).anns, a.kind ≠ "CMD_WARNINGS" := by
  intro a ha
  exact ((run_invW fuel (initD opt) (mkStr samples) (initD_inv opt)).2.2.2 a ha).2.1

/-- Witness for C4 on a concrete annotation of a concrete run. -/
theorem claim_C4_witness :
    (⟨0, 3, "SSC", none⟩ : Ann) ∈ (decodeRun "shifted" streamC4 20).anns ∧
    (⟨0, 3, "SSC", none⟩ : Ann).kind ≠ "CMD_WARNINGS" :=
  ⟨by decide, claim_C4 "shifted" streamC4 20 ⟨0, 3, "SSC", none⟩ (by decide)⟩

/-- Counterexample for C4: the spec-unrecognised command prefix 0,0,0 (an
extended-command prefix) is classified Register-Write at bit 2; no
Command-Warning is emitted. -/
theorem claim_C4_counterexample :
    (decodeRun "shifted" streamC4 20).cmdkey = "RW" ∧
    (decodeRun "shifted" streamC4 20).state = "FIND ADDRESS" ∧
    (decodeRun "shifted" streamC4 20).anns =
      [⟨0, 3, "SSC", none⟩, ⟨4, 15, "SA", some (3, 10)⟩, ⟨16, 24, "RW", none⟩] := by decide

/-- Claim C5 (corrected): `handle` with parameter `key` accumulates
key+1 bits (indices 0..key), emitting the field exactly on the call that
arrives with `bitcount = key`. The decoder calls it with key 4 for a
RW/RR address (so 5 bits, not 4), key 7 otherwise (8 bits, not 7), and
with key 3 for an ERW/ERR byte count (4 bits, not 3), key 2 otherwise
(3 bits, not 2). -/
theorem claim_C5 :
    (∀ (d : D) (st : Str) (b : Bool) (cmd stn : String) (key : Int) (d2 : D) (st2 : Str),
      handle d st b cmd stn key = (d2, st2, true) →
      ((d.bitcount : Int) < key → d2.bitcount = d.bitcount + 1 ∧
        AnnsExt d d2 (fun a => a.kind = "IJE")) ∧
      (¬ (d.bitcount : Int) < key → d2.bitcount = 0 ∧
        ∃ t s e, (∀ a ∈ t, a.kind = "IJE") ∧
          d2.anns = d.anns ++ (t ++ [⟨s, e, cmd, some (key, pushBit d.databyte b)⟩]))) ∧
    (∀ (d : D) (st : Str) (d2 : D) (st2 : Str),
      d.state = "FIND ADDRESS" → step d st = (d2, st2, true) →
      ((d.cmdkey = "RW" ∨ d.cmdkey = "RR" →
        (((d.bitcount : Int) < 4 → d2.bitcount = d.bitcount + 1) ∧
         (¬ (d.bitcount : Int) < 4 → d2.bitcount = 0 ∧
           ∃ t s e v, (∀ a ∈ t, a.kind = "IJE") ∧
             d2.anns = d.anns ++ (t ++ [⟨s, e, "ADDRESS", some (4, v)⟩])))) ∧
       (¬ (d.cmdkey = "RW" ∨ d.cmdkey = "RR") →
        (((d.bitcount : Int) < 7 → d2.bitcount = d.bitcount + 1) ∧
         (¬ (d.bitcount : Int) < 7 → d2.bitcount = 0 ∧
           ∃ t s e v, (∀ a ∈ t, a.kind = "IJE") ∧
             d2.anns = d.anns ++ (t ++ [⟨s, e, "ADDRESS", some (7, v)⟩])))))) ∧
    (∀ (d : D) (st : Str) (d2 : D) (st2 : Str),
      d.state = "FIND BTEY_COUNT" → step d st = (d2, st2, true) →
      ((d.cmdkey = "ERW" ∨ d.cmdkey = "ERR" →
        (((d.bitcount : Int) < 3 → d2.bitcount = d.bitcount + 1) ∧
         (¬ (d.bitcount : Int) < 3 → d2.bitcount = 0 ∧
           ∃ t s e v, (∀ a ∈ t, a.kind = "IJE") ∧
             d2.anns = d.anns ++ (t ++ [⟨s, e, "BC", some (3, v)⟩])))) ∧
       (¬ (d.cmdkey = "ERW" ∨ d.cmdkey = "ERR") →
        (((d.bitcount : Int) < 2 → d2.bitcount = d.bitcount + 1) ∧
         (¬ (d.bitcount : Int) < 2 → d2.bitcount = 0 ∧
           ∃ t s e v, (∀ a ∈ t, a.kind = "IJE") ∧
             d2.anns = d.anns ++ (t ++ [⟨s, e, "BC", some (2, v)⟩])))))) := by
  refine ⟨?_, ?_, ?_⟩
  · intro d st b cmd stn key d2 st2 h
    obtain ⟨-, -, -, -, -, -, -, pokLT, pokGE, -⟩ := handle_cases d st b cmd stn key h
    constructor
    · intro hlt
      obtain ⟨-, qbc, -, qae⟩ := pokLT rfl hlt
      exact ⟨qbc, qae⟩
    · intro hge
      obtain ⟨-, qbc, -, t, s, e, htp, hta⟩ := pokGE rfl hge
      exact ⟨qbc, t, s, e, htp, hta⟩
  · intro d st d2 st2 hs h
    unfold step at h
    rw [if_neg (show ¬ d.state = "FIND SSC" by rw [hs]; simp),
        if_neg (show ¬ d.state = "FIND SLAVE ADDRESS" by rw [hs]; simp),
        if_neg (show ¬ d.state = "FIND COMMAND" by rw [hs]; simp),
        if_neg (show ¬ d.state = "FIND BTEY_COUNT" by rw [hs]; simp), if_pos hs] at h
    cases hw : dwait d st [pH] with
    | none =>
      rw [hw] at h
      obtain ⟨-, -, hok⟩ := prodEq3 h
      exact absurd hok (by decide)
    | some x =>
      obtain ⟨d1, st1, pins⟩ := x
      rw [hw] at h
      obtain ⟨m, n, rfl⟩ := dwait_some_eq hw
      simp only [] at h
      constructor
      · intro hks
        rw [if_pos (show ({ d with matched := m, samplenum := n } : D).cmdkey = "RW" ∨
            ({ d with matched := m, samplenum := n } : D).cmdkey = "RR" from hks)] at h
        obtain ⟨-, -, -, -, -, -, -, pokLT, pokGE, -⟩ :=
          handle_cases _ st1 pins.sdata "ADDRESS" "FIND PARITY" 4 h
        refine ⟨fun hlt => (pokLT rfl hlt).2.1, fun hge => ?_⟩
        obtain ⟨-, qbc, -, t, s, e, htp, hta⟩ := pokGE rfl hge
        exact ⟨qbc, t, s, e, pushBit d.databyte pins.sdata, htp, hta⟩
      · intro hks
        rw [if_neg (show ¬ (({ d with matched := m, samplenum := n } : D).cmdkey = "RW" ∨
            ({ d with matched := m, samplenum := n } : D).cmdkey = "RR") from hks)] at h
        obtain ⟨-, -, -, -, -, -, -, pokLT, pokGE, -⟩ :=
          handle_cases _ st1 pins.sdata "ADDRESS" "FIND PARITY" 7 h
        refine ⟨fun hlt => (pokLT rfl hlt).2.1, fun hge => ?_⟩
        obtain ⟨-, qbc, -, t, s, e, htp, hta⟩ := pokGE rfl hge
        exact ⟨qbc, t, s, e, pushBit d.databyte pins.sdata, htp, hta⟩
  · intro d st d2 st2 hs h
    unfold step at h
    rw [if_neg (show ¬ d.state = "FIND SSC" by rw [hs]; simp),
        if_neg (show ¬ d.state = "FIND SLAVE ADDRESS" by rw [hs]; simp),
        if_neg (show ¬ d.state = "FIND COMMAND" by rw [hs]; simp), if_pos hs] at h
    cases hw : dwait d st [pH] with
    | none =>
      rw [hw] at h
      obtain ⟨-, -, hok⟩ := prodEq3 h
      exact absurd hok (by decide)
    | some x =>
      obtain ⟨d1, st1, pins⟩ := x
      rw [hw] at h
      obtain ⟨m, n, rfl⟩ := dwait_some_eq hw
      simp only [] at h
      constructor
      · intro hks
        rw [if_pos (show ({ d with matched := m, samplenum := n } : D).cmdkey = "ERW" ∨
            ({ d with matched := m, samplenum := n } : D).cmdkey = "ERR" from hks)] at h
        obtain ⟨-, -, -, -, -, -, -, pokLT, pokGE, -⟩ :=
          handle_cases _ st1 pins.sdata "BC" "FIND PARITY" 3 h
        refine ⟨fun hlt => (pokLT rfl hlt).2.1, fun hge => ?_⟩
        obtain ⟨-, qbc, -, t, s, e, htp, hta⟩ := pokGE rfl hge
        exact ⟨qbc, t, s, e, pushBit d.databyte pins.sdata, htp, hta⟩
      · intro hks
        rw [if_neg (show ¬ (({ d with matched := m, samplenum := n } : D).cmdkey = "ERW" ∨
            ({ d with matched := m, samplenum := n } : D).cmdkey = "ERR") from hks)] at h
        obtain ⟨-, -, -, -, -, -, -, pokLT, pokGE, -⟩ :=
          handle_cases _ st1 pins.sdata "BC" "FIND PARITY" 2 h
        refine ⟨fun hlt => (pokLT rfl hlt).2.1, fun hge => ?_⟩
        obtain ⟨-, qbc, -, t, s, e, htp, hta⟩ := pokGE rfl hge
        exact ⟨qbc, t, s, e, pushBit d.databyte pins.sdata, htp, hta⟩

/-- Witness for C5: a concrete `handle` call with key 4 arriving at
`bitcount = 4` — the fifth bit — emits the ADDRESS field. -/
theorem claim_C5_witness :
    ¬ ((dC5w.bitcount : Int) < 4) ∧
    ((handle dC5w stC5w false "ADDRESS" "FIND PARITY" 4).1.bitcount = 0 ∧
      ∃ t s e, (∀ a ∈ t, a.kind = "IJE") ∧
        (handle dC5w stC5w false "ADDRESS" "FIND PARITY" 4).1.anns =
          dC5w.anns ++ (t ++ [⟨s, e, "ADDRESS", some (4, pushBit dC5w.databyte false)⟩])) :=
  ⟨by decide,
   (claim_C5.1 dC5w stC5w false "ADDRESS" "FIND PARITY" 4
      (handle dC5w stC5w false "ADDRESS" "FIND PARITY" 4).1
      (handle dC5w stC5w false "ADDRESS" "FIND PARITY" 4).2.1 rfl).2 (by decide)⟩

/-- Counterexample for C5: five all-one address bits of a Register-Write
are accumulated into one ADDRESS annotation with value 31 ≥ 2^4 — more
than 4 bits went into the nominally 4-bit field. -/
theorem claim_C5_counterexample :
    (decodeRun "shifted" streamC5 20).anns =
      [⟨0, 3, "SSC", none⟩, ⟨4, 15, "SA", some (3, 10)⟩, ⟨16, 24, "RW", none⟩,
       ⟨25, 40, "ADDRESS", some (4, 31)⟩] ∧
    (decodeRun "shifted" streamC5 20).cmdkey = "RW" ∧ 2 ^ 4 ≤ 31 := by decide

/-- Claim C6: bus-park dispatch. Out of FIND BUS_PARK with a classified
command, a completed step either consumed no park (everything but IJE
annotations unchanged), or — for ERR/ERRL/RR with park-count 1 — resumes
into FIND DATA without touching the transaction context, or — in every
other case — consumes the final park, resets the context and re-arms
into FIND SSC. -/
theorem claim_C6 (d : D) (st : Str) (d2 : D) (st2 : Str) (ok : Bool)
    (hst : d.state = "FIND BUS_PARK") (hk : d.cmdkey ≠ "NULL")
    (h : step d st = (d2, st2, ok)) :
    (d2.state = d.state ∧ d2.cmdkey = d.cmdkey ∧ d2.Pcount = d.Pcount ∧
      d2.BPcount = d.BPcount ∧ AnnsExt d d2 (fun a => a.kind = "IJE")) ∨
    ((d.cmdkey = "ERR" ∨ d.cmdkey = "ERRL" ∨ d.cmdkey = "RR") ∧ d.BPcount = 1 ∧
      d2.state = "FIND DATA" ∧ d2.cmdkey = d.cmdkey ∧ d2.Pcount = d.Pcount ∧
      d2.BPcount = d.BPcount ∧
      ∃ t e, (∀ a ∈ t, a.kind = "IJE") ∧
        d2.anns = d.anns ++ t ++ [⟨d.Pes, e, "BP", none⟩]) ∨
    (((d.cmdkey = "ERR" ∨ d.cmdkey = "ERRL" ∨ d.cmdkey = "RR") → d.BPcount ≠ 1) ∧
      d2.state = "FIND SSC" ∧ d2.cmdkey = "NULL" ∧ d2.Pcount = 0 ∧ d2.BPcount = 0 ∧
      d2.ADDcount = 0 ∧
      ∃ t e, (∀ a ∈ t, a.kind = "IJE") ∧
        d2.anns = d.anns ++ t ++ [⟨d.Pes, e, "BP", none⟩]) := by
  have hbp : stepBP d st = (d2, st2, ok) := by
    rw [← h]
    unfold step
    rw [if_neg (show ¬ d.state = "FIND SSC" by rw [hst]; simp),
        if_neg (show ¬ d.state = "FIND SLAVE ADDRESS" by rw [hst]; simp),
        if_neg (show ¬ d.state = "FIND COMMAND" by rw [hst]; simp),
        if_neg (show ¬ d.state = "FIND BTEY_COUNT" by rw [hst]; simp),
        if_neg (show ¬ d.state = "FIND ADDRESS" by rw [hst]; simp),
        if_neg (show ¬ d.state = "FIND DATA" by rw [hst]; simp),
        if_neg (show ¬ d.state = "FIND PARITY" by rw [hst]; simp), if_pos hst]
  obtain ⟨-, -, -, hcase⟩ := stepBP_cases d st hbp
  rcases hcase with ⟨q1, q2, q3, q4, -, -, -, q8⟩ | ⟨qn, -⟩ |
    ⟨q1, q2, q3, q4, q5, q6, -, -, -, q10⟩ | ⟨-, q2, q3, q4, q5, q6, q7, -, -, q10⟩
  · exact Or.inl ⟨q1, q2, q3, q4, q8⟩
  · exact absurd qn hk
  · exact Or.inr (Or.inl ⟨q1, q2, q3, q4, q5, q6, q10⟩)
  · exact Or.inr (Or.inr ⟨q2, q3, q4, q5, q6, q7, q10⟩)

/-- Witness for C6 at a concrete bus-park search state (EOF step: the
first disjunct). -/
theorem claim_C6_witness :
    dC6.state = "FIND BUS_PARK" ∧ dC6.cmdkey ≠ "NULL" ∧
    ((dC6.state = dC6.state ∧ dC6.cmdkey = dC6.cmdkey ∧ dC6.Pcount = dC6.Pcount ∧
      dC6.BPcount = dC6.BPcount ∧ AnnsExt dC6 dC6 (fun a => a.kind = "IJE")) ∨
     ((dC6.cmdkey = "ERR" ∨ dC6.cmdkey = "ERRL" ∨ dC6.cmdkey = "RR") ∧ dC6.BPcount = 1 ∧
      dC6.state = "FIND DATA" ∧ dC6.cmdkey = dC6.cmdkey ∧ dC6.Pcount = dC6.Pcount ∧
      dC6.BPcount = dC6.BPcount ∧
      ∃ t e, (∀ a ∈ t, a.kind = "IJE") ∧
        dC6.anns = dC6.anns ++ t ++ [⟨dC6.Pes, e, "BP", none⟩]) ∨
     (((dC6.cmdkey = "ERR" ∨ dC6.cmdkey = "ERRL" ∨ dC6.cmdkey = "RR") → dC6.BPcount ≠ 1) ∧
      dC6.state = "FIND SSC" ∧ dC6.cmdkey = "NULL" ∧ dC6.Pcount = 0 ∧ dC6.BPcount = 0 ∧
      dC6.ADDcount = 0 ∧
      ∃ t e, (∀ a ∈ t, a.kind = "IJE") ∧
        dC6.anns = dC6.anns ++ t ++ [⟨dC6.Pes, e, "BP", none⟩])) :=
  ⟨rfl, by decide, claim_C6 dC6 (mkStr []) dC6 (mkStr []) false rfl (by decide) rfl⟩

/-- Claim C7: a transaction whose first command bit is 1 is classified
Register-0-Write and moves to the data field; and while the classified
command is Register-0-Write no step emits an ADDRESS annotation or
enters FIND ADDRESS, and the completed parity step goes straight to
FIND BUS_PARK. -/
theorem claim_C7 :
    (∀ (d : D) (st : Str) (d1 : D) (st1 : Str) (ok : Bool),
      d.bitcount = 0 → handleCMD d st true = (d1, st1, ok) → ok = true →
      d1.cmdkey = "R0W" ∧ d1.state = "FIND DATA") ∧
    (∀ (d : D) (st : Str) (d2 : D) (st2 : Str) (ok : Bool), Inv d → d.cmdkey = "R0W" →
      step d st = (d2, st2, ok) →
      AnnsExt d d2 (fun a => a.kind ≠ "ADDRESS") ∧ d2.state ≠ "FIND ADDRESS" ∧
      (d.state = "FIND PARITY" → ok = true → d2.state = "FIND BUS_PARK")) := by
  constructor
  · intro d st d1 st1 ok h0 h hok
    subst hok
    rw [handleCMD] at h
    rw [show cmdA d = { d with DATAss := d.samplenum } from by simp [cmdA, h0]] at h
    rw [if_pos (show ({ d with DATAss := d.samplenum } : D).bitcount = 0 ∧ true = true
        from ⟨h0, rfl⟩)] at h
    obtain ⟨-, -, -, -, -, -, pok, -⟩ :=
      cmdset_cases ({ d with DATAss := d.samplenum }) st "R0W" "FIND DATA" h
    obtain ⟨q1, q2, -⟩ := pok rfl
    exact ⟨q2, q1⟩
  · intro d st d2 st2 ok hI hk h
    exact (master_step hI h).2.2.2 hk

/-- Witness for C7: a first command bit 1 classifies Register-0-Write on
a concrete stream, and a concrete Register-0-Write state steps without
producing an address. -/
theorem claim_C7_witness :
    dC7a.bitcount = 0 ∧
    ((handleCMD dC7a (mkStr [B 0 1, B 1 1]) true).1.cmdkey = "R0W" ∧
     (handleCMD dC7a (mkStr [B 0 1, B 1 1]) true).1.state = "FIND DATA") ∧
    Inv dC7b ∧ dC7b.cmdkey = "R0W" ∧
    (AnnsExt dC7b dC7b (fun a => a.kind ≠ "ADDRESS") ∧ dC7b.state ≠ "FIND ADDRESS" ∧
      (dC7b.state = "FIND PARITY" → false = true → dC7b.state = "FIND BUS_PARK")) :=
  ⟨rfl,
   claim_C7.1 dC7a (mkStr [B 0 1, B 1 1])
     (handleCMD dC7a (mkStr [B 0 1, B 1 1]) true).1
     (handleCMD dC7a (mkStr [B 0 1, B 1 1]) true).2.1 true rfl rfl rfl,
   dC7b_inv, rfl,
   claim_C7.2 dC7b (mkStr []) dC7b (mkStr []) false dC7b_inv rfl rfl⟩

/-- Claim C8: the accumulator `pushBit` folded over a bit sequence yields
exactly the MSB-first value of the sequence, and re-encoding that value
back to the sequence length reproduces the original bits. -/
theorem claim_C8 (bits : List Bool) :
    List.foldl pushBit 0 bits = msbVal bits ∧
    toBitsBE bits.length (List.foldl pushBit 0 bits) = bits := by
  have hv : List.foldl pushBit 0 bits = msbVal bits := by
    simpa using foldl_pushBit bits 0
  exact ⟨hv, by rw [hv]; exact toBitsBE_msbVal bits⟩

/-- Claim C9: noninterference of the address-format option — two runs
differing only in the option value emit identical annotation sequences
(same boundaries, kinds and values). -/
theorem claim_C9 (o1 o2 : String) (samples : List Sample) (fuel : Nat) :
    (decodeRun o1 samples fuel).anns = (decodeRun o2 samples fuel).anns := by
  have h : decodeRun o1 samples fuel = setOpt o1 (decodeRun o2 samples fuel) := by
    show (run fuel (initD o1) (mkStr samples)).1 = _
    rw [show initD o1 = setOpt o1 (initD o2) from rfl, run_setOpt]
    rfl
  rw [h]
  rfl

/-- Claim C10: in every execution the classified command key never takes
an extended value, the FIND BTEY_COUNT state is never reached, and no
Byte-Count annotation is ever emitted. -/
theorem claim_C10 (opt : String) (samples : List Sample) (fuel : Nat) :
    (decodeRun opt samples fuel).cmdkey ≠ "ERW" ∧
    (decodeRun opt samples fuel).cmdkey ≠ "ERR" ∧
    (decodeRun opt samples fuel).cmdkey ≠ "ERWL" ∧
    (decodeRun opt samples fuel).cmdkey ≠ "ERRL" ∧
    (decodeRun opt samples fuel).state ≠ "FIND BTEY_COUNT" ∧
    ∀ a ∈ (decodeRun opt samples fuel).anns, a.kind ≠ "BC" := by
  have hW : InvW (decodeRun opt samples fuel) :=
    run_invW fuel (initD opt) (mkStr samples) (initD_inv opt)
  obtain ⟨hGK, hBT, -, hAN⟩ := hW
  refine ⟨?_, ?_, ?_, ?_, hBT, fun a ha => (hAN a ha).1⟩ <;>
    rcases hGK with hg | hg | hg | hg <;> rw [hg] <;> decide

/-- Witness for C10 on a concrete annotation of a concrete run. -/
theorem claim_C10_witness :
    (decodeRun "shifted" streamC5 20).cmdkey ≠ "ERW" ∧
    (⟨0, 3, "SSC", none⟩ : Ann) ∈ (decodeRun "shifted" streamC5 20).anns ∧
    (⟨0, 3, "SSC", none⟩ : Ann).kind ≠ "BC" :=
  ⟨(claim_C10 "shifted" streamC5 20).1, by decide,
   (claim_C10 "shifted" streamC5 20).2.2.2.2.2 ⟨0, 3, "SSC", none⟩ (by decide)⟩

end RFFE
